import Mathlib

/-!
Verification of the pydd ROBDD engine.

The development shallowly embeds the two Python sources of the engine:
`src/pydd/bdd.py` (the main engine, with pre_image and clear) and
`src/pydd/bdd/bdd.py` (an older variant whose `ite` / `conjunction` /
`make` / `get_cofactors` bodies are line-identical to the main engine, and
whose `neg` and `disjunction` differ; the differing functions are embedded
separately below as `negV2F` and `disjunctionV2F`).

Modelling conventions:
- Python dicts become association lists with head insertion; lookups take
  the first matching key (keys are kept duplicate-free by the invariants).
- Python `float("infinity")` levels become the type `Lvl` with `Lvl.inf`.
- A Python `KeyError` / `IndexError` / `TypeError` becomes `none`:
  every operation returns `Option`.
- The unbounded recursion of the Python operators is driven by an explicit
  fuel argument; fuel exhaustion also yields `none`.  Theorems about
  results hold at every fuel, and fuel sufficiency (termination) is proved
  separately.
- `functools.lru_cache` on `ite`, `conjunction`, `disjunction` and
  `pre_image` is modelled by explicit memo tables inside the state, checked
  before and updated after each call, exactly as the decorator does.  The
  decorator's default size bound only drops entries, which never changes a
  returned identifier, so the model keeps every entry.  The cache on
  `get_cofactors` is not given state: that function is a pure reader, and
  caching a pure reader is observationally transparent while its argument
  stays stored; the cache-soundness analysis after `clear` is carried out
  on the `ite` cache.
- `BDDVariable.__eq__` and `__hash__` use only `var_id`, so cache keys and
  table keys mention only `var_id`.
-/

/-- First-match association list lookup, the model of a Python dict read. -/
def lookupA {α β : Type} [DecidableEq α] (k : α) : List (α × β) → Option β
  | [] => none
  | (a, b) :: t => if a = k then some b else lookupA k t

/-- Node levels: a finite variable level or the infinite level of the two
terminal nodes, the model of `float("infinity")`. -/
inductive Lvl where
  | fin : Nat → Lvl
  | inf : Lvl
deriving DecidableEq, Repr

/-- Minimum of two levels, the model of Python `min` on int / float inf. -/
def Lvl.minL : Lvl → Lvl → Lvl
  | .fin a, .fin b => .fin (min a b)
  | .fin a, .inf => .fin a
  | .inf, l => l

/-- Comparison `k < l` of a variable id against a level. -/
def Lvl.natLt (k : Nat) : Lvl → Bool
  | .fin m => decide (k < m)
  | .inf => true

/-- Comparison `l1 ≤ l2` on levels. -/
def Lvl.leL : Lvl → Lvl → Bool
  | _, .inf => true
  | .inf, .fin _ => false
  | .fin a, .fin b => decide (a ≤ b)

/-- Extract a finite level as an index, the model of using the minimum as a
list index (an infinite minimum raises in Python and yields `none` here). -/
def Lvl.idx : Lvl → Option Nat
  | .fin k => some k
  | .inf => none

/-- The model of class `BDDVariable`: `name` is display-only; equality and
hashing in the source use only `var_id`. -/
structure BDDVar where
  name : String
  var_id : Nat
  is_primed : Bool
deriving DecidableEq, Repr

/-- Row of the unique table: `(var_id, high, low)`. -/
abbrev Row : Type := Nat × Nat × Nat

/-- The model of class `BDD`: the manager state.  The four cache fields
model the `functools.lru_cache` memo tables of `ite`, `conjunction`,
`disjunction` and `pre_image`. -/
structure BDD where
  variable_ordering : List BDDVar
  var_id : Nat
  node_id : Nat
  node_to_row : List (Nat × Row)
  row_to_node : List (Row × Nat)
  node_to_var_id : List (Nat × Lvl)
  ite_cache : List ((Nat × Nat × Nat) × Nat)
  and_cache : List ((Nat × Nat) × Nat)
  or_cache : List ((Nat × Nat) × Nat)
  pre_cache : List ((Nat × Nat) × Nat)
deriving Repr, DecidableEq

/-- The model of `BDD.get_one_node`. -/
def get_one_node : Nat := 1

/-- The model of `BDD.get_zero_node`. -/
def get_zero_node : Nat := 0

/-- The model of `BDD.__init__`. -/
def BDD.init : BDD where
  variable_ordering := []
  var_id := 0
  node_id := 2
  node_to_row := []
  row_to_node := []
  node_to_var_id := [(get_one_node, Lvl.inf), (get_zero_node, Lvl.inf)]
  ite_cache := []
  and_cache := []
  or_cache := []
  pre_cache := []

/-- The model of `BDD.create_variable`. -/
def BDD.create_variable (s : BDD) (name : String) (is_primed : Bool) :
    BDDVar × BDD :=
  let v : BDDVar := ⟨name, s.var_id, is_primed⟩
  (v, { s with var_id := s.var_id + 1,
               variable_ordering := s.variable_ordering ++ [v] })

/-- The model of `BDD.get_succs`; a missing node raises `KeyError`. -/
def BDD.get_succs (s : BDD) (n : Nat) : Option (Nat × Nat) :=
  match lookupA n s.node_to_row with
  | none => none
  | some (_, n1, n0) => some (n1, n0)

/-- The model of `BDD.get_cofactors` (it mutates nothing, so it is a pure
reader here; see the header note on its cache). -/
def BDD.get_cofactors (s : BDD) (n : Nat) (vid : Nat) : Option (Nat × Nat) :=
  if n = get_zero_node ∨ n = get_one_node then some (n, n)
  else
    match lookupA n s.node_to_var_id with
    | none => none
    | some l => if Lvl.natLt vid l then some (n, n) else s.get_succs n

/-- The model of `BDD.make`. -/
def BDD.make (s : BDD) (vid n1 n0 : Nat) : Nat × BDD :=
  if n1 = n0 then (n1, s)
  else
    match lookupA (vid, n1, n0) s.row_to_node with
    | some m => (m, s)
    | none =>
      (s.node_id,
       { s with
         node_to_row := (s.node_id, (vid, n1, n0)) :: s.node_to_row,
         node_to_var_id := (s.node_id, Lvl.fin vid) :: s.node_to_var_id,
         row_to_node := ((vid, n1, n0), s.node_id) :: s.row_to_node,
         node_id := s.node_id + 1 })

/-- Record a result in the `ite` memo table, as `lru_cache` does on return. -/
def BDD.putIte (s : BDD) (k : Nat × Nat × Nat) (r : Nat) : BDD :=
  { s with ite_cache := (k, r) :: s.ite_cache }

/-- Record a result in the `conjunction` memo table. -/
def BDD.putAnd (s : BDD) (k : Nat × Nat) (r : Nat) : BDD :=
  { s with and_cache := (k, r) :: s.and_cache }

/-- Record a result in the `disjunction` memo table. -/
def BDD.putOr (s : BDD) (k : Nat × Nat) (r : Nat) : BDD :=
  { s with or_cache := (k, r) :: s.or_cache }

/-- Record a result in the `pre_image` memo table. -/
def BDD.putPre (s : BDD) (k : Nat × Nat) (r : Nat) : BDD :=
  { s with pre_cache := (k, r) :: s.pre_cache }

/-- The model of `BDD.ite` from `src/pydd/bdd.py` lines 130-166 (the body in
`src/pydd/bdd/bdd.py` lines 126-162 is line-identical).  The memo table is
consulted first and every return value is recorded, as `lru_cache` does. -/
def iteF : Nat → BDD → Nat → Nat → Nat → Option (Nat × BDD)
  | 0, s, a, b, c =>
    match lookupA (a, b, c) s.ite_cache with
    | some r => some (r, s)
    | none =>
      if a = get_one_node then some (b, s.putIte (a, b, c) b)
      else if a = get_zero_node then some (c, s.putIte (a, b, c) c)
      else none
  | fuel + 1, s, a, b, c =>
    match lookupA (a, b, c) s.ite_cache with
    | some r => some (r, s)
    | none =>
      if a = get_one_node then some (b, s.putIte (a, b, c) b)
      else if a = get_zero_node then some (c, s.putIte (a, b, c) c)
      else
        match lookupA a s.node_to_var_id, lookupA b s.node_to_var_id,
              lookupA c s.node_to_var_id with
        | some la, some lb, some lc =>
          match (Lvl.minL la (Lvl.minL lb lc)).idx with
          | none => none
          | some mid =>
            match s.variable_ordering.get? mid with
            | none => none
            | some mv =>
              match s.get_cofactors a mv.var_id, s.get_cofactors b mv.var_id,
                    s.get_cofactors c mv.var_id with
              | some (a1, a0), some (b1, b0), some (c1, c0) =>
                match iteF fuel s a1 b1 c1 with
                | none => none
                | some (w1, s1) =>
                  match iteF fuel s1 a0 b0 c0 with
                  | none => none
                  | some (w0, s2) =>
                    if w0 = w1 then some (w0, s2.putIte (a, b, c) w0)
                    else
                      match s2.make mv.var_id w1 w0 with
                      | (r, s3) => some (r, s3.putIte (a, b, c) r)
              | _, _, _ => none
        | _, _, _ => none

/-- The model of `BDD.neg` from `src/pydd/bdd.py`: `ite(a, 0, 1)`. -/
def negF (fuel : Nat) (s : BDD) (a : Nat) : Option (Nat × BDD) :=
  iteF fuel s a get_zero_node get_one_node

/-- The model of `BDD.neg` from the older source `src/pydd/bdd/bdd.py`
line 165: `ite(a, 1, 0)` (arguments in the opposite order). -/
def negV2F (fuel : Nat) (s : BDD) (a : Nat) : Option (Nat × BDD) :=
  iteF fuel s a get_one_node get_zero_node

/-- The model of `BDD.conjunction` from `src/pydd/bdd.py` lines 171-184
(the body in the older source is line-identical). -/
def conjF : Nat → BDD → Nat → Nat → Option (Nat × BDD)
  | 0, s, a, b =>
    match lookupA (a, b) s.and_cache with
    | some r => some (r, s)
    | none =>
      if a = get_zero_node ∨ b = get_zero_node then
        some (get_zero_node, s.putAnd (a, b) get_zero_node)
      else if a = b ∧ a = get_one_node then
        some (get_one_node, s.putAnd (a, b) get_one_node)
      else none
  | fuel + 1, s, a, b =>
    match lookupA (a, b) s.and_cache with
    | some r => some (r, s)
    | none =>
      if a = get_zero_node ∨ b = get_zero_node then
        some (get_zero_node, s.putAnd (a, b) get_zero_node)
      else if a = b ∧ a = get_one_node then
        some (get_one_node, s.putAnd (a, b) get_one_node)
      else
        match lookupA a s.node_to_var_id, lookupA b s.node_to_var_id with
        | some la, some lb =>
          match (Lvl.minL la lb).idx with
          | none => none
          | some mid =>
            match s.variable_ordering.get? mid with
            | none => none
            | some mv =>
              match s.get_cofactors a mv.var_id, s.get_cofactors b mv.var_id with
              | some (a1, a0), some (b1, b0) =>
                match conjF fuel s a1 b1 with
                | none => none
                | some (w1, s1) =>
                  match conjF fuel s1 a0 b0 with
                  | none => none
                  | some (w0, s2) =>
                    match s2.make mv.var_id w1 w0 with
                    | (r, s3) => some (r, s3.putAnd (a, b) r)
              | _, _ => none
        | _, _ => none

/-- The model of `BDD.disjunction` from `src/pydd/bdd.py` lines 186-199:
the `a == b == 0` base case returns the zero node. -/
def disjF : Nat → BDD → Nat → Nat → Option (Nat × BDD)
  | 0, s, a, b =>
    match lookupA (a, b) s.or_cache with
    | some r => some (r, s)
    | none =>
      if a = get_one_node ∨ b = get_one_node then
        some (get_one_node, s.putOr (a, b) get_one_node)
      else if a = b ∧ a = get_zero_node then
        some (get_zero_node, s.putOr (a, b) get_zero_node)
      else none
  | fuel + 1, s, a, b =>
    match lookupA (a, b) s.or_cache with
    | some r => some (r, s)
    | none =>
      if a = get_one_node ∨ b = get_one_node then
        some (get_one_node, s.putOr (a, b) get_one_node)
      else if a = b ∧ a = get_zero_node then
        some (get_zero_node, s.putOr (a, b) get_zero_node)
      else
        match lookupA a s.node_to_var_id, lookupA b s.node_to_var_id with
        | some la, some lb =>
          match (Lvl.minL la lb).idx with
          | none => none
          | some mid =>
            match s.variable_ordering.get? mid with
            | none => none
            | some mv =>
              match s.get_cofactors a mv.var_id, s.get_cofactors b mv.var_id with
              | some (a1, a0), some (b1, b0) =>
                match disjF fuel s a1 b1 with
                | none => none
                | some (w1, s1) =>
                  match disjF fuel s1 a0 b0 with
                  | none => none
                  | some (w0, s2) =>
                    match s2.make mv.var_id w1 w0 with
                    | (r, s3) => some (r, s3.putOr (a, b) r)
              | _, _ => none
        | _, _ => none

/-- The model of `BDD.disjunction` from the older source
`src/pydd/bdd/bdd.py` lines 182-195: identical to `disjF` except that its
`a == b == 0` base case (line 187) returns the ONE node. -/
def disjunctionV2F : Nat → BDD → Nat → Nat → Option (Nat × BDD)
  | 0, s, a, b =>
    match lookupA (a, b) s.or_cache with
    | some r => some (r, s)
    | none =>
      if a = get_one_node ∨ b = get_one_node then
        some (get_one_node, s.putOr (a, b) get_one_node)
      else if a = b ∧ a = get_zero_node then
        some (get_one_node, s.putOr (a, b) get_one_node)
      else none
  | fuel + 1, s, a, b =>
    match lookupA (a, b) s.or_cache with
    | some r => some (r, s)
    | none =>
      if a = get_one_node ∨ b = get_one_node then
        some (get_one_node, s.putOr (a, b) get_one_node)
      else if a = b ∧ a = get_zero_node then
        some (get_one_node, s.putOr (a, b) get_one_node)
      else
        match lookupA a s.node_to_var_id, lookupA b s.node_to_var_id with
        | some la, some lb =>
          match (Lvl.minL la lb).idx with
          | none => none
          | some mid =>
            match s.variable_ordering.get? mid with
            | none => none
            | some mv =>
              match s.get_cofactors a mv.var_id, s.get_cofactors b mv.var_id with
              | some (a1, a0), some (b1, b0) =>
                match disjunctionV2F fuel s a1 b1 with
                | none => none
                | some (w1, s1) =>
                  match disjunctionV2F fuel s1 a0 b0 with
                  | none => none
                  | some (w0, s2) =>
                    match s2.make mv.var_id w1 w0 with
                    | (r, s3) => some (r, s3.putOr (a, b) r)
              | _, _ => none
        | _, _ => none

/-- The model of `BDD.pre_image` from `src/pydd/bdd.py` lines 201-255.
Self-recursion consumes fuel; the embedded `disjunction` calls receive the
same remaining fuel (fuel is a modelling artifact, absent in Python). -/
def preF : Nat → BDD → Nat → Nat → Option (Nat × BDD)
  | 0, s, a, b =>
    match lookupA (a, b) s.pre_cache with
    | some r => some (r, s)
    | none =>
      if a = get_zero_node ∨ b = get_zero_node then
        some (get_zero_node, s.putPre (a, b) get_zero_node)
      else if a = get_one_node ∧ b = get_one_node then
        some (get_one_node, s.putPre (a, b) get_one_node)
      else none
  | fuel + 1, s, a, b =>
    match lookupA (a, b) s.pre_cache with
    | some r => some (r, s)
    | none =>
      if a = get_zero_node ∨ b = get_zero_node then
        some (get_zero_node, s.putPre (a, b) get_zero_node)
      else if a = get_one_node ∧ b = get_one_node then
        some (get_one_node, s.putPre (a, b) get_one_node)
      else
        match lookupA a s.node_to_var_id, lookupA b s.node_to_var_id with
        | some la, some lb =>
          match (Lvl.minL la lb).idx with
          | none => none
          | some mid =>
            match s.variable_ordering.get? mid with
            | none => none
            | some mv =>
              if mv.is_primed then
                match s.get_cofactors a mv.var_id with
                | none => none
                | some (a1, a0) =>
                  match preF fuel s a1 b with
                  | none => none
                  | some (w1, s1) =>
                    match preF fuel s1 a0 b with
                    | none => none
                    | some (w0, s2) =>
                      match disjF fuel s2 w1 w0 with
                      | none => none
                      | some (r, s3) => some (r, s3.putPre (a, b) r)
              else
                match s.variable_ordering.get? (mid + 1) with
                | none => none
                | some mvp =>
                  match s.get_cofactors a mv.var_id, s.get_cofactors b mv.var_id with
                  | some (a1, a0), some (b1, b0) =>
                    match s.get_cofactors a1 mvp.var_id, s.get_cofactors a0 mvp.var_id with
                    | some (a11, a10), some (a01, a00) =>
                      match preF fuel s a10 b0 with
                      | none => none
                      | some (w10, s1) =>
                        match preF fuel s1 a11 b1 with
                        | none => none
                        | some (w11, s2) =>
                          match preF fuel s2 a00 b0 with
                          | none => none
                          | some (w00, s3) =>
                            match preF fuel s3 a01 b1 with
                            | none => none
                            | some (w01, s4) =>
                              match disjF fuel s4 w10 w11 with
                              | none => none
                              | some (h1, s5) =>
                                match disjF fuel s5 w00 w01 with
                                | none => none
                                | some (h0, s6) =>
                                  match s6.make mv.var_id h1 h0 with
                                  | (r, s7) => some (r, s7.putPre (a, b) r)
                    | _, _ => none
                  | _, _ => none
        | _, _ => none

/-- The model of `BDD.node_from_variable`: `make(v, 1, 0)`. -/
def node_from_variable (s : BDD) (v : BDDVar) : Nat × BDD :=
  s.make v.var_id get_one_node get_zero_node

/-- The model of `BDD.create_variable_node`. -/
def BDD.create_variable_node (s : BDD) (name : String) (is_primed : Bool) :
    Nat × BDD :=
  let (v, s1) := s.create_variable name is_primed
  node_from_variable s1 v

/-- One step plus the rest of the breadth-first traversal in `BDD.clear`
lines 273-282: pop the left end of the queue, mark it explored, and append
its unexplored successors.  Fuel exhaustion yields `none`. -/
def bfsF : Nat → BDD → List Nat → List Nat → Option (List Nat)
  | _, _, [], explored => some explored
  | 0, _, _ :: _, _ => none
  | fuel + 1, s, current :: queue, explored =>
    let explored1 := if current ∈ explored then explored else current :: explored
    if current = get_one_node ∨ current = get_zero_node then
      bfsF fuel s queue explored1
    else
      match s.get_succs current with
      | none => none
      | some (n1, n0) =>
        let queue1 := if n1 ∈ explored1 then queue else queue ++ [n1]
        let queue2 := if n0 ∈ explored1 then queue1 else queue1 ++ [n0]
        bfsF fuel s queue2 explored1

/-- The model of `BDD.clear` lines 264-289: traverse from the roots, then
delete every unreachable record from the three node maps.  The four memo
caches are left untouched, exactly as in the source (where `clear` never
invalidates any `lru_cache`). -/
def clearF (fuel : Nat) (s : BDD) (roots : List Nat) : Option BDD :=
  match bfsF fuel s roots [] with
  | none => none
  | some explored =>
    let storedKeys := s.node_to_row.map Prod.fst
    let inactive := storedKeys.filter (fun n => decide (n ∉ explored))
    some { s with
      node_to_row := s.node_to_row.filter (fun p => decide (p.1 ∉ inactive)),
      node_to_var_id := s.node_to_var_id.filter (fun p => decide (p.1 ∉ inactive)),
      row_to_node := s.row_to_node.filter
        (fun q => decide (¬ ∃ n ∈ inactive, lookupA n s.node_to_row = some q.1)) }

/-- Denotation of a node as a Boolean function of an assignment to variable
levels, by unfolding `if v then high else low` through the store; fueled,
with `none` on fuel exhaustion or a dangling identifier. -/
def evalF : Nat → BDD → Nat → (Nat → Bool) → Option Bool
  | 0, _, _, _ => none
  | fuel + 1, s, n, env =>
    if n = get_zero_node then some false
    else if n = get_one_node then some true
    else
      match lookupA n s.node_to_row with
      | none => none
      | some (v, n1, n0) => evalF fuel s (if env v then n1 else n0) env

/-- A node is a terminal or a stored decision node. -/
def sOT (s : BDD) (n : Nat) : Prop :=
  n = get_zero_node ∨ n = get_one_node ∨ (lookupA n s.node_to_row).isSome

/-- Total denotation of a node: fuel `n + 1` suffices on every store whose
decision nodes have children with smaller identifiers (an invariant below);
terminals and dangling identifiers default to `false`. -/
def bval (s : BDD) (n : Nat) (env : Nat → Bool) : Bool :=
  (evalF (n + 1) s n env).getD false

/-- Stage one of the seed pipeline of `src/examples/transition_system.py`:
declare the four interleaved variables and build their nodes (identifiers
`x0 = 2, x0p = 3, x1 = 4, x1p = 5`). -/
def seedVars : (Nat × Nat × Nat × Nat) × BDD :=
  let p1 := BDD.init.create_variable_node "x0" false
  let p2 := p1.2.create_variable_node "x0" true
  let p3 := p2.2.create_variable_node "x1" false
  let p4 := p3.2.create_variable_node "x1" true
  ((p1.1, p2.1, p3.1, p4.1), p4.2)

/-- Intermediate manager states of the seed pipeline of
`src/examples/transition_system.py`, written out as literals so that every
pipeline step is a single operator application checked by evaluation.
`seedSt1` is the state after the four variable nodes exist; each later
state is the result of the next operator call of the pipeline; `seedSt20`
is the state after the pre-image call.  The identifiers of the pipeline:
`x0 = 2, x0p = 3, x1 = 4, x1p = 5, nx0 = 6, nx1 = 7, x00 = 8, x01 = 9,
x10 = 10, x11 = 11, nx0p = 12, nx1p = 13, x01p = 14, x10p = 15, x11p = 16,
t0 = 19, t1 = 22, t2 = 24, t3 = 27, d01 = 29, d23 = 31, delta = 32,
pre = 9`. -/
def seedSt1 : BDD :=
  ⟨[⟨"x0", 0, false⟩, ⟨"x0", 1, true⟩, ⟨"x1", 2, false⟩, ⟨"x1", 3, true⟩], 4, 6, [(5, (3, 1, 0)), (4, (2, 1, 0)), (3, (1, 1, 0)), (2, (0, 1, 0))], [((3, 1, 0), 5), ((2, 1, 0), 4), ((1, 1, 0), 3), ((0, 1, 0), 2)], [(5, Lvl.fin 3), (4, Lvl.fin 2), (3, Lvl.fin 1), (2, Lvl.fin 0), (1, Lvl.inf), (0, Lvl.inf)], [], [], [], []⟩

def seedSt2 : BDD :=
  ⟨[⟨"x0", 0, false⟩, ⟨"x0", 1, true⟩, ⟨"x1", 2, false⟩, ⟨"x1", 3, true⟩], 4, 7, [(6, (0, 0, 1)), (5, (3, 1, 0)), (4, (2, 1, 0)), (3, (1, 1, 0)), (2, (0, 1, 0))], [((0, 0, 1), 6), ((3, 1, 0), 5), ((2, 1, 0), 4), ((1, 1, 0), 3), ((0, 1, 0), 2)], [(6, Lvl.fin 0), (5, Lvl.fin 3), (4, Lvl.fin 2), (3, Lvl.fin 1), (2, Lvl.fin 0), (1, Lvl.inf), (0, Lvl.inf)], [((2, 0, 1), 6), ((0, 0, 1), 1), ((1, 0, 1), 0)], [], [], []⟩

def seedSt3 : BDD :=
  ⟨[⟨"x0", 0, false⟩, ⟨"x0", 1, true⟩, ⟨"x1", 2, false⟩, ⟨"x1", 3, true⟩], 4, 8, [(7, (2, 0, 1)), (6, (0, 0, 1)), (5, (3, 1, 0)), (4, (2, 1, 0)), (3, (1, 1, 0)), (2, (0, 1, 0))], [((2, 0, 1), 7), ((0, 0, 1), 6), ((3, 1, 0), 5), ((2, 1, 0), 4), ((1, 1, 0), 3), ((0, 1, 0), 2)], [(7, Lvl.fin 2), (6, Lvl.fin 0), (5, Lvl.fin 3), (4, Lvl.fin 2), (3, Lvl.fin 1), (2, Lvl.fin 0), (1, Lvl.inf), (0, Lvl.inf)], [((4, 0, 1), 7), ((2, 0, 1), 6), ((0, 0, 1), 1), ((1, 0, 1), 0)], [], [], []⟩

def seedSt4 : BDD :=
  ⟨[⟨"x0", 0, false⟩, ⟨"x0", 1, true⟩, ⟨"x1", 2, false⟩, ⟨"x1", 3, true⟩], 4, 9, [(8, (0, 0, 7)), (7, (2, 0, 1)), (6, (0, 0, 1)), (5, (3, 1, 0)), (4, (2, 1, 0)), (3, (1, 1, 0)), (2, (0, 1, 0))], [((0, 0, 7), 8), ((2, 0, 1), 7), ((0, 0, 1), 6), ((3, 1, 0), 5), ((2, 1, 0), 4), ((1, 1, 0), 3), ((0, 1, 0), 2)], [(8, Lvl.fin 0), (7, Lvl.fin 2), (6, Lvl.fin 0), (5, Lvl.fin 3), (4, Lvl.fin 2), (3, Lvl.fin 1), (2, Lvl.fin 0), (1, Lvl.inf), (0, Lvl.inf)], [((4, 0, 1), 7), ((2, 0, 1), 6), ((0, 0, 1), 1), ((1, 0, 1), 0)], [((6, 7), 8), ((1, 7), 7), ((1, 1), 1), ((1, 0), 0), ((0, 7), 0)], [], []⟩

def seedSt5 : BDD :=
  ⟨[⟨"x0", 0, false⟩, ⟨"x0", 1, true⟩, ⟨"x1", 2, false⟩, ⟨"x1", 3, true⟩], 4, 10, [(9, (0, 0, 4)), (8, (0, 0, 7)), (7, (2, 0, 1)), (6, (0, 0, 1)), (5, (3, 1, 0)), (4, (2, 1, 0)), (3, (1, 1, 0)), (2, (0, 1, 0))], [((0, 0, 4), 9), ((0, 0, 7), 8), ((2, 0, 1), 7), ((0, 0, 1), 6), ((3, 1, 0), 5), ((2, 1, 0), 4), ((1, 1, 0), 3), ((0, 1, 0), 2)], [(9, Lvl.fin 0), (8, Lvl.fin 0), (7, Lvl.fin 2), (6, Lvl.fin 0), (5, Lvl.fin 3), (4, Lvl.fin 2), (3, Lvl.fin 1), (2, Lvl.fin 0), (1, Lvl.inf), (0, Lvl.inf)], [((4, 0, 1), 7), ((2, 0, 1), 6), ((0, 0, 1), 1), ((1, 0, 1), 0)], [((6, 4), 9), ((1, 4), 4), ((0, 4), 0), ((6, 7), 8), ((1, 7), 7), ((1, 1), 1), ((1, 0), 0), ((0, 7), 0)], [], []⟩

def seedSt6 : BDD :=
  ⟨[⟨"x0", 0, false⟩, ⟨"x0", 1, true⟩, ⟨"x1", 2, false⟩, ⟨"x1", 3, true⟩], 4, 11, [(10, (0, 7, 0)), (9, (0, 0, 4)), (8, (0, 0, 7)), (7, (2, 0, 1)), (6, (0, 0, 1)), (5, (3, 1, 0)), (4, (2, 1, 0)), (3, (1, 1, 0)), (2, (0, 1, 0))], [((0, 7, 0), 10), ((0, 0, 4), 9), ((0, 0, 7), 8), ((2, 0, 1), 7), ((0, 0, 1), 6), ((3, 1, 0), 5), ((2, 1, 0), 4), ((1, 1, 0), 3), ((0, 1, 0), 2)], [(10, Lvl.fin 0), (9, Lvl.fin 0), (8, Lvl.fin 0), (7, Lvl.fin 2), (6, Lvl.fin 0), (5, Lvl.fin 3), (4, Lvl.fin 2), (3, Lvl.fin 1), (2, Lvl.fin 0), (1, Lvl.inf), (0, Lvl.inf)], [((4, 0, 1), 7), ((2, 0, 1), 6), ((0, 0, 1), 1), ((1, 0, 1), 0)], [((2, 7), 10), ((6, 4), 9), ((1, 4), 4), ((0, 4), 0), ((6, 7), 8), ((1, 7), 7), ((1, 1), 1), ((1, 0), 0), ((0, 7), 0)], [], []⟩

def seedSt7 : BDD :=
  ⟨[⟨"x0", 0, false⟩, ⟨"x0", 1, true⟩, ⟨"x1", 2, false⟩, ⟨"x1", 3, true⟩], 4, 12, [(11, (0, 4, 0)), (10, (0, 7, 0)), (9, (0, 0, 4)), (8, (0, 0, 7)), (7, (2, 0, 1)), (6, (0, 0, 1)), (5, (3, 1, 0)), (4, (2, 1, 0)), (3, (1, 1, 0)), (2, (0, 1, 0))], [((0, 4, 0), 11), ((0, 7, 0), 10), ((0, 0, 4), 9), ((0, 0, 7), 8), ((2, 0, 1), 7), ((0, 0, 1), 6), ((3, 1, 0), 5), ((2, 1, 0), 4), ((1, 1, 0), 3), ((0, 1, 0), 2)], [(11, Lvl.fin 0), (10, Lvl.fin 0), (9, Lvl.fin 0), (8, Lvl.fin 0), (7, Lvl.fin 2), (6, Lvl.fin 0), (5, Lvl.fin 3), (4, Lvl.fin 2), (3, Lvl.fin 1), (2, Lvl.fin 0), (1, Lvl.inf), (0, Lvl.inf)], [((4, 0, 1), 7), ((2, 0, 1), 6), ((0, 0, 1), 1), ((1, 0, 1), 0)], [((2, 4), 11), ((2, 7), 10), ((6, 4), 9), ((1, 4), 4), ((0, 4), 0), ((6, 7), 8), ((1, 7), 7), ((1, 1), 1), ((1, 0), 0), ((0, 7), 0)], [], []⟩

def seedSt8 : BDD :=
  ⟨[⟨"x0", 0, false⟩, ⟨"x0", 1, true⟩, ⟨"x1", 2, false⟩, ⟨"x1", 3, true⟩], 4, 13, [(12, (1, 0, 1)), (11, (0, 4, 0)), (10, (0, 7, 0)), (9, (0, 0, 4)), (8, (0, 0, 7)), (7, (2, 0, 1)), (6, (0, 0, 1)), (5, (3, 1, 0)), (4, (2, 1, 0)), (3, (1, 1, 0)), (2, (0, 1, 0))], [((1, 0, 1), 12), ((0, 4, 0), 11), ((0, 7, 0), 10), ((0, 0, 4), 9), ((0, 0, 7), 8), ((2, 0, 1), 7), ((0, 0, 1), 6), ((3, 1, 0), 5), ((2, 1, 0), 4), ((1, 1, 0), 3), ((0, 1, 0), 2)], [(12, Lvl.fin 1), (11, Lvl.fin 0), (10, Lvl.fin 0), (9, Lvl.fin 0), (8, Lvl.fin 0), (7, Lvl.fin 2), (6, Lvl.fin 0), (5, Lvl.fin 3), (4, Lvl.fin 2), (3, Lvl.fin 1), (2, Lvl.fin 0), (1, Lvl.inf), (0, Lvl.inf)], [((3, 0, 1), 12), ((4, 0, 1), 7), ((2, 0, 1), 6), ((0, 0, 1), 1), ((1, 0, 1), 0)], [((2, 4), 11), ((2, 7), 10), ((6, 4), 9), ((1, 4), 4), ((0, 4), 0), ((6, 7), 8), ((1, 7), 7), ((1, 1), 1), ((1, 0), 0), ((0, 7), 0)], [], []⟩

def seedSt9 : BDD :=
  ⟨[⟨"x0", 0, false⟩, ⟨"x0", 1, true⟩, ⟨"x1", 2, false⟩, ⟨"x1", 3, true⟩], 4, 14, [(13, (3, 0, 1)), (12, (1, 0, 1)), (11, (0, 4, 0)), (10, (0, 7, 0)), (9, (0, 0, 4)), (8, (0, 0, 7)), (7, (2, 0, 1)), (6, (0, 0, 1)), (5, (3, 1, 0)), (4, (2, 1, 0)), (3, (1, 1, 0)), (2, (0, 1, 0))], [((3, 0, 1), 13), ((1, 0, 1), 12), ((0, 4, 0), 11), ((0, 7, 0), 10), ((0, 0, 4), 9), ((0, 0, 7), 8), ((2, 0, 1), 7), ((0, 0, 1), 6), ((3, 1, 0), 5), ((2, 1, 0), 4), ((1, 1, 0), 3), ((0, 1, 0), 2)], [(13, Lvl.fin 3), (12, Lvl.fin 1), (11, Lvl.fin 0), (10, Lvl.fin 0), (9, Lvl.fin 0), (8, Lvl.fin 0), (7, Lvl.fin 2), (6, Lvl.fin 0), (5, Lvl.fin 3), (4, Lvl.fin 2), (3, Lvl.fin 1), (2, Lvl.fin 0), (1, Lvl.inf), (0, Lvl.inf)], [((5, 0, 1), 13), ((3, 0, 1), 12), ((4, 0, 1), 7), ((2, 0, 1), 6), ((0, 0, 1), 1), ((1, 0, 1), 0)], [((2, 4), 11), ((2, 7), 10), ((6, 4), 9), ((1, 4), 4), ((0, 4), 0), ((6, 7), 8), ((1, 7), 7), ((1, 1), 1), ((1, 0), 0), ((0, 7), 0)], [], []⟩

def seedSt10 : BDD :=
  ⟨[⟨"x0", 0, false⟩, ⟨"x0", 1, true⟩, ⟨"x1", 2, false⟩, ⟨"x1", 3, true⟩], 4, 15, [(14, (1, 0, 5)), (13, (3, 0, 1)), (12, (1, 0, 1)), (11, (0, 4, 0)), (10, (0, 7, 0)), (9, (0, 0, 4)), (8, (0, 0, 7)), (7, (2, 0, 1)), (6, (0, 0, 1)), (5, (3, 1, 0)), (4, (2, 1, 0)), (3, (1, 1, 0)), (2, (0, 1, 0))], [((1, 0, 5), 14), ((3, 0, 1), 13), ((1, 0, 1), 12), ((0, 4, 0), 11), ((0, 7, 0), 10), ((0, 0, 4), 9), ((0, 0, 7), 8), ((2, 0, 1), 7), ((0, 0, 1), 6), ((3, 1, 0), 5), ((2, 1, 0), 4), ((1, 1, 0), 3), ((0, 1, 0), 2)], [(14, Lvl.fin 1), (13, Lvl.fin 3), (12, Lvl.fin 1), (11, Lvl.fin 0), (10, Lvl.fin 0), (9, Lvl.fin 0), (8, Lvl.fin 0), (7, Lvl.fin 2), (6, Lvl.fin 0), (5, Lvl.fin 3), (4, Lvl.fin 2), (3, Lvl.fin 1), (2, Lvl.fin 0), (1, Lvl.inf), (0, Lvl.inf)], [((5, 0, 1), 13), ((3, 0, 1), 12), ((4, 0, 1), 7), ((2, 0, 1), 6), ((0, 0, 1), 1), ((1, 0, 1), 0)], [((12, 5), 14), ((1, 5), 5), ((0, 5), 0), ((2, 4), 11), ((2, 7), 10), ((6, 4), 9), ((1, 4), 4), ((0, 4), 0), ((6, 7), 8), ((1, 7), 7), ((1, 1), 1), ((1, 0), 0), ((0, 7), 0)], [], []⟩

def seedSt11 : BDD :=
  ⟨[⟨"x0", 0, false⟩, ⟨"x0", 1, true⟩, ⟨"x1", 2, false⟩, ⟨"x1", 3, true⟩], 4, 16, [(15, (1, 13, 0)), (14, (1, 0, 5)), (13, (3, 0, 1)), (12, (1, 0, 1)), (11, (0, 4, 0)), (10, (0, 7, 0)), (9, (0, 0, 4)), (8, (0, 0, 7)), (7, (2, 0, 1)), (6, (0, 0, 1)), (5, (3, 1, 0)), (4, (2, 1, 0)), (3, (1, 1, 0)), (2, (0, 1, 0))], [((1, 13, 0), 15), ((1, 0, 5), 14), ((3, 0, 1), 13), ((1, 0, 1), 12), ((0, 4, 0), 11), ((0, 7, 0), 10), ((0, 0, 4), 9), ((0, 0, 7), 8), ((2, 0, 1), 7), ((0, 0, 1), 6), ((3, 1, 0), 5), ((2, 1, 0), 4), ((1, 1, 0), 3), ((0, 1, 0), 2)], [(15, Lvl.fin 1), (14, Lvl.fin 1), (13, Lvl.fin 3), (12, Lvl.fin 1), (11, Lvl.fin 0), (10, Lvl.fin 0), (9, Lvl.fin 0), (8, Lvl.fin 0), (7, Lvl.fin 2), (6, Lvl.fin 0), (5, Lvl.fin 3), (4, Lvl.fin 2), (3, Lvl.fin 1), (2, Lvl.fin 0), (1, Lvl.inf), (0, Lvl.inf)], [((5, 0, 1), 13), ((3, 0, 1), 12), ((4, 0, 1), 7), ((2, 0, 1), 6), ((0, 0, 1), 1), ((1, 0, 1), 0)], [((3, 13), 15), ((0, 13), 0), ((1, 13), 13), ((12, 5), 14), ((1, 5), 5), ((0, 5), 0), ((2, 4), 11), ((2, 7), 10), ((6, 4), 9), ((1, 4), 4), ((0, 4), 0), ((6, 7), 8), ((1, 7), 7), ((1, 1), 1), ((1, 0), 0), ((0, 7), 0)], [], []⟩

def seedSt12 : BDD :=
  ⟨[⟨"x0", 0, false⟩, ⟨"x0", 1, true⟩, ⟨"x1", 2, false⟩, ⟨"x1", 3, true⟩], 4, 17, [(16, (1, 5, 0)), (15, (1, 13, 0)), (14, (1, 0, 5)), (13, (3, 0, 1)), (12, (1, 0, 1)), (11, (0, 4, 0)), (10, (0, 7, 0)), (9, (0, 0, 4)), (8, (0, 0, 7)), (7, (2, 0, 1)), (6, (0, 0, 1)), (5, (3, 1, 0)), (4, (2, 1, 0)), (3, (1, 1, 0)), (2, (0, 1, 0))], [((1, 5, 0), 16), ((1, 13, 0), 15), ((1, 0, 5), 14), ((3, 0, 1), 13), ((1, 0, 1), 12), ((0, 4, 0), 11), ((0, 7, 0), 10), ((0, 0, 4), 9), ((0, 0, 7), 8), ((2, 0, 1), 7), ((0, 0, 1), 6), ((3, 1, 0), 5), ((2, 1, 0), 4), ((1, 1, 0), 3), ((0, 1, 0), 2)], [(16, Lvl.fin 1), (15, Lvl.fin 1), (14, Lvl.fin 1), (13, Lvl.fin 3), (12, Lvl.fin 1), (11, Lvl.fin 0), (10, Lvl.fin 0), (9, Lvl.fin 0), (8, Lvl.fin 0), (7, Lvl.fin 2), (6, Lvl.fin 0), (5, Lvl.fin 3), (4, Lvl.fin 2), (3, Lvl.fin 1), (2, Lvl.fin 0), (1, Lvl.inf), (0, Lvl.inf)], [((5, 0, 1), 13), ((3, 0, 1), 12), ((4, 0, 1), 7), ((2, 0, 1), 6), ((0, 0, 1), 1), ((1, 0, 1), 0)], [((3, 5), 16), ((3, 13), 15), ((0, 13), 0), ((1, 13), 13), ((12, 5), 14), ((1, 5), 5), ((0, 5), 0), ((2, 4), 11), ((2, 7), 10), ((6, 4), 9), ((1, 4), 4), ((0, 4), 0), ((6, 7), 8), ((1, 7), 7), ((1, 1), 1), ((1, 0), 0), ((0, 7), 0)], [], []⟩

def seedSt13 : BDD :=
  ⟨[⟨"x0", 0, false⟩, ⟨"x0", 1, true⟩, ⟨"x1", 2, false⟩, ⟨"x1", 3, true⟩], 4, 20, [(19, (0, 0, 18)), (18, (1, 0, 17)), (17, (2, 0, 5)), (16, (1, 5, 0)), (15, (1, 13, 0)), (14, (1, 0, 5)), (13, (3, 0, 1)), (12, (1, 0, 1)), (11, (0, 4, 0)), (10, (0, 7, 0)), (9, (0, 0, 4)), (8, (0, 0, 7)), (7, (2, 0, 1)), (6, (0, 0, 1)), (5, (3, 1, 0)), (4, (2, 1, 0)), (3, (1, 1, 0)), (2, (0, 1, 0))], [((0, 0, 18), 19), ((1, 0, 17), 18), ((2, 0, 5), 17), ((1, 5, 0), 16), ((1, 13, 0), 15), ((1, 0, 5), 14), ((3, 0, 1), 13), ((1, 0, 1), 12), ((0, 4, 0), 11), ((0, 7, 0), 10), ((0, 0, 4), 9), ((0, 0, 7), 8), ((2, 0, 1), 7), ((0, 0, 1), 6), ((3, 1, 0), 5), ((2, 1, 0), 4), ((1, 1, 0), 3), ((0, 1, 0), 2)], [(19, Lvl.fin 0), (18, Lvl.fin 1), (17, Lvl.fin 2), (16, Lvl.fin 1), (15, Lvl.fin 1), (14, Lvl.fin 1), (13, Lvl.fin 3), (12, Lvl.fin 1), (11, Lvl.fin 0), (10, Lvl.fin 0), (9, Lvl.fin 0), (8, Lvl.fin 0), (7, Lvl.fin 2), (6, Lvl.fin 0), (5, Lvl.fin 3), (4, Lvl.fin 2), (3, Lvl.fin 1), (2, Lvl.fin 0), (1, Lvl.inf), (0, Lvl.inf)], [((5, 0, 1), 13), ((3, 0, 1), 12), ((4, 0, 1), 7), ((2, 0, 1), 6), ((0, 0, 1), 1), ((1, 0, 1), 0)], [((8, 14), 19), ((7, 14), 18), ((7, 5), 17), ((7, 0), 0), ((0, 14), 0), ((3, 5), 16), ((3, 13), 15), ((0, 13), 0), ((1, 13), 13), ((12, 5), 14), ((1, 5), 5), ((0, 5), 0), ((2, 4), 11), ((2, 7), 10), ((6, 4), 9), ((1, 4), 4), ((0, 4), 0), ((6, 7), 8), ((1, 7), 7), ((1, 1), 1), ((1, 0), 0), ((0, 7), 0)], [], []⟩

def seedSt14 : BDD :=
  ⟨[⟨"x0", 0, false⟩, ⟨"x0", 1, true⟩, ⟨"x1", 2, false⟩, ⟨"x1", 3, true⟩], 4, 23, [(22, (0, 0, 21)), (21, (1, 20, 0)), (20, (2, 13, 0)), (19, (0, 0, 18)), (18, (1, 0, 17)), (17, (2, 0, 5)), (16, (1, 5, 0)), (15, (1, 13, 0)), (14, (1, 0, 5)), (13, (3, 0, 1)), (12, (1, 0, 1)), (11, (0, 4, 0)), (10, (0, 7, 0)), (9, (0, 0, 4)), (8, (0, 0, 7)), (7, (2, 0, 1)), (6, (0, 0, 1)), (5, (3, 1, 0)), (4, (2, 1, 0)), (3, (1, 1, 0)), (2, (0, 1, 0))], [((0, 0, 21), 22), ((1, 20, 0), 21), ((2, 13, 0), 20), ((0, 0, 18), 19), ((1, 0, 17), 18), ((2, 0, 5), 17), ((1, 5, 0), 16), ((1, 13, 0), 15), ((1, 0, 5), 14), ((3, 0, 1), 13), ((1, 0, 1), 12), ((0, 4, 0), 11), ((0, 7, 0), 10), ((0, 0, 4), 9), ((0, 0, 7), 8), ((2, 0, 1), 7), ((0, 0, 1), 6), ((3, 1, 0), 5), ((2, 1, 0), 4), ((1, 1, 0), 3), ((0, 1, 0), 2)], [(22, Lvl.fin 0), (21, Lvl.fin 1), (20, Lvl.fin 2), (19, Lvl.fin 0), (18, Lvl.fin 1), (17, Lvl.fin 2), (16, Lvl.fin 1), (15, Lvl.fin 1), (14, Lvl.fin 1), (13, Lvl.fin 3), (12, Lvl.fin 1), (11, Lvl.fin 0), (10, Lvl.fin 0), (9, Lvl.fin 0), (8, Lvl.fin 0), (7, Lvl.fin 2), (6, Lvl.fin 0), (5, Lvl.fin 3), (4, Lvl.fin 2), (3, Lvl.fin 1), (2, Lvl.fin 0), (1, Lvl.inf), (0, Lvl.inf)], [((5, 0, 1), 13), ((3, 0, 1), 12), ((4, 0, 1), 7), ((2, 0, 1), 6), ((0, 0, 1), 1), ((1, 0, 1), 0)], [((9, 15), 22), ((4, 15), 21), ((4, 0), 0), ((4, 13), 20), ((0, 15), 0), ((8, 14), 19), ((7, 14), 18), ((7, 5), 17), ((7, 0), 0), ((0, 14), 0), ((3, 5), 16), ((3, 13), 15), ((0, 13), 0), ((1, 13), 13), ((12, 5), 14), ((1, 5), 5), ((0, 5), 0), ((2, 4), 11), ((2, 7), 10), ((6, 4), 9), ((1, 4), 4), ((0, 4), 0), ((6, 7), 8), ((1, 7), 7), ((1, 1), 1), ((1, 0), 0), ((0, 7), 0)], [], []⟩

def seedSt15 : BDD :=
  ⟨[⟨"x0", 0, false⟩, ⟨"x0", 1, true⟩, ⟨"x1", 2, false⟩, ⟨"x1", 3, true⟩], 4, 25, [(24, (0, 23, 0)), (23, (1, 17, 0)), (22, (0, 0, 21)), (21, (1, 20, 0)), (20, (2, 13, 0)), (19, (0, 0, 18)), (18, (1, 0, 17)), (17, (2, 0, 5)), (16, (1, 5, 0)), (15, (1, 13, 0)), (14, (1, 0, 5)), (13, (3, 0, 1)), (12, (1, 0, 1)), (11, (0, 4, 0)), (10, (0, 7, 0)), (9, (0, 0, 4)), (8, (0, 0, 7)), (7, (2, 0, 1)), (6, (0, 0, 1)), (5, (3, 1, 0)), (4, (2, 1, 0)), (3, (1, 1, 0)), (2, (0, 1, 0))], [((0, 23, 0), 24), ((1, 17, 0), 23), ((0, 0, 21), 22), ((1, 20, 0), 21), ((2, 13, 0), 20), ((0, 0, 18), 19), ((1, 0, 17), 18), ((2, 0, 5), 17), ((1, 5, 0), 16), ((1, 13, 0), 15), ((1, 0, 5), 14), ((3, 0, 1), 13), ((1, 0, 1), 12), ((0, 4, 0), 11), ((0, 7, 0), 10), ((0, 0, 4), 9), ((0, 0, 7), 8), ((2, 0, 1), 7), ((0, 0, 1), 6), ((3, 1, 0), 5), ((2, 1, 0), 4), ((1, 1, 0), 3), ((0, 1, 0), 2)], [(24, Lvl.fin 0), (23, Lvl.fin 1), (22, Lvl.fin 0), (21, Lvl.fin 1), (20, Lvl.fin 2), (19, Lvl.fin 0), (18, Lvl.fin 1), (17, Lvl.fin 2), (16, Lvl.fin 1), (15, Lvl.fin 1), (14, Lvl.fin 1), (13, Lvl.fin 3), (12, Lvl.fin 1), (11, Lvl.fin 0), (10, Lvl.fin 0), (9, Lvl.fin 0), (8, Lvl.fin 0), (7, Lvl.fin 2), (6, Lvl.fin 0), (5, Lvl.fin 3), (4, Lvl.fin 2), (3, Lvl.fin 1), (2, Lvl.fin 0), (1, Lvl.inf), (0, Lvl.inf)], [((5, 0, 1), 13), ((3, 0, 1), 12), ((4, 0, 1), 7), ((2, 0, 1), 6), ((0, 0, 1), 1), ((1, 0, 1), 0)], [((10, 16), 24), ((0, 16), 0), ((7, 16), 23), ((9, 15), 22), ((4, 15), 21), ((4, 0), 0), ((4, 13), 20), ((0, 15), 0), ((8, 14), 19), ((7, 14), 18), ((7, 5), 17), ((7, 0), 0), ((0, 14), 0), ((3, 5), 16), ((3, 13), 15), ((0, 13), 0), ((1, 13), 13), ((12, 5), 14), ((1, 5), 5), ((0, 5), 0), ((2, 4), 11), ((2, 7), 10), ((6, 4), 9), ((1, 4), 4), ((0, 4), 0), ((6, 7), 8), ((1, 7), 7), ((1, 1), 1), ((1, 0), 0), ((0, 7), 0)], [], []⟩

def seedSt16 : BDD :=
  ⟨[⟨"x0", 0, false⟩, ⟨"x0", 1, true⟩, ⟨"x1", 2, false⟩, ⟨"x1", 3, true⟩], 4, 28, [(27, (0, 26, 0)), (26, (1, 0, 25)), (25, (2, 5, 0)), (24, (0, 23, 0)), (23, (1, 17, 0)), (22, (0, 0, 21)), (21, (1, 20, 0)), (20, (2, 13, 0)), (19, (0, 0, 18)), (18, (1, 0, 17)), (17, (2, 0, 5)), (16, (1, 5, 0)), (15, (1, 13, 0)), (14, (1, 0, 5)), (13, (3, 0, 1)), (12, (1, 0, 1)), (11, (0, 4, 0)), (10, (0, 7, 0)), (9, (0, 0, 4)), (8, (0, 0, 7)), (7, (2, 0, 1)), (6, (0, 0, 1)), (5, (3, 1, 0)), (4, (2, 1, 0)), (3, (1, 1, 0)), (2, (0, 1, 0))], [((0, 26, 0), 27), ((1, 0, 25), 26), ((2, 5, 0), 25), ((0, 23, 0), 24), ((1, 17, 0), 23), ((0, 0, 21), 22), ((1, 20, 0), 21), ((2, 13, 0), 20), ((0, 0, 18), 19), ((1, 0, 17), 18), ((2, 0, 5), 17), ((1, 5, 0), 16), ((1, 13, 0), 15), ((1, 0, 5), 14), ((3, 0, 1), 13), ((1, 0, 1), 12), ((0, 4, 0), 11), ((0, 7, 0), 10), ((0, 0, 4), 9), ((0, 0, 7), 8), ((2, 0, 1), 7), ((0, 0, 1), 6), ((3, 1, 0), 5), ((2, 1, 0), 4), ((1, 1, 0), 3), ((0, 1, 0), 2)], [(27, Lvl.fin 0), (26, Lvl.fin 1), (25, Lvl.fin 2), (24, Lvl.fin 0), (23, Lvl.fin 1), (22, Lvl.fin 0), (21, Lvl.fin 1), (20, Lvl.fin 2), (19, Lvl.fin 0), (18, Lvl.fin 1), (17, Lvl.fin 2), (16, Lvl.fin 1), (15, Lvl.fin 1), (14, Lvl.fin 1), (13, Lvl.fin 3), (12, Lvl.fin 1), (11, Lvl.fin 0), (10, Lvl.fin 0), (9, Lvl.fin 0), (8, Lvl.fin 0), (7, Lvl.fin 2), (6, Lvl.fin 0), (5, Lvl.fin 3), (4, Lvl.fin 2), (3, Lvl.fin 1), (2, Lvl.fin 0), (1, Lvl.inf), (0, Lvl.inf)], [((5, 0, 1), 13), ((3, 0, 1), 12), ((4, 0, 1), 7), ((2, 0, 1), 6), ((0, 0, 1), 1), ((1, 0, 1), 0)], [((11, 14), 27), ((4, 14), 26), ((4, 5), 25), ((10, 16), 24), ((0, 16), 0), ((7, 16), 23), ((9, 15), 22), ((4, 15), 21), ((4, 0), 0), ((4, 13), 20), ((0, 15), 0), ((8, 14), 19), ((7, 14), 18), ((7, 5), 17), ((7, 0), 0), ((0, 14), 0), ((3, 5), 16), ((3, 13), 15), ((0, 13), 0), ((1, 13), 13), ((12, 5), 14), ((1, 5), 5), ((0, 5), 0), ((2, 4), 11), ((2, 7), 10), ((6, 4), 9), ((1, 4), 4), ((0, 4), 0), ((6, 7), 8), ((1, 7), 7), ((1, 1), 1), ((1, 0), 0), ((0, 7), 0)], [], []⟩

def seedSt17 : BDD :=
  ⟨[⟨"x0", 0, false⟩, ⟨"x0", 1, true⟩, ⟨"x1", 2, false⟩, ⟨"x1", 3, true⟩], 4, 30, [(29, (0, 0, 28)), (28, (1, 20, 17)), (27, (0, 26, 0)), (26, (1, 0, 25)), (25, (2, 5, 0)), (24, (0, 23, 0)), (23, (1, 17, 0)), (22, (0, 0, 21)), (21, (1, 20, 0)), (20, (2, 13, 0)), (19, (0, 0, 18)), (18, (1, 0, 17)), (17, (2, 0, 5)), (16, (1, 5, 0)), (15, (1, 13, 0)), (14, (1, 0, 5)), (13, (3, 0, 1)), (12, (1, 0, 1)), (11, (0, 4, 0)), (10, (0, 7, 0)), (9, (0, 0, 4)), (8, (0, 0, 7)), (7, (2, 0, 1)), (6, (0, 0, 1)), (5, (3, 1, 0)), (4, (2, 1, 0)), (3, (1, 1, 0)), (2, (0, 1, 0))], [((0, 0, 28), 29), ((1, 20, 17), 28), ((0, 26, 0), 27), ((1, 0, 25), 26), ((2, 5, 0), 25), ((0, 23, 0), 24), ((1, 17, 0), 23), ((0, 0, 21), 22), ((1, 20, 0), 21), ((2, 13, 0), 20), ((0, 0, 18), 19), ((1, 0, 17), 18), ((2, 0, 5), 17), ((1, 5, 0), 16), ((1, 13, 0), 15), ((1, 0, 5), 14), ((3, 0, 1), 13), ((1, 0, 1), 12), ((0, 4, 0), 11), ((0, 7, 0), 10), ((0, 0, 4), 9), ((0, 0, 7), 8), ((2, 0, 1), 7), ((0, 0, 1), 6), ((3, 1, 0), 5), ((2, 1, 0), 4), ((1, 1, 0), 3), ((0, 1, 0), 2)], [(29, Lvl.fin 0), (28, Lvl.fin 1), (27, Lvl.fin 0), (26, Lvl.fin 1), (25, Lvl.fin 2), (24, Lvl.fin 0), (23, Lvl.fin 1), (22, Lvl.fin 0), (21, Lvl.fin 1), (20, Lvl.fin 2), (19, Lvl.fin 0), (18, Lvl.fin 1), (17, Lvl.fin 2), (16, Lvl.fin 1), (15, Lvl.fin 1), (14, Lvl.fin 1), (13, Lvl.fin 3), (12, Lvl.fin 1), (11, Lvl.fin 0), (10, Lvl.fin 0), (9, Lvl.fin 0), (8, Lvl.fin 0), (7, Lvl.fin 2), (6, Lvl.fin 0), (5, Lvl.fin 3), (4, Lvl.fin 2), (3, Lvl.fin 1), (2, Lvl.fin 0), (1, Lvl.inf), (0, Lvl.inf)], [((5, 0, 1), 13), ((3, 0, 1), 12), ((4, 0, 1), 7), ((2, 0, 1), 6), ((0, 0, 1), 1), ((1, 0, 1), 0)], [((11, 14), 27), ((4, 14), 26), ((4, 5), 25), ((10, 16), 24), ((0, 16), 0), ((7, 16), 23), ((9, 15), 22), ((4, 15), 21), ((4, 0), 0), ((4, 13), 20), ((0, 15), 0), ((8, 14), 19), ((7, 14), 18), ((7, 5), 17), ((7, 0), 0), ((0, 14), 0), ((3, 5), 16), ((3, 13), 15), ((0, 13), 0), ((1, 13), 13), ((12, 5), 14), ((1, 5), 5), ((0, 5), 0), ((2, 4), 11), ((2, 7), 10), ((6, 4), 9), ((1, 4), 4), ((0, 4), 0), ((6, 7), 8), ((1, 7), 7), ((1, 1), 1), ((1, 0), 0), ((0, 7), 0)], [((19, 22), 29), ((18, 21), 28), ((17, 0), 17), ((5, 0), 5), ((1, 0), 1), ((0, 20), 20), ((0, 13), 13), ((0, 1), 1), ((0, 0), 0)], []⟩

def seedSt18 : BDD :=
  ⟨[⟨"x0", 0, false⟩, ⟨"x0", 1, true⟩, ⟨"x1", 2, false⟩, ⟨"x1", 3, true⟩], 4, 32, [(31, (0, 30, 0)), (30, (1, 17, 25)), (29, (0, 0, 28)), (28, (1, 20, 17)), (27, (0, 26, 0)), (26, (1, 0, 25)), (25, (2, 5, 0)), (24, (0, 23, 0)), (23, (1, 17, 0)), (22, (0, 0, 21)), (21, (1, 20, 0)), (20, (2, 13, 0)), (19, (0, 0, 18)), (18, (1, 0, 17)), (17, (2, 0, 5)), (16, (1, 5, 0)), (15, (1, 13, 0)), (14, (1, 0, 5)), (13, (3, 0, 1)), (12, (1, 0, 1)), (11, (0, 4, 0)), (10, (0, 7, 0)), (9, (0, 0, 4)), (8, (0, 0, 7)), (7, (2, 0, 1)), (6, (0, 0, 1)), (5, (3, 1, 0)), (4, (2, 1, 0)), (3, (1, 1, 0)), (2, (0, 1, 0))], [((0, 30, 0), 31), ((1, 17, 25), 30), ((0, 0, 28), 29), ((1, 20, 17), 28), ((0, 26, 0), 27), ((1, 0, 25), 26), ((2, 5, 0), 25), ((0, 23, 0), 24), ((1, 17, 0), 23), ((0, 0, 21), 22), ((1, 20, 0), 21), ((2, 13, 0), 20), ((0, 0, 18), 19), ((1, 0, 17), 18), ((2, 0, 5), 17), ((1, 5, 0), 16), ((1, 13, 0), 15), ((1, 0, 5), 14), ((3, 0, 1), 13), ((1, 0, 1), 12), ((0, 4, 0), 11), ((0, 7, 0), 10), ((0, 0, 4), 9), ((0, 0, 7), 8), ((2, 0, 1), 7), ((0, 0, 1), 6), ((3, 1, 0), 5), ((2, 1, 0), 4), ((1, 1, 0), 3), ((0, 1, 0), 2)], [(31, Lvl.fin 0), (30, Lvl.fin 1), (29, Lvl.fin 0), (28, Lvl.fin 1), (27, Lvl.fin 0), (26, Lvl.fin 1), (25, Lvl.fin 2), (24, Lvl.fin 0), (23, Lvl.fin 1), (22, Lvl.fin 0), (21, Lvl.fin 1), (20, Lvl.fin 2), (19, Lvl.fin 0), (18, Lvl.fin 1), (17, Lvl.fin 2), (16, Lvl.fin 1), (15, Lvl.fin 1), (14, Lvl.fin 1), (13, Lvl.fin 3), (12, Lvl.fin 1), (11, Lvl.fin 0), (10, Lvl.fin 0), (9, Lvl.fin 0), (8, Lvl.fin 0), (7, Lvl.fin 2), (6, Lvl.fin 0), (5, Lvl.fin 3), (4, Lvl.fin 2), (3, Lvl.fin 1), (2, Lvl.fin 0), (1, Lvl.inf), (0, Lvl.inf)], [((5, 0, 1), 13), ((3, 0, 1), 12), ((4, 0, 1), 7), ((2, 0, 1), 6), ((0, 0, 1), 1), ((1, 0, 1), 0)], [((11, 14), 27), ((4, 14), 26), ((4, 5), 25), ((10, 16), 24), ((0, 16), 0), ((7, 16), 23), ((9, 15), 22), ((4, 15), 21), ((4, 0), 0), ((4, 13), 20), ((0, 15), 0), ((8, 14), 19), ((7, 14), 18), ((7, 5), 17), ((7, 0), 0), ((0, 14), 0), ((3, 5), 16), ((3, 13), 15), ((0, 13), 0), ((1, 13), 13), ((12, 5), 14), ((1, 5), 5), ((0, 5), 0), ((2, 4), 11), ((2, 7), 10), ((6, 4), 9), ((1, 4), 4), ((0, 4), 0), ((6, 7), 8), ((1, 7), 7), ((1, 1), 1), ((1, 0), 0), ((0, 7), 0)], [((24, 27), 31), ((23, 26), 30), ((0, 25), 25), ((0, 5), 5), ((19, 22), 29), ((18, 21), 28), ((17, 0), 17), ((5, 0), 5), ((1, 0), 1), ((0, 20), 20), ((0, 13), 13), ((0, 1), 1), ((0, 0), 0)], []⟩

def seedSt19 : BDD :=
  ⟨[⟨"x0", 0, false⟩, ⟨"x0", 1, true⟩, ⟨"x1", 2, false⟩, ⟨"x1", 3, true⟩], 4, 33, [(32, (0, 30, 28)), (31, (0, 30, 0)), (30, (1, 17, 25)), (29, (0, 0, 28)), (28, (1, 20, 17)), (27, (0, 26, 0)), (26, (1, 0, 25)), (25, (2, 5, 0)), (24, (0, 23, 0)), (23, (1, 17, 0)), (22, (0, 0, 21)), (21, (1, 20, 0)), (20, (2, 13, 0)), (19, (0, 0, 18)), (18, (1, 0, 17)), (17, (2, 0, 5)), (16, (1, 5, 0)), (15, (1, 13, 0)), (14, (1, 0, 5)), (13, (3, 0, 1)), (12, (1, 0, 1)), (11, (0, 4, 0)), (10, (0, 7, 0)), (9, (0, 0, 4)), (8, (0, 0, 7)), (7, (2, 0, 1)), (6, (0, 0, 1)), (5, (3, 1, 0)), (4, (2, 1, 0)), (3, (1, 1, 0)), (2, (0, 1, 0))], [((0, 30, 28), 32), ((0, 30, 0), 31), ((1, 17, 25), 30), ((0, 0, 28), 29), ((1, 20, 17), 28), ((0, 26, 0), 27), ((1, 0, 25), 26), ((2, 5, 0), 25), ((0, 23, 0), 24), ((1, 17, 0), 23), ((0, 0, 21), 22), ((1, 20, 0), 21), ((2, 13, 0), 20), ((0, 0, 18), 19), ((1, 0, 17), 18), ((2, 0, 5), 17), ((1, 5, 0), 16), ((1, 13, 0), 15), ((1, 0, 5), 14), ((3, 0, 1), 13), ((1, 0, 1), 12), ((0, 4, 0), 11), ((0, 7, 0), 10), ((0, 0, 4), 9), ((0, 0, 7), 8), ((2, 0, 1), 7), ((0, 0, 1), 6), ((3, 1, 0), 5), ((2, 1, 0), 4), ((1, 1, 0), 3), ((0, 1, 0), 2)], [(32, Lvl.fin 0), (31, Lvl.fin 0), (30, Lvl.fin 1), (29, Lvl.fin 0), (28, Lvl.fin 1), (27, Lvl.fin 0), (26, Lvl.fin 1), (25, Lvl.fin 2), (24, Lvl.fin 0), (23, Lvl.fin 1), (22, Lvl.fin 0), (21, Lvl.fin 1), (20, Lvl.fin 2), (19, Lvl.fin 0), (18, Lvl.fin 1), (17, Lvl.fin 2), (16, Lvl.fin 1), (15, Lvl.fin 1), (14, Lvl.fin 1), (13, Lvl.fin 3), (12, Lvl.fin 1), (11, Lvl.fin 0), (10, Lvl.fin 0), (9, Lvl.fin 0), (8, Lvl.fin 0), (7, Lvl.fin 2), (6, Lvl.fin 0), (5, Lvl.fin 3), (4, Lvl.fin 2), (3, Lvl.fin 1), (2, Lvl.fin 0), (1, Lvl.inf), (0, Lvl.inf)], [((5, 0, 1), 13), ((3, 0, 1), 12), ((4, 0, 1), 7), ((2, 0, 1), 6), ((0, 0, 1), 1), ((1, 0, 1), 0)], [((11, 14), 27), ((4, 14), 26), ((4, 5), 25), ((10, 16), 24), ((0, 16), 0), ((7, 16), 23), ((9, 15), 22), ((4, 15), 21), ((4, 0), 0), ((4, 13), 20), ((0, 15), 0), ((8, 14), 19), ((7, 14), 18), ((7, 5), 17), ((7, 0), 0), ((0, 14), 0), ((3, 5), 16), ((3, 13), 15), ((0, 13), 0), ((1, 13), 13), ((12, 5), 14), ((1, 5), 5), ((0, 5), 0), ((2, 4), 11), ((2, 7), 10), ((6, 4), 9), ((1, 4), 4), ((0, 4), 0), ((6, 7), 8), ((1, 7), 7), ((1, 1), 1), ((1, 0), 0), ((0, 7), 0)], [((29, 31), 32), ((28, 0), 28), ((20, 0), 20), ((13, 0), 13), ((0, 30), 30), ((0, 17), 17), ((24, 27), 31), ((23, 26), 30), ((0, 25), 25), ((0, 5), 5), ((19, 22), 29), ((18, 21), 28), ((17, 0), 17), ((5, 0), 5), ((1, 0), 1), ((0, 20), 20), ((0, 13), 13), ((0, 1), 1), ((0, 0), 0)], []⟩

def seedSt20 : BDD :=
  ⟨[⟨"x0", 0, false⟩, ⟨"x0", 1, true⟩, ⟨"x1", 2, false⟩, ⟨"x1", 3, true⟩], 4, 33, [(32, (0, 30, 28)), (31, (0, 30, 0)), (30, (1, 17, 25)), (29, (0, 0, 28)), (28, (1, 20, 17)), (27, (0, 26, 0)), (26, (1, 0, 25)), (25, (2, 5, 0)), (24, (0, 23, 0)), (23, (1, 17, 0)), (22, (0, 0, 21)), (21, (1, 20, 0)), (20, (2, 13, 0)), (19, (0, 0, 18)), (18, (1, 0, 17)), (17, (2, 0, 5)), (16, (1, 5, 0)), (15, (1, 13, 0)), (14, (1, 0, 5)), (13, (3, 0, 1)), (12, (1, 0, 1)), (11, (0, 4, 0)), (10, (0, 7, 0)), (9, (0, 0, 4)), (8, (0, 0, 7)), (7, (2, 0, 1)), (6, (0, 0, 1)), (5, (3, 1, 0)), (4, (2, 1, 0)), (3, (1, 1, 0)), (2, (0, 1, 0))], [((0, 30, 28), 32), ((0, 30, 0), 31), ((1, 17, 25), 30), ((0, 0, 28), 29), ((1, 20, 17), 28), ((0, 26, 0), 27), ((1, 0, 25), 26), ((2, 5, 0), 25), ((0, 23, 0), 24), ((1, 17, 0), 23), ((0, 0, 21), 22), ((1, 20, 0), 21), ((2, 13, 0), 20), ((0, 0, 18), 19), ((1, 0, 17), 18), ((2, 0, 5), 17), ((1, 5, 0), 16), ((1, 13, 0), 15), ((1, 0, 5), 14), ((3, 0, 1), 13), ((1, 0, 1), 12), ((0, 4, 0), 11), ((0, 7, 0), 10), ((0, 0, 4), 9), ((0, 0, 7), 8), ((2, 0, 1), 7), ((0, 0, 1), 6), ((3, 1, 0), 5), ((2, 1, 0), 4), ((1, 1, 0), 3), ((0, 1, 0), 2)], [(32, Lvl.fin 0), (31, Lvl.fin 0), (30, Lvl.fin 1), (29, Lvl.fin 0), (28, Lvl.fin 1), (27, Lvl.fin 0), (26, Lvl.fin 1), (25, Lvl.fin 2), (24, Lvl.fin 0), (23, Lvl.fin 1), (22, Lvl.fin 0), (21, Lvl.fin 1), (20, Lvl.fin 2), (19, Lvl.fin 0), (18, Lvl.fin 1), (17, Lvl.fin 2), (16, Lvl.fin 1), (15, Lvl.fin 1), (14, Lvl.fin 1), (13, Lvl.fin 3), (12, Lvl.fin 1), (11, Lvl.fin 0), (10, Lvl.fin 0), (9, Lvl.fin 0), (8, Lvl.fin 0), (7, Lvl.fin 2), (6, Lvl.fin 0), (5, Lvl.fin 3), (4, Lvl.fin 2), (3, Lvl.fin 1), (2, Lvl.fin 0), (1, Lvl.inf), (0, Lvl.inf)], [((5, 0, 1), 13), ((3, 0, 1), 12), ((4, 0, 1), 7), ((2, 0, 1), 6), ((0, 0, 1), 1), ((1, 0, 1), 0)], [((11, 14), 27), ((4, 14), 26), ((4, 5), 25), ((10, 16), 24), ((0, 16), 0), ((7, 16), 23), ((9, 15), 22), ((4, 15), 21), ((4, 0), 0), ((4, 13), 20), ((0, 15), 0), ((8, 14), 19), ((7, 14), 18), ((7, 5), 17), ((7, 0), 0), ((0, 14), 0), ((3, 5), 16), ((3, 13), 15), ((0, 13), 0), ((1, 13), 13), ((12, 5), 14), ((1, 5), 5), ((0, 5), 0), ((2, 4), 11), ((2, 7), 10), ((6, 4), 9), ((1, 4), 4), ((0, 4), 0), ((6, 7), 8), ((1, 7), 7), ((1, 1), 1), ((1, 0), 0), ((0, 7), 0)], [((0, 4), 4), ((29, 31), 32), ((28, 0), 28), ((20, 0), 20), ((13, 0), 13), ((0, 30), 30), ((0, 17), 17), ((24, 27), 31), ((23, 26), 30), ((0, 25), 25), ((0, 5), 5), ((19, 22), 29), ((18, 21), 28), ((17, 0), 17), ((5, 0), 5), ((1, 0), 1), ((0, 20), 20), ((0, 13), 13), ((0, 1), 1), ((0, 0), 0)], [((32, 10), 9), ((20, 7), 4), ((1, 1), 1), ((17, 0), 0), ((17, 7), 0), ((1, 0), 0), ((0, 0), 0), ((0, 1), 0), ((25, 0), 0)]⟩

/-- A four-step run of the main engine: declare `x0`, build its node
(identifier 2), negate it (allocating identifier 3 and filling the `ite`
cache), then collect garbage with root set `[2]`. -/
def gcRun : Option BDD := do
  let (x0, s) := BDD.init.create_variable_node "x0" false
  let (_, s) ← negF 10 s x0
  clearF 100 s [x0]

/-- Empty all four memo tables; the model of recomputing from scratch. -/
def wipeCaches (s : BDD) : BDD :=
  { s with ite_cache := [], and_cache := [], or_cache := [], pre_cache := [] }

/-- Finite level of a node for fuel accounting: a stored node yields its
variable level, terminals and unknown nodes yield the variable count. -/
def capL (s : BDD) (n : Nat) : Nat :=
  match lookupA n s.node_to_var_id with
  | some (Lvl.fin k) => min k s.variable_ordering.length
  | _ => s.variable_ordering.length

/-- Store extension: every map entry of `s` persists in `t`, the registry
is unchanged and the allocation counter does not decrease.  All operators
only ever grow the store. -/
def StoreExt (s t : BDD) : Prop :=
  t.variable_ordering = s.variable_ordering ∧
  s.node_id ≤ t.node_id ∧
  (∀ n r, lookupA n s.node_to_row = some r → lookupA n t.node_to_row = some r) ∧
  (∀ n l, lookupA n s.node_to_var_id = some l → lookupA n t.node_to_var_id = some l) ∧
  (∀ k m, lookupA k s.row_to_node = some m → lookupA k t.row_to_node = some m)

/-- The store invariants of the manager: I1 reducedness, I2 uniqueness via
the two mutually inverse maps, I3 ordering, the level map discipline, the
freshness discipline of identifiers (children below parents, everything
below the allocation counter) and the registry discipline. -/
structure StoreInv (s : BDD) : Prop where
  nodupRows : (s.node_to_row.map Prod.fst).Nodup
  nodupRtn : (s.row_to_node.map Prod.fst).Nodup
  nodupVarMap : (s.node_to_var_id.map Prod.fst).Nodup
  rows_ge2 : ∀ p ∈ s.node_to_row, 2 ≤ p.1
  rows_lt_id : ∀ p ∈ s.node_to_row, p.1 < s.node_id
  two_le_id : 2 ≤ s.node_id
  inv1 : ∀ p ∈ s.node_to_row, lookupA p.2 s.row_to_node = some p.1
  inv2 : ∀ q ∈ s.row_to_node, lookupA q.2 s.node_to_row = some q.1
  var_of_row : ∀ p ∈ s.node_to_row,
    lookupA p.1 s.node_to_var_id = some (Lvl.fin p.2.1)
  var_zero : lookupA 0 s.node_to_var_id = some Lvl.inf
  var_one : lookupA 1 s.node_to_var_id = some Lvl.inf
  var_dom : ∀ q ∈ s.node_to_var_id,
    q.1 = 0 ∨ q.1 = 1 ∨ (lookupA q.1 s.node_to_row).isSome
  reduced : ∀ p ∈ s.node_to_row, p.2.2.1 ≠ p.2.2.2
  hi_sOT : ∀ p ∈ s.node_to_row,
    p.2.2.1 = 0 ∨ p.2.2.1 = 1 ∨ (lookupA p.2.2.1 s.node_to_row).isSome
  lo_sOT : ∀ p ∈ s.node_to_row,
    p.2.2.2 = 0 ∨ p.2.2.2 = 1 ∨ (lookupA p.2.2.2 s.node_to_row).isSome
  hi_lt : ∀ p ∈ s.node_to_row, p.2.2.1 < p.1
  lo_lt : ∀ p ∈ s.node_to_row, p.2.2.2 < p.1
  hi_ord : ∀ p ∈ s.node_to_row, ∀ l,
    lookupA p.2.2.1 s.node_to_var_id = some l → Lvl.natLt p.2.1 l = true
  lo_ord : ∀ p ∈ s.node_to_row, ∀ l,
    lookupA p.2.2.2 s.node_to_var_id = some l → Lvl.natLt p.2.1 l = true
  var_lt_len : ∀ p ∈ s.node_to_row, p.2.1 < s.variable_ordering.length
  reg_ids : ∀ i v, s.variable_ordering.get? i = some v → v.var_id = i

/-- Soundness of one `ite` memo entry: the key and value are stored or
terminal, the value denotes the if-then-else of the key denotations, and the
value level is at least the minimum key level. -/
def IteEntryOk (s : BDD) (e : (Nat × Nat × Nat) × Nat) : Prop :=
  sOT s e.1.1 ∧ sOT s e.1.2.1 ∧ sOT s e.1.2.2 ∧ sOT s e.2 ∧
  (∀ la lb lc lr,
    lookupA e.1.1 s.node_to_var_id = some la →
    lookupA e.1.2.1 s.node_to_var_id = some lb →
    lookupA e.1.2.2 s.node_to_var_id = some lc →
    lookupA e.2 s.node_to_var_id = some lr →
    Lvl.leL (Lvl.minL la (Lvl.minL lb lc)) lr = true) ∧
  ∀ env, bval s e.2 env =
    cond (bval s e.1.1 env) (bval s e.1.2.1 env) (bval s e.1.2.2 env)

/-- Soundness of one `conjunction` memo entry. -/
def AndEntryOk (s : BDD) (e : (Nat × Nat) × Nat) : Prop :=
  sOT s e.1.1 ∧ sOT s e.1.2 ∧ sOT s e.2 ∧
  (∀ la lb lr,
    lookupA e.1.1 s.node_to_var_id = some la →
    lookupA e.1.2 s.node_to_var_id = some lb →
    lookupA e.2 s.node_to_var_id = some lr →
    Lvl.leL (Lvl.minL la lb) lr = true) ∧
  ∀ env, bval s e.2 env = (bval s e.1.1 env && bval s e.1.2 env)

/-- Reachability through child edges of the store, from a root set. -/
inductive Reach (s : BDD) (roots : List Nat) : Nat → Prop where
  | mem : ∀ {n}, n ∈ roots → Reach s roots n
  | hi : ∀ {m v h l}, Reach s roots m →
      lookupA m s.node_to_row = some (v, h, l) → Reach s roots h
  | lo : ∀ {m v h l}, Reach s roots m →
      lookupA m s.node_to_row = some (v, h, l) → Reach s roots l

/-- Every decision node in the diagram of `n` tests an unprimed variable
(one at an even level); this is what it means for a node to be written over
the unprimed variables under the interleaved ordering. -/
def EvenSupp (s : BDD) (n : Nat) : Prop :=
  ∀ m v h l, Reach s [n] m → lookupA m s.node_to_row = some (v, h, l) →
    v % 2 = 0

/-- Soundness of one `disjunction` memo entry; it also records that the
disjunction of unprimed-support operands has unprimed support. -/
def OrEntryOk (s : BDD) (e : (Nat × Nat) × Nat) : Prop :=
  sOT s e.1.1 ∧ sOT s e.1.2 ∧ sOT s e.2 ∧
  (∀ la lb lr,
    lookupA e.1.1 s.node_to_var_id = some la →
    lookupA e.1.2 s.node_to_var_id = some lb →
    lookupA e.2 s.node_to_var_id = some lr →
    Lvl.leL (Lvl.minL la lb) lr = true) ∧
  (EvenSupp s e.1.1 → EvenSupp s e.1.2 → EvenSupp s e.2) ∧
  ∀ env, bval s e.2 env = (bval s e.1.1 env || bval s e.1.2 env)

/-- The registry is interleaved: an even count of variables, the variable
at each even level unprimed and at each odd level primed. -/
def Interleaved (s : BDD) : Prop :=
  s.variable_ordering.length % 2 = 0 ∧
  ∀ i v, s.variable_ordering.get? i = some v → v.is_primed = decide (i % 2 = 1)

/-- Assignment of the primed levels from `g`, leaving the unprimed levels
to `env`: the combined input `(x, xp)` of a transition relation. -/
def mixenv (env g : Nat → Bool) : Nat → Bool :=
  fun l => if l % 2 = 1 then g l else env l

/-- Reading of a target set written over unprimed variables at the primed
values `g`: the variable at level `2i` takes the value of level `2i + 1`. -/
def liftg (g : Nat → Bool) : Nat → Bool :=
  fun l => g (l + 1)

/-- The pre-image relation `∃ xp, T(x, xp) ∧ S(xp)` that `pre_image`
computes: some assignment of the primed levels satisfies the transition
relation from `env` and puts the primed state inside the target set. -/
def PreSem (s : BDD) (a b : Nat) (env : Nat → Bool) : Prop :=
  ∃ g : Nat → Bool, bval s a (mixenv env g) = true ∧ bval s b (liftg g) = true

/-- Soundness of one `pre_image` memo entry, under the preconditions of the
algorithm: interleaved registry and a target set over unprimed variables. -/
def PreEntryOk (s : BDD) (e : (Nat × Nat) × Nat) : Prop :=
  sOT s e.1.1 ∧ sOT s e.1.2 ∧
  (Interleaved s → EvenSupp s e.1.2 →
   (sOT s e.2 ∧ EvenSupp s e.2 ∧
    (∀ la lb lr,
      lookupA e.1.1 s.node_to_var_id = some la →
      lookupA e.1.2 s.node_to_var_id = some lb →
      lookupA e.2 s.node_to_var_id = some lr →
      Lvl.leL (Lvl.minL la lb) lr = true) ∧
    ∀ env, bval s e.2 env = true ↔ PreSem s e.1.1 e.1.2 env))

/-- The full manager invariant: the store invariants together with the
soundness of every `ite`, `conjunction` and `disjunction` memo entry
(`pre_image` entries are tracked separately by `PreOk`, because their
soundness is conditional on the registry being interleaved). -/
structure WF (s : BDD) : Prop where
  store : StoreInv s
  iteOk : ∀ e ∈ s.ite_cache, IteEntryOk s e
  andOk : ∀ e ∈ s.and_cache, AndEntryOk s e
  orOk : ∀ e ∈ s.or_cache, OrEntryOk s e

/-- Soundness of every `pre_image` memo entry. -/
def PreOk (s : BDD) : Prop := ∀ e ∈ s.pre_cache, PreEntryOk s e

/-- Invariants I1 and I2 of the specification: no stored decision node has
equal children, and the node-to-row and row-to-node maps are mutually
inverse, so no two distinct stored identifiers share a row. -/
def I1I2 (s : BDD) : Prop :=
  (∀ p ∈ s.node_to_row, p.2.2.1 ≠ p.2.2.2) ∧
  (∀ p ∈ s.node_to_row, lookupA p.2 s.row_to_node = some p.1) ∧
  (∀ q ∈ s.row_to_node, lookupA q.2 s.node_to_row = some q.1)

/-- Boolean formulas over the declared variables, built by the public
operators: variable leaves, negation, conjunction, disjunction and
if-then-else. -/
inductive Formula where
  | var : Nat → Formula
  | neg : Formula → Formula
  | conj : Formula → Formula → Formula
  | disj : Formula → Formula → Formula
  | ifte : Formula → Formula → Formula → Formula

/-- Truth-table semantics of a formula under an assignment to levels. -/
def Formula.sem : Formula → (Nat → Bool) → Bool
  | .var i, env => env i
  | .neg f, env => ! f.sem env
  | .conj f g, env => f.sem env && g.sem env
  | .disj f g, env => f.sem env || g.sem env
  | .ifte f g h, env => cond (f.sem env) (g.sem env) (h.sem env)

/-- Build the diagram of a formula through the public operators:
`node_from_variable` for leaves, `neg`, `conjunction`, `disjunction` and
`ite` for the connectives. -/
def buildF (fuel : Nat) : BDD → Formula → Option (Nat × BDD)
  | s, .var i =>
    match s.variable_ordering.get? i with
    | none => none
    | some v => some (node_from_variable s v)
  | s, .neg f =>
    match buildF fuel s f with
    | none => none
    | some (a, s1) => negF fuel s1 a
  | s, .conj f g =>
    match buildF fuel s f with
    | none => none
    | some (a, s1) =>
      match buildF fuel s1 g with
      | none => none
      | some (b, s2) => conjF fuel s2 a b
  | s, .disj f g =>
    match buildF fuel s f with
    | none => none
    | some (a, s1) =>
      match buildF fuel s1 g with
      | none => none
      | some (b, s2) => disjF fuel s2 a b
  | s, .ifte f g h =>
    match buildF fuel s f with
    | none => none
    | some (a, s1) =>
      match buildF fuel s1 g with
      | none => none
      | some (b, s2) =>
        match buildF fuel s2 h with
        | none => none
        | some (c, s3) => iteF fuel s3 a b c

/-- Point update of an assignment. -/
def setEnv (env : Nat → Bool) (k : Nat) (b : Bool) : Nat → Bool :=
  fun i => if i = k then b else env i

/-- A one-variable store: `x0` declared and its indicator node `2` built,
used as a small concrete manager for instantiations. -/
def stW : BDD :=
  ⟨[⟨"x0", 0, false⟩], 1, 3, [(2, (0, 1, 0))], [((0, 1, 0), 2)],
   [(2, Lvl.fin 0), (1, Lvl.inf), (0, Lvl.inf)], [], [], [], []⟩

/-- The store obtained from `stW` by building `¬¬x0` through `ite`. -/
def stW2 : BDD :=
  ⟨[⟨"x0", 0, false⟩], 1, 4, [(3, (0, 0, 1)), (2, (0, 1, 0))],
   [((0, 0, 1), 3), ((0, 1, 0), 2)],
   [(3, Lvl.fin 0), (2, Lvl.fin 0), (1, Lvl.inf), (0, Lvl.inf)],
   [((3, 0, 1), 2), ((2, 0, 1), 3), ((0, 0, 1), 1), ((1, 0, 1), 0)],
   [], [], []⟩

-- ===== THEOREMS =====

theorem lookupA_nil {α β : Type} [DecidableEq α] (k : α) :
    lookupA k ([] : List (α × β)) = none := rfl

theorem lookupA_cons {α β : Type} [DecidableEq α] (k a : α) (b : β) (t : List (α × β)) :
    lookupA k ((a, b) :: t) = if a = k then some b else lookupA k t := rfl

theorem lookupA_isSome_iff {α β : Type} [DecidableEq α] (k : α) (l : List (α × β)) :
    (lookupA k l).isSome ↔ ∃ b, (k, b) ∈ l := by
  induction l with
  | nil => simp [lookupA]
  | cons p t ih =>
    obtain ⟨a, b⟩ := p
    by_cases h : a = k
    · subst h; simp [lookupA]
    · simp only [lookupA, if_neg h, ih, List.mem_cons]
      constructor
      · rintro ⟨b', hb⟩; exact ⟨b', Or.inr hb⟩
      · rintro ⟨b', hb | hb⟩
        · cases hb; exact absurd rfl h
        · exact ⟨b', hb⟩

theorem lookupA_eq_some_mem {α β : Type} [DecidableEq α] {k : α} {b : β}
    {l : List (α × β)} (h : lookupA k l = some b) : (k, b) ∈ l := by
  induction l with
  | nil => simp [lookupA] at h
  | cons p t ih =>
    obtain ⟨a, b'⟩ := p
    by_cases ha : a = k
    · subst ha
      simp only [lookupA, if_pos, Option.some.injEq] at h
      subst h; exact List.mem_cons_self _ _
    · simp only [lookupA, if_neg ha] at h
      exact List.mem_cons_of_mem _ (ih h)

theorem lookupA_of_mem_nodup {α β : Type} [DecidableEq α] {k : α} {b : β}
    {l : List (α × β)} (hnd : (l.map Prod.fst).Nodup) (h : (k, b) ∈ l) :
    lookupA k l = some b := by
  induction l with
  | nil => simp at h
  | cons p t ih =>
    obtain ⟨a, b'⟩ := p
    simp only [List.map_cons, List.nodup_cons] at hnd
    rcases List.mem_cons.mp h with h1 | h1
    · cases h1; simp [lookupA]
    · have hak : a ≠ k := by
        intro he; subst he
        exact hnd.1 (List.mem_map.mpr ⟨(a, b), h1, rfl⟩)
      simp only [lookupA, if_neg hak]
      exact ih hnd.2 h1

theorem lookupA_eq_none {α β : Type} [DecidableEq α] {k : α} {l : List (α × β)}
    (h : lookupA k l = none) : ∀ b, (k, b) ∉ l := by
  intro b hb
  have := lookupA_of_mem_nodup (l := l) (k := k) (b := b)
  have hs : (lookupA k l).isSome := (lookupA_isSome_iff k l).mpr ⟨b, hb⟩
  rw [h] at hs; simp at hs

/-- Stage one of the seed pipeline, checked by evaluation. -/
theorem seedVars_eq : seedVars = ((2, 3, 4, 5), seedSt1) := by decide

/-- Seed pipeline step, the negation of x0, checked by evaluation. -/
theorem seedStep2 :
    negF 10 seedSt1 2 = some (6, seedSt2) := by
  decide

/-- Seed pipeline step, the negation of x1, checked by evaluation. -/
theorem seedStep3 :
    negF 10 seedSt2 4 = some (7, seedSt3) := by
  decide

/-- Seed pipeline step, x00 as the conjunction of nx0 and nx1, checked by evaluation. -/
theorem seedStep4 :
    conjF 10 seedSt3 6 7 = some (8, seedSt4) := by
  decide

/-- Seed pipeline step, x01 as the conjunction of nx0 and x1, checked by evaluation. -/
theorem seedStep5 :
    conjF 10 seedSt4 6 4 = some (9, seedSt5) := by
  decide

/-- Seed pipeline step, x10 as the conjunction of x0 and nx1, checked by evaluation. -/
theorem seedStep6 :
    conjF 10 seedSt5 2 7 = some (10, seedSt6) := by
  decide

/-- Seed pipeline step, x11 as the conjunction of x0 and x1, checked by evaluation. -/
theorem seedStep7 :
    conjF 10 seedSt6 2 4 = some (11, seedSt7) := by
  decide

/-- Seed pipeline step, the negation of x0p, checked by evaluation. -/
theorem seedStep8 :
    negF 10 seedSt7 3 = some (12, seedSt8) := by
  decide

/-- Seed pipeline step, the negation of x1p, checked by evaluation. -/
theorem seedStep9 :
    negF 10 seedSt8 5 = some (13, seedSt9) := by
  decide

/-- Seed pipeline step, x01p as the conjunction of nx0p and x1p, checked by evaluation. -/
theorem seedStep10 :
    conjF 10 seedSt9 12 5 = some (14, seedSt10) := by
  decide

/-- Seed pipeline step, x10p as the conjunction of x0p and nx1p, checked by evaluation. -/
theorem seedStep11 :
    conjF 10 seedSt10 3 13 = some (15, seedSt11) := by
  decide

/-- Seed pipeline step, x11p as the conjunction of x0p and x1p, checked by evaluation. -/
theorem seedStep12 :
    conjF 10 seedSt11 3 5 = some (16, seedSt12) := by
  decide

/-- Seed pipeline step, t0 as the conjunction of x00 and x01p, checked by evaluation. -/
theorem seedStep13 :
    conjF 10 seedSt12 8 14 = some (19, seedSt13) := by
  decide

/-- Seed pipeline step, t1 as the conjunction of x01 and x10p, checked by evaluation. -/
theorem seedStep14 :
    conjF 10 seedSt13 9 15 = some (22, seedSt14) := by
  decide

/-- Seed pipeline step, t2 as the conjunction of x10 and x11p, checked by evaluation. -/
theorem seedStep15 :
    conjF 10 seedSt14 10 16 = some (24, seedSt15) := by
  decide

/-- Seed pipeline step, t3 as the conjunction of x11 and x01p, checked by evaluation. -/
theorem seedStep16 :
    conjF 10 seedSt15 11 14 = some (27, seedSt16) := by
  decide

/-- Seed pipeline step, d01 as the disjunction of t0 and t1, checked by evaluation. -/
theorem seedStep17 :
    disjF 10 seedSt16 19 22 = some (29, seedSt17) := by
  decide

/-- Seed pipeline step, d23 as the disjunction of t2 and t3, checked by evaluation. -/
theorem seedStep18 :
    disjF 10 seedSt17 24 27 = some (31, seedSt18) := by
  decide

/-- Seed pipeline step, delta as the disjunction of d01 and d23, checked by evaluation. -/
theorem seedStep19 :
    disjF 10 seedSt18 29 31 = some (32, seedSt19) := by
  decide

/-- Seed pipeline step, the pre-image of x10 under delta, checked by evaluation. -/
theorem seedStep20 :
    preF 10 seedSt19 32 10 = some (9, seedSt20) := by
  decide


theorem sOT_zero (s : BDD) : sOT s 0 := Or.inl rfl

theorem sOT_one (s : BDD) : sOT s 1 := Or.inr (Or.inl rfl)

theorem sOT_of_row {s : BDD} {n : Nat} {r : Row}
    (h : lookupA n s.node_to_row = some r) : sOT s n := by
  exact Or.inr (Or.inr (by simp [h]))

theorem Lvl.minL_le_left : ∀ a b : Lvl, Lvl.leL (Lvl.minL a b) a = true
  | .fin x, .fin y => by simp [Lvl.minL, Lvl.leL, Nat.min_le_left]
  | .fin x, .inf => by simp [Lvl.minL, Lvl.leL]
  | .inf, .fin y => by simp [Lvl.minL, Lvl.leL]
  | .inf, .inf => by simp [Lvl.minL, Lvl.leL]

theorem Lvl.minL_le_right : ∀ a b : Lvl, Lvl.leL (Lvl.minL a b) b = true
  | .fin x, .fin y => by simp [Lvl.minL, Lvl.leL, Nat.min_le_right]
  | .fin x, .inf => by simp [Lvl.minL, Lvl.leL]
  | .inf, .fin y => by simp [Lvl.minL, Lvl.leL]
  | .inf, .inf => by simp [Lvl.minL, Lvl.leL]

theorem Lvl.leL_refl : ∀ a : Lvl, Lvl.leL a a = true
  | .fin x => by simp [Lvl.leL]
  | .inf => by simp [Lvl.leL]

theorem Lvl.leL_trans : ∀ {a b c : Lvl}, Lvl.leL a b = true →
    Lvl.leL b c = true → Lvl.leL a c = true
  | _, _, .inf, _, _ => by simp [Lvl.leL]
  | .fin x, .fin y, .fin z, h1, h2 => by
    simp only [Lvl.leL, decide_eq_true_eq] at h1 h2 ⊢
    omega
  | .inf, .fin y, .fin z, h1, _ => by simp [Lvl.leL] at h1
  | .fin x, .inf, .fin z, _, h2 => by simp [Lvl.leL] at h2
  | .inf, .inf, .fin z, _, h2 => by simp [Lvl.leL] at h2

theorem Lvl.natLt_of_lt_of_le {k : Nat} : ∀ {a b : Lvl},
    Lvl.natLt k a = true → Lvl.leL a b = true → Lvl.natLt k b = true
  | _, .inf, _, _ => rfl
  | .fin x, .fin y, h1, h2 => by
    simp only [Lvl.natLt, Lvl.leL, decide_eq_true_eq] at h1 h2 ⊢
    omega
  | .inf, .fin y, _, h2 => by simp [Lvl.leL] at h2

theorem Lvl.minL_natLt {k : Nat} : ∀ {a b : Lvl},
    Lvl.natLt k a = true → Lvl.natLt k b = true →
    Lvl.natLt k (Lvl.minL a b) = true
  | .fin x, .fin y, h1, h2 => by
    simp only [Lvl.natLt, Lvl.minL, decide_eq_true_eq] at h1 h2 ⊢
    omega
  | .fin x, .inf, h1, _ => h1
  | .inf, .fin y, _, h2 => h2
  | .inf, .inf, _, _ => rfl

theorem Lvl.minL_cases : ∀ a b : Lvl, Lvl.minL a b = a ∨ Lvl.minL a b = b
  | .fin x, .fin y => by
    by_cases h : x ≤ y
    · exact Or.inl (by simp [Lvl.minL, Nat.min_eq_left h])
    · exact Or.inr (by simp [Lvl.minL, Nat.min_eq_right (Nat.le_of_not_le h)])
  | .fin x, .inf => Or.inl rfl
  | .inf, .fin y => Or.inr rfl
  | .inf, .inf => Or.inl rfl

theorem evalF_mono {s : BDD} {n : Nat} {env : Nat → Bool} {x : Bool} :
    ∀ {f f' : Nat}, f ≤ f' → evalF f s n env = some x →
    evalF f' s n env = some x := by
  intro f
  induction f generalizing n with
  | zero => intro f' _ h; simp [evalF] at h
  | succ f ih =>
    intro f' hle h
    obtain ⟨f'', rfl⟩ : ∃ f'', f' = f'' + 1 :=
      ⟨f' - 1, by omega⟩
    simp only [evalF] at h ⊢
    by_cases h0 : n = get_zero_node
    · simpa [h0] using h
    · by_cases h1 : n = get_one_node
      · simpa [h0, h1] using h
      · simp only [if_neg h0, if_neg h1] at h ⊢
        cases hr : lookupA n s.node_to_row with
        | none => simp [hr] at h
        | some r =>
          obtain ⟨v, n1, n0⟩ := r
          simp only [hr] at h ⊢
          exact ih (by omega) h

/-- On a store whose decision nodes have children with smaller identifiers,
fuel `n + 1` evaluates node `n`. -/
theorem eval_total {s : BDD} (hs : StoreInv s) :
    ∀ n, sOT s n → ∀ env, ∃ x, evalF (n + 1) s n env = some x := by
  intro n
  induction n using Nat.strong_induction_on with
  | _ n ih =>
    intro hn env
    rcases hn with h0 | h1 | hrow
    · exact ⟨false, by simp [h0, evalF, get_zero_node]⟩
    · exact ⟨true, by simp [h1, evalF, get_one_node, get_zero_node]⟩
    · rw [Option.isSome_iff_exists] at hrow
      obtain ⟨⟨v, n1, n0⟩, hr⟩ := hrow
      have hmem := lookupA_eq_some_mem hr
      have h2 : 2 ≤ n := hs.rows_ge2 _ hmem
      have hhi : n1 < n := hs.hi_lt _ hmem
      have hlo : n0 < n := hs.lo_lt _ hmem
      have hhiS : sOT s n1 := by
        rcases hs.hi_sOT _ hmem with h | h | h
        · exact Or.inl h
        · exact Or.inr (Or.inl h)
        · exact Or.inr (Or.inr h)
      have hloS : sOT s n0 := by
        rcases hs.lo_sOT _ hmem with h | h | h
        · exact Or.inl h
        · exact Or.inr (Or.inl h)
        · exact Or.inr (Or.inr h)
      have hne0 : n ≠ get_zero_node := by simp [get_zero_node]; omega
      have hne1 : n ≠ get_one_node := by simp [get_one_node]; omega
      cases henv : env v with
      | true =>
        obtain ⟨x, hx⟩ := ih n1 hhi hhiS env
        refine ⟨x, ?_⟩
        simp only [evalF, if_neg hne0, if_neg hne1, hr, henv, if_pos]
        exact evalF_mono (by omega) hx
      | false =>
        obtain ⟨x, hx⟩ := ih n0 hlo hloS env
        refine ⟨x, ?_⟩
        simp only [evalF, if_neg hne0, if_neg hne1, hr, henv]
        simpa using evalF_mono (f := n0 + 1) (by omega) hx

theorem bval_zero (s : BDD) (env : Nat → Bool) : bval s 0 env = false := rfl

theorem bval_one (s : BDD) (env : Nat → Bool) : bval s 1 env = true := rfl

/-- Evaluation is deterministic across fuels. -/
theorem evalF_det {s : BDD} {env : Nat → Bool} :
    ∀ {f f' n : Nat} {x y : Bool}, evalF f s n env = some x →
    evalF f' s n env = some y → x = y := by
  intro f
  induction f with
  | zero => intro f' n x y h; simp [evalF] at h
  | succ f ih =>
    intro f' n x y h h'
    cases f' with
    | zero => simp [evalF] at h'
    | succ f'' =>
      simp only [evalF] at h h'
      by_cases h0 : n = get_zero_node
      · rw [if_pos h0] at h h'
        injection h with hx; injection h' with hy
        rw [← hx, ← hy]
      · rw [if_neg h0] at h h'
        by_cases h1 : n = get_one_node
        · rw [if_pos h1] at h h'
          injection h with hx; injection h' with hy
          rw [← hx, ← hy]
        · rw [if_neg h1] at h h'
          cases hr : lookupA n s.node_to_row with
          | none => rw [hr] at h; exact absurd h (by simp)
          | some r =>
            obtain ⟨v, n1, n0⟩ := r
            rw [hr] at h h'
            exact ih h h'

/-- On a valid store, `bval` agrees with every successful evaluation. -/
theorem bval_eq_of_evalF {s : BDD} (hs : StoreInv s) {n f : Nat}
    {env : Nat → Bool} {x : Bool} (hn : sOT s n)
    (h : evalF f s n env = some x) : bval s n env = x := by
  obtain ⟨y, hy⟩ := eval_total hs n hn env
  have := evalF_det h hy
  simp [bval, hy, this]

theorem storeExt_refl (s : BDD) : StoreExt s s :=
  ⟨rfl, Nat.le_refl _, fun _ _ h => h, fun _ _ h => h, fun _ _ h => h⟩

theorem storeExt_trans {s t u : BDD} (h1 : StoreExt s t) (h2 : StoreExt t u) :
    StoreExt s u :=
  ⟨h2.1.trans h1.1, h1.2.1.trans h2.2.1,
   fun n r h => h2.2.2.1 n r (h1.2.2.1 n r h),
   fun n l h => h2.2.2.2.1 n l (h1.2.2.2.1 n l h),
   fun k m h => h2.2.2.2.2 k m (h1.2.2.2.2 k m h)⟩

theorem sOT_ext {s t : BDD} (he : StoreExt s t) {n : Nat} (h : sOT s n) :
    sOT t n := by
  rcases h with h | h | h
  · exact Or.inl h
  · exact Or.inr (Or.inl h)
  · rw [Option.isSome_iff_exists] at h
    obtain ⟨r, hr⟩ := h
    exact Or.inr (Or.inr (by simp [he.2.2.1 n r hr]))

theorem evalF_ext {s t : BDD} (he : StoreExt s t) {env : Nat → Bool} :
    ∀ {f n : Nat} {x : Bool}, evalF f s n env = some x →
    evalF f t n env = some x := by
  intro f
  induction f with
  | zero => intro n x h; simp [evalF] at h
  | succ f ih =>
    intro n x h
    simp only [evalF] at h ⊢
    by_cases h0 : n = get_zero_node
    · rwa [if_pos h0] at h ⊢
    · rw [if_neg h0] at h ⊢
      by_cases h1 : n = get_one_node
      · rwa [if_pos h1] at h ⊢
      · rw [if_neg h1] at h ⊢
        cases hr : lookupA n s.node_to_row with
        | none => rw [hr] at h; exact absurd h (by simp)
        | some r =>
          obtain ⟨v, n1, n0⟩ := r
          rw [hr] at h
          rw [he.2.2.1 n _ hr]
          exact ih h

/-- The denotation of an already stored node is unchanged by growing the
store. -/
theorem bval_ext {s t : BDD} (hs : StoreInv s) (he : StoreExt s t)
    {n : Nat} (hn : sOT s n) (env : Nat → Bool) :
    bval t n env = bval s n env := by
  obtain ⟨x, hx⟩ := eval_total hs n hn env
  rw [bval_eq_of_evalF hs hn hx]
  have := evalF_ext he hx
  simp [bval, this]

/-- Shannon expansion of the denotation of a stored node. -/
theorem bval_node {s : BDD} (hs : StoreInv s) {n v n1 n0 : Nat}
    (hr : lookupA n s.node_to_row = some (v, n1, n0)) (env : Nat → Bool) :
    bval s n env = if env v then bval s n1 env else bval s n0 env := by
  have hmem := lookupA_eq_some_mem hr
  have h2 : 2 ≤ n := hs.rows_ge2 _ hmem
  have hhi : n1 < n := hs.hi_lt _ hmem
  have hlo : n0 < n := hs.lo_lt _ hmem
  have hhiS : sOT s n1 := hs.hi_sOT _ hmem
  have hloS : sOT s n0 := hs.lo_sOT _ hmem
  have hne0 : n ≠ get_zero_node := by simp [get_zero_node]; omega
  have hne1 : n ≠ get_one_node := by simp [get_one_node]; omega
  cases henv : env v with
  | true =>
    obtain ⟨x, hx⟩ := eval_total hs n1 hhiS env
    have : evalF (n + 1) s n env = some x := by
      simp only [evalF, if_neg hne0, if_neg hne1, hr, henv, if_pos]
      exact evalF_mono (by omega) hx
    rw [bval_eq_of_evalF hs (sOT_of_row hr) this,
        bval_eq_of_evalF hs hhiS hx]
    simp
  | false =>
    obtain ⟨x, hx⟩ := eval_total hs n0 hloS env
    have : evalF (n + 1) s n env = some x := by
      simp only [evalF, if_neg hne0, if_neg hne1, hr, henv]
      simpa using evalF_mono (f := n0 + 1) (by omega) hx
    rw [bval_eq_of_evalF hs (sOT_of_row hr) this,
        bval_eq_of_evalF hs hloS hx]
    simp

/-- The denotation of a node only reads the assignment at or below its own
level: assignments that agree on every level not smaller than the node
level give the same value. -/
theorem bval_indep {s : BDD} (hs : StoreInv s) :
    ∀ n, sOT s n → ∀ L, lookupA n s.node_to_var_id = some L →
    ∀ env env', (∀ k, Lvl.natLt k L = false → env k = env' k) →
    bval s n env = bval s n env' := by
  intro n
  induction n using Nat.strong_induction_on with
  | _ n ih =>
    intro hn L hL env env' hag
    rcases hn with h0 | h1 | hrow
    · subst h0; rfl
    · subst h1; rfl
    · rw [Option.isSome_iff_exists] at hrow
      obtain ⟨⟨v, n1, n0⟩, hr⟩ := hrow
      have hmem := lookupA_eq_some_mem hr
      have hLv : L = Lvl.fin v := by
        have h2 := hs.var_of_row _ hmem
        rw [hL] at h2
        exact Option.some.inj h2
      subst hLv
      have henv : env v = env' v := hag v (by simp [Lvl.natLt])
      have hchild : ∀ c, c ∈ [n1, n0] → c < n → sOT s c →
          (∀ lc, lookupA c s.node_to_var_id = some lc →
            Lvl.natLt v lc = true) →
          bval s c env = bval s c env' := by
        intro c _ hlt hcS hcOrd
        rcases hcS with hc | hc | hcrow
        · subst hc; rfl
        · subst hc; rfl
        · rw [Option.isSome_iff_exists] at hcrow
          obtain ⟨⟨vc, c1, c0⟩, hcr⟩ := hcrow
          have hLc := hs.var_of_row _ (lookupA_eq_some_mem hcr)
          have hvvc := hcOrd _ hLc
          refine ih c hlt (sOT_of_row hcr) _ hLc env env' ?_
          intro k hk
          refine hag k ?_
          simp only [Lvl.natLt, decide_eq_true_eq, decide_eq_false_iff_not] at hvvc hk ⊢
          omega
      rw [bval_node hs hr env, bval_node hs hr env', henv]
      have e1 := hchild n1 (by simp) (hs.hi_lt _ hmem) (hs.hi_sOT _ hmem)
        (hs.hi_ord _ hmem)
      have e0 := hchild n0 (by simp) (hs.lo_lt _ hmem) (hs.lo_sOT _ hmem)
        (hs.lo_ord _ hmem)
      rw [e1, e0]

theorem setEnv_same (env : Nat → Bool) (k : Nat) (b : Bool) :
    setEnv env k b k = b := by simp [setEnv]

theorem lvl_of_sOT {s : BDD} (hs : StoreInv s) {n : Nat} (hn : sOT s n) :
    ∃ L, lookupA n s.node_to_var_id = some L := by
  rcases hn with h | h | h
  · exact ⟨Lvl.inf, by rw [h]; exact hs.var_zero⟩
  · exact ⟨Lvl.inf, by rw [h]; exact hs.var_one⟩
  · rw [Option.isSome_iff_exists] at h
    obtain ⟨⟨v, n1, n0⟩, hr⟩ := h
    exact ⟨Lvl.fin v, hs.var_of_row _ (lookupA_eq_some_mem hr)⟩

/-- A node whose level is strictly below `v` does not read the value at
`v`: updating the assignment there does not change its denotation. -/
theorem bval_setEnv {s : BDD} (hs : StoreInv s) {c v : Nat} (hc : sOT s c)
    (hord : ∀ lc, lookupA c s.node_to_var_id = some lc →
      Lvl.natLt v lc = true) (env : Nat → Bool) (b : Bool) :
    bval s c (setEnv env v b) = bval s c env := by
  obtain ⟨L, hL⟩ := lvl_of_sOT hs hc
  refine bval_indep hs c hc L hL _ _ ?_
  intro k hk
  have hvL := hord L hL
  have hkv : k ≠ v := by
    intro he; subst he; rw [hvL] at hk; cases hk
  simp [setEnv, hkv]

/-- Canonicity core: on a valid store, two stored-or-terminal nodes with
the same denotation are the same identifier. -/
theorem canon {s : BDD} (hs : StoreInv s) :
    ∀ k m n, m < k → n < k → sOT s m → sOT s n →
    (∀ env, bval s m env = bval s n env) → m = n := by
  intro k
  induction k using Nat.strong_induction_on with
  | _ k ih =>
    have child_split : ∀ p v h l, p < k →
        lookupA p s.node_to_row = some (v, h, l) →
        ∃ env, bval s h env ≠ bval s l env := by
      intro p v h l hp hr
      by_contra hno
      push_neg at hno
      have hmem := lookupA_eq_some_mem hr
      have hhl : h = l :=
        ih p hp h l (hs.hi_lt _ hmem) (hs.lo_lt _ hmem) (hs.hi_sOT _ hmem)
          (hs.lo_sOT _ hmem) hno
      exact hs.reduced _ hmem hhl
    have stored_term : ∀ p v h l c, p < k →
        lookupA p s.node_to_row = some (v, h, l) →
        (∀ env, bval s p env = c) → False := by
      intro p v h l c hp hr hconst
      obtain ⟨env0, hne⟩ := child_split p v h l hp hr
      have hmem := lookupA_eq_some_mem hr
      have e1 : bval s p (setEnv env0 v true) = bval s h env0 := by
        rw [bval_node hs hr, setEnv_same, if_pos rfl]
        exact bval_setEnv hs (hs.hi_sOT _ hmem) (hs.hi_ord _ hmem) env0 true
      have e0 : bval s p (setEnv env0 v false) = bval s l env0 := by
        rw [bval_node hs hr, setEnv_same]
        simpa using
          bval_setEnv hs (hs.lo_sOT _ hmem) (hs.lo_ord _ hmem) env0 false
      rw [hconst _] at e1 e0
      exact hne (e1.symm.trans e0)
    intro m n hm hn hmS hnS hsem
    rcases hmS with hm0 | hm1 | hmrow
    · rcases hnS with hn0 | hn1 | hnrow
      · rw [hm0, hn0]
      · exfalso
        have := hsem (fun _ => false)
        rw [hm0, hn1] at this
        simpa [get_zero_node, get_one_node, bval_zero, bval_one] using this
      · rw [Option.isSome_iff_exists] at hnrow
        obtain ⟨⟨v, h, l⟩, hr⟩ := hnrow
        exact (stored_term n v h l false hn hr
          (fun env => by rw [← hsem env, hm0]; rfl)).elim
    · rcases hnS with hn0 | hn1 | hnrow
      · exfalso
        have := hsem (fun _ => false)
        rw [hm1, hn0] at this
        simpa [get_zero_node, get_one_node, bval_zero, bval_one] using this
      · rw [hm1, hn1]
      · rw [Option.isSome_iff_exists] at hnrow
        obtain ⟨⟨v, h, l⟩, hr⟩ := hnrow
        exact (stored_term n v h l true hn hr
          (fun env => by rw [← hsem env, hm1]; rfl)).elim
    · rw [Option.isSome_iff_exists] at hmrow
      obtain ⟨⟨vm, hm1, lm1⟩, hrm⟩ := hmrow
      rcases hnS with hn0 | hn1 | hnrow
      · exact (stored_term m vm hm1 lm1 false hm hrm
          (fun env => by rw [hsem env, hn0]; rfl)).elim
      · exact (stored_term m vm hm1 lm1 true hm hrm
          (fun env => by rw [hsem env, hn1]; rfl)).elim
      · rw [Option.isSome_iff_exists] at hnrow
        obtain ⟨⟨vn, hn1, ln1⟩, hrn⟩ := hnrow
        have hmemm := lookupA_eq_some_mem hrm
        have hmemn := lookupA_eq_some_mem hrn
        rcases Nat.lt_trichotomy vm vn with hv | hv | hv
        · -- the top variable of m would be redundant
          exfalso
          have hind : ∀ env b, bval s n (setEnv env vm b) = bval s n env := by
            intro env b
            refine bval_setEnv hs (sOT_of_row hrn) ?_ env b
            intro lc hlc
            have := hs.var_of_row _ hmemn
            rw [hlc] at this
            cases Option.some.inj this
            simpa [Lvl.natLt] using hv
          have heq : ∀ env, bval s hm1 env = bval s lm1 env := by
            intro env
            have c1 : bval s m (setEnv env vm true) = bval s hm1 env := by
              rw [bval_node hs hrm, setEnv_same, if_pos rfl]
              exact bval_setEnv hs (hs.hi_sOT _ hmemm) (hs.hi_ord _ hmemm)
                env true
            have c0 : bval s m (setEnv env vm false) = bval s lm1 env := by
              rw [bval_node hs hrm, setEnv_same]
              simpa using bval_setEnv hs (hs.lo_sOT _ hmemm)
                (hs.lo_ord _ hmemm) env false
            rw [← c1, ← c0, hsem _, hsem _, hind, hind]
          obtain ⟨env0, hne⟩ := child_split m vm hm1 lm1 hm hrm
          exact hne (heq env0)
        · -- equal top variables: the children pairs coincide
          subst hv
          have hch : ∀ (b : Bool) cm cn,
              (cm = if b then hm1 else lm1) → (cn = if b then hn1 else ln1) →
              cm = cn := by
            intro b cm cn hcm hcn
            have hcmS : sOT s cm := by
              cases b <;> simp at hcm <;> subst hcm
              · exact hs.lo_sOT _ hmemm
              · exact hs.hi_sOT _ hmemm
            have hcnS : sOT s cn := by
              cases b <;> simp at hcn <;> subst hcn
              · exact hs.lo_sOT _ hmemn
              · exact hs.hi_sOT _ hmemn
            have hcmlt : cm < m := by
              cases b <;> simp at hcm <;> subst hcm
              · exact hs.lo_lt _ hmemm
              · exact hs.hi_lt _ hmemm
            have hcnlt : cn < n := by
              cases b <;> simp at hcn <;> subst hcn
              · exact hs.lo_lt _ hmemn
              · exact hs.hi_lt _ hmemn
            refine ih (max m n) (Nat.max_lt.mpr ⟨hm, hn⟩) cm cn
              (lt_of_lt_of_le hcmlt (Nat.le_max_left m n))
              (lt_of_lt_of_le hcnlt (Nat.le_max_right m n)) hcmS hcnS ?_
            intro env
            have em : bval s m (setEnv env vm b) = bval s cm env := by
              rw [bval_node hs hrm, setEnv_same, hcm]
              cases b
              · simpa using bval_setEnv hs (hs.lo_sOT _ hmemm)
                  (hs.lo_ord _ hmemm) env false
              · simpa using bval_setEnv hs (hs.hi_sOT _ hmemm)
                  (hs.hi_ord _ hmemm) env true
            have en : bval s n (setEnv env vm b) = bval s cn env := by
              rw [bval_node hs hrn, setEnv_same, hcn]
              cases b
              · simpa using bval_setEnv hs (hs.lo_sOT _ hmemn)
                  (hs.lo_ord _ hmemn) env false
              · simpa using bval_setEnv hs (hs.hi_sOT _ hmemn)
                  (hs.hi_ord _ hmemn) env true
            rw [← em, ← en, hsem]
          have hh := hch true hm1 hn1 (by simp) (by simp)
          have hl := hch false lm1 ln1 (by simp) (by simp)
          subst hh; subst hl
          have i1 := hs.inv1 _ hmemm
          have i2 := hs.inv1 _ hmemn
          simp only at i1 i2
          rw [i1] at i2
          exact Option.some.inj i2
        · -- symmetric: the top variable of n would be redundant
          exfalso
          have hind : ∀ env b, bval s m (setEnv env vn b) = bval s m env := by
            intro env b
            refine bval_setEnv hs (sOT_of_row hrm) ?_ env b
            intro lc hlc
            have := hs.var_of_row _ hmemm
            rw [hlc] at this
            cases Option.some.inj this
            simpa [Lvl.natLt] using hv
          have heq : ∀ env, bval s hn1 env = bval s ln1 env := by
            intro env
            have c1 : bval s n (setEnv env vn true) = bval s hn1 env := by
              rw [bval_node hs hrn, setEnv_same, if_pos rfl]
              exact bval_setEnv hs (hs.hi_sOT _ hmemn) (hs.hi_ord _ hmemn)
                env true
            have c0 : bval s n (setEnv env vn false) = bval s ln1 env := by
              rw [bval_node hs hrn, setEnv_same]
              simpa using bval_setEnv hs (hs.lo_sOT _ hmemn)
                (hs.lo_ord _ hmemn) env false
            rw [← c1, ← c0, ← hsem _, ← hsem _, hind, hind]
          obtain ⟨env0, hne⟩ := child_split n vn hn1 ln1 hn hrn
          exact hne (heq env0)

theorem natLt_to_leL {v : Nat} : ∀ {L : Lvl}, Lvl.natLt v L = true →
    Lvl.leL (Lvl.fin v) L = true
  | .inf, _ => rfl
  | .fin m, h => by
    simp only [Lvl.natLt, decide_eq_true_eq] at h
    simp only [Lvl.leL, decide_eq_true_eq]
    omega

theorem lookupA_cons_self {α β : Type} [DecidableEq α] (a : α) (b : β)
    (t : List (α × β)) : lookupA a ((a, b) :: t) = some b := by
  simp [lookupA]

theorem lookupA_cons_ne {α β : Type} [DecidableEq α] {k a : α} (b : β)
    (t : List (α × β)) (h : a ≠ k) :
    lookupA k ((a, b) :: t) = lookupA k t := by
  simp [lookupA, h]

theorem mem_keys_of_lookupA {α β : Type} [DecidableEq α] {k : α} {b : β}
    {l : List (α × β)} (h : lookupA k l = some b) : k ∈ l.map Prod.fst :=
  List.mem_map.mpr ⟨(k, b), lookupA_eq_some_mem h, rfl⟩

theorem key_lt_id {s : BDD} (hs : StoreInv s) {n : Nat} {r : Row}
    (h : lookupA n s.node_to_row = some r) : n < s.node_id :=
  hs.rows_lt_id _ (lookupA_eq_some_mem h)

theorem sOT_lt_id {s : BDD} (hs : StoreInv s) {n : Nat} (h : sOT s n) :
    n < s.node_id := by
  rcases h with h | h | h
  · have := hs.two_le_id; simp [h, get_zero_node]; omega
  · have := hs.two_le_id; simp [h, get_one_node]; omega
  · rw [Option.isSome_iff_exists] at h
    obtain ⟨r, hr⟩ := h
    exact key_lt_id hs hr

/-- Specification of `make`: it preserves the store invariants and the
caches, extends the store, returns a stored-or-terminal node at a level no
higher than `vid` whose denotation is the Shannon combination of the two
children.  The preconditions are those of the specification: children
strictly deeper than `vid` and a declared variable. -/
theorem make_spec {s : BDD} (hs : StoreInv s) {vid h l r : Nat} {s' : BDD}
    (hh : sOT s h) (hl : sOT s l)
    (hoh : ∀ L, lookupA h s.node_to_var_id = some L → Lvl.natLt vid L = true)
    (hol : ∀ L, lookupA l s.node_to_var_id = some L → Lvl.natLt vid L = true)
    (hv : vid < s.variable_ordering.length)
    (hm : s.make vid h l = (r, s')) :
    StoreInv s' ∧ StoreExt s s' ∧ sOT s' r ∧
    s'.ite_cache = s.ite_cache ∧ s'.and_cache = s.and_cache ∧
    s'.or_cache = s.or_cache ∧ s'.pre_cache = s.pre_cache ∧
    (∀ L, lookupA r s'.node_to_var_id = some L →
      Lvl.leL (Lvl.fin vid) L = true) ∧
    (∀ env, bval s' r env =
      if env vid then bval s' h env else bval s' l env) := by
  by_cases hhl : h = l
  · rw [BDD.make, if_pos hhl] at hm
    injection hm with hm1 hm2; subst hm1; subst hm2
    refine ⟨hs, storeExt_refl s, hh, rfl, rfl, rfl, rfl, ?_, ?_⟩
    · intro L hL
      exact natLt_to_leL (hoh L hL)
    · intro env
      rw [hhl, ite_self]
  · rw [BDD.make, if_neg hhl] at hm
    cases hfind : lookupA (vid, h, l) s.row_to_node with
    | some m =>
      rw [hfind] at hm
      injection hm with hm1 hm2; subst hm1; subst hm2
      have hrow := hs.inv2 _ (lookupA_eq_some_mem hfind)
      refine ⟨hs, storeExt_refl s, sOT_of_row hrow, rfl, rfl, rfl, rfl, ?_, ?_⟩
      · intro L hL
        have := hs.var_of_row _ (lookupA_eq_some_mem hrow)
        simp only at this
        rw [hL] at this
        cases Option.some.inj this
        exact Lvl.leL_refl _
      · intro env
        exact bval_node hs hrow env
    | none =>
      rw [hfind] at hm
      set N := s.node_id with hN
      injection hm with hm1 hm2; subst hm1; subst hm2
      have hh_lt : h < N := sOT_lt_id hs hh
      have hl_lt : l < N := sOT_lt_id hs hl
      have h2N : 2 ≤ N := hs.two_le_id
      have hNnotkey : N ∉ s.node_to_row.map Prod.fst := by
        intro hmem
        obtain ⟨⟨n, r'⟩, hmem', he⟩ := List.mem_map.mp hmem
        simp only at he
        subst he
        exact absurd (hs.rows_lt_id _ hmem') (by simp)
      have hNnotvar : N ∉ s.node_to_var_id.map Prod.fst := by
        intro hmem
        obtain ⟨⟨n, L⟩, hmem', he⟩ := List.mem_map.mp hmem
        simp only at he
        subst he
        rcases hs.var_dom _ hmem' with h' | h' | h'
        · simp only at h'; omega
        · simp only at h'; omega
        · rw [Option.isSome_iff_exists] at h'
          obtain ⟨r', hr'⟩ := h'
          exact absurd (key_lt_id hs hr') (by simp)
      have hRownotkey : (vid, h, l) ∉ s.row_to_node.map Prod.fst := by
        intro hmem
        obtain ⟨⟨rr, q⟩, hmem', he⟩ := List.mem_map.mp hmem
        simp only at he
        subst he
        exact lookupA_eq_none hfind q hmem'
      have rows_look : ∀ n r', lookupA n s.node_to_row = some r' → n ≠ N := by
        intro n r' hr' he
        subst he
        exact absurd (key_lt_id hs hr') (by simp)
      have var_look : ∀ n L, lookupA n s.node_to_var_id = some L → n ≠ N := by
        intro n L hL he
        subst he
        exact hNnotvar (mem_keys_of_lookupA hL)
      have hext : StoreExt s
          { s with
            node_to_row := (N, (vid, h, l)) :: s.node_to_row,
            node_to_var_id := (N, Lvl.fin vid) :: s.node_to_var_id,
            row_to_node := ((vid, h, l), N) :: s.row_to_node,
            node_id := N + 1 } := by
        refine ⟨rfl, by simp, ?_, ?_, ?_⟩
        · intro n r' hr'
          simpa [lookupA_cons_ne _ _ (Ne.symm (rows_look n r' hr'))] using hr'
        · intro n L hL
          simpa [lookupA_cons_ne _ _ (Ne.symm (var_look n L hL))] using hL
        · intro kk mm hk
          have hkk : kk ≠ (vid, h, l) := by
            intro he; subst he
            rw [hfind] at hk; cases hk
          simpa [lookupA_cons_ne _ _ (Ne.symm hkk)] using hk
      have hinv : StoreInv
          { s with
            node_to_row := (N, (vid, h, l)) :: s.node_to_row,
            node_to_var_id := (N, Lvl.fin vid) :: s.node_to_var_id,
            row_to_node := ((vid, h, l), N) :: s.row_to_node,
            node_id := N + 1 } := by
        constructor
        · simp only [List.map_cons, List.nodup_cons]
          exact ⟨hNnotkey, hs.nodupRows⟩
        · simp only [List.map_cons, List.nodup_cons]
          exact ⟨hRownotkey, hs.nodupRtn⟩
        · simp only [List.map_cons, List.nodup_cons]
          exact ⟨hNnotvar, hs.nodupVarMap⟩
        · intro p hp
          rcases List.mem_cons.mp hp with hp | hp
          · cases hp; simpa using h2N
          · exact hs.rows_ge2 _ hp
        · intro p hp
          rcases List.mem_cons.mp hp with hp | hp
          · cases hp; simp
          · exact Nat.lt_succ_of_lt (hs.rows_lt_id _ hp)
        · simpa using Nat.le_succ_of_le h2N
        · intro p hp
          rcases List.mem_cons.mp hp with hp | hp
          · cases hp; simpa using lookupA_cons_self ..
          · have := hs.inv1 _ hp
            have hne : p.2 ≠ (vid, h, l) := by
              intro he
              rw [← he] at hfind
              rw [this] at hfind; cases hfind
            simpa [lookupA_cons_ne _ _ (Ne.symm hne)] using this
        · intro q hq
          rcases List.mem_cons.mp hq with hq | hq
          · cases hq; simpa using lookupA_cons_self ..
          · have := hs.inv2 _ hq
            have hne : q.2 ≠ N := rows_look _ _ this
            simpa [lookupA_cons_ne _ _ (Ne.symm hne)] using this
        · intro p hp
          rcases List.mem_cons.mp hp with hp | hp
          · cases hp; simpa using lookupA_cons_self ..
          · have := hs.var_of_row _ hp
            have hne : p.1 ≠ N := var_look _ _ this
            simpa [lookupA_cons_ne _ _ (Ne.symm hne)] using this
        · have hne : (0 : Nat) ≠ N := by omega
          simpa [lookupA_cons_ne _ _ (Ne.symm hne)] using hs.var_zero
        · have hne : (1 : Nat) ≠ N := by omega
          simpa [lookupA_cons_ne _ _ (Ne.symm hne)] using hs.var_one
        · intro q hq
          rcases List.mem_cons.mp hq with hq | hq
          · cases hq
            refine Or.inr (Or.inr ?_)
            rw [Option.isSome_iff_exists]
            exact ⟨(vid, h, l), lookupA_cons_self N (vid, h, l) s.node_to_row⟩
          · rcases hs.var_dom _ hq with h' | h' | h'
            · exact Or.inl h'
            · exact Or.inr (Or.inl h')
            · rw [Option.isSome_iff_exists] at h'
              obtain ⟨r', hr'⟩ := h'
              refine Or.inr (Or.inr ?_)
              simp [lookupA_cons_ne _ _ (Ne.symm (rows_look _ _ hr')), hr']
        · intro p hp
          rcases List.mem_cons.mp hp with hp | hp
          · cases hp; simpa using hhl
          · exact hs.reduced _ hp
        · intro p hp
          rcases List.mem_cons.mp hp with hp | hp
          · cases hp
            rcases hh with h' | h' | h'
            · exact Or.inl h'
            · exact Or.inr (Or.inl h')
            · rw [Option.isSome_iff_exists] at h'
              obtain ⟨r', hr'⟩ := h'
              refine Or.inr (Or.inr ?_)
              simp [lookupA_cons_ne _ _ (Ne.symm (rows_look _ _ hr')), hr']
          · rcases hs.hi_sOT _ hp with h' | h' | h'
            · exact Or.inl h'
            · exact Or.inr (Or.inl h')
            · rw [Option.isSome_iff_exists] at h'
              obtain ⟨r', hr'⟩ := h'
              refine Or.inr (Or.inr ?_)
              simp [lookupA_cons_ne _ _ (Ne.symm (rows_look _ _ hr')), hr']
        · intro p hp
          rcases List.mem_cons.mp hp with hp | hp
          · cases hp
            rcases hl with h' | h' | h'
            · exact Or.inl h'
            · exact Or.inr (Or.inl h')
            · rw [Option.isSome_iff_exists] at h'
              obtain ⟨r', hr'⟩ := h'
              refine Or.inr (Or.inr ?_)
              simp [lookupA_cons_ne _ _ (Ne.symm (rows_look _ _ hr')), hr']
          · rcases hs.lo_sOT _ hp with h' | h' | h'
            · exact Or.inl h'
            · exact Or.inr (Or.inl h')
            · rw [Option.isSome_iff_exists] at h'
              obtain ⟨r', hr'⟩ := h'
              refine Or.inr (Or.inr ?_)
              simp [lookupA_cons_ne _ _ (Ne.symm (rows_look _ _ hr')), hr']
        · intro p hp
          rcases List.mem_cons.mp hp with hp | hp
          · cases hp; simpa using hh_lt
          · exact hs.hi_lt _ hp
        · intro p hp
          rcases List.mem_cons.mp hp with hp | hp
          · cases hp; simpa using hl_lt
          · exact hs.lo_lt _ hp
        · intro p hp L hL
          rcases List.mem_cons.mp hp with hp | hp
          · cases hp
            simp only at hL ⊢
            have hne : h ≠ N := by omega
            rw [lookupA_cons_ne _ _ (Ne.symm hne)] at hL
            exact hoh L hL
          · have hne : p.2.2.1 ≠ N := by
              have := hs.hi_lt _ hp
              have := hs.rows_lt_id _ hp
              omega
            rw [lookupA_cons_ne _ _ (Ne.symm hne)] at hL
            exact hs.hi_ord _ hp L hL
        · intro p hp L hL
          rcases List.mem_cons.mp hp with hp | hp
          · cases hp
            simp only at hL ⊢
            have hne : l ≠ N := by omega
            rw [lookupA_cons_ne _ _ (Ne.symm hne)] at hL
            exact hol L hL
          · have hne : p.2.2.2 ≠ N := by
              have := hs.lo_lt _ hp
              have := hs.rows_lt_id _ hp
              omega
            rw [lookupA_cons_ne _ _ (Ne.symm hne)] at hL
            exact hs.lo_ord _ hp L hL
        · intro p hp
          rcases List.mem_cons.mp hp with hp | hp
          · cases hp; simpa using hv
          · exact hs.var_lt_len _ hp
        · exact hs.reg_ids
      have hrowN : lookupA N
          ({ s with
            node_to_row := (N, (vid, h, l)) :: s.node_to_row,
            node_to_var_id := (N, Lvl.fin vid) :: s.node_to_var_id,
            row_to_node := ((vid, h, l), N) :: s.row_to_node,
            node_id := N + 1 } : BDD).node_to_row = some (vid, h, l) :=
        lookupA_cons_self ..
      refine ⟨hinv, hext, sOT_of_row hrowN, rfl, rfl, rfl, rfl, ?_, ?_⟩
      · intro L hL
        have : lookupA N ((N, Lvl.fin vid) :: s.node_to_var_id) =
            some (Lvl.fin vid) := lookupA_cons_self ..
        rw [show lookupA N
            ({ s with
              node_to_row := (N, (vid, h, l)) :: s.node_to_row,
              node_to_var_id := (N, Lvl.fin vid) :: s.node_to_var_id,
              row_to_node := ((vid, h, l), N) :: s.row_to_node,
              node_id := N + 1 } : BDD).node_to_var_id =
            some (Lvl.fin vid) from this] at hL
        cases Option.some.inj hL
        exact Lvl.leL_refl _
      · intro env
        exact bval_node hinv hrowN env

theorem cof_total {s : BDD} (hs : StoreInv s) {n : Nat} (hn : sOT s n)
    (vid : Nat) : ∃ h l, s.get_cofactors n vid = some (h, l) := by
  rcases hn with h0 | h1 | hrow
  · exact ⟨n, n, by simp [BDD.get_cofactors, h0]⟩
  · exact ⟨n, n, by simp [BDD.get_cofactors, h1]⟩
  · rw [Option.isSome_iff_exists] at hrow
    obtain ⟨⟨v, n1, n0⟩, hr⟩ := hrow
    have hvar := hs.var_of_row _ (lookupA_eq_some_mem hr)
    by_cases ht : n = get_zero_node ∨ n = get_one_node
    · exact ⟨n, n, by simp [BDD.get_cofactors, ht]⟩
    · rw [BDD.get_cofactors, if_neg ht]
      simp only at hvar
      rw [hvar]
      cases hlt : Lvl.natLt vid (Lvl.fin v) with
      | true => exact ⟨n, n, by simp [hlt]⟩
      | false => exact ⟨n1, n0, by simp [hlt, BDD.get_succs, hr]⟩

/-- Specification of `get_cofactors` when called at a level not deeper
than the node level (as every caller does): the two cofactors are stored
or terminal, live strictly below `vid`, and Shannon-decompose the node. -/
theorem cof_spec {s : BDD} (hs : StoreInv s) {n vid h l : Nat}
    (hn : sOT s n)
    (hvle : ∀ L, lookupA n s.node_to_var_id = some L →
      Lvl.leL (Lvl.fin vid) L = true)
    (hc : s.get_cofactors n vid = some (h, l)) :
    sOT s h ∧ sOT s l ∧
    (∀ Lh, lookupA h s.node_to_var_id = some Lh → Lvl.natLt vid Lh = true) ∧
    (∀ Ll, lookupA l s.node_to_var_id = some Ll → Lvl.natLt vid Ll = true) ∧
    (∀ env, bval s n env = if env vid then bval s h env else bval s l env) := by
  rw [BDD.get_cofactors] at hc
  by_cases ht : n = get_zero_node ∨ n = get_one_node
  · rw [if_pos ht] at hc
    injection hc with hc
    injection hc with hc1 hc2
    subst hc1; subst hc2
    have hterm : lookupA n s.node_to_var_id = some Lvl.inf := by
      rcases ht with ht | ht
      · rw [ht]; exact hs.var_zero
      · rw [ht]; exact hs.var_one
    refine ⟨hn, hn, ?_, ?_, ?_⟩
    · intro Lh hLh; rw [hterm] at hLh; cases Option.some.inj hLh; rfl
    · intro Ll hLl; rw [hterm] at hLl; cases Option.some.inj hLl; rfl
    · intro env; rw [ite_self]
  · rw [if_neg ht] at hc
    cases hvar : lookupA n s.node_to_var_id with
    | none => rw [hvar] at hc; cases hc
    | some L =>
      rw [hvar] at hc
      cases hlt : Lvl.natLt vid L with
      | true =>
        simp only [hlt, if_true] at hc
        injection hc with hc
        injection hc with hc1 hc2
        subst hc1; subst hc2
        refine ⟨hn, hn, ?_, ?_, ?_⟩
        · intro Lh hLh; rw [hvar] at hLh; cases Option.some.inj hLh
          exact hlt
        · intro Ll hLl; rw [hvar] at hLl; cases Option.some.inj hLl
          exact hlt
        · intro env; rw [ite_self]
      | false =>
        simp only [hlt, Bool.false_eq_true, if_false, BDD.get_succs] at hc
        cases hrow : lookupA n s.node_to_row with
        | none => rw [hrow] at hc; cases hc
        | some r =>
          obtain ⟨v, n1, n0⟩ := r
          rw [hrow] at hc
          injection hc with hc
          injection hc with hc1 hc2
          subst hc1; subst hc2
          have hmem := lookupA_eq_some_mem hrow
          have hLv : L = Lvl.fin v := by
            have h2 := hs.var_of_row _ hmem
            simp only at h2
            rw [hvar] at h2
            exact Option.some.inj h2
          subst hLv
          have hveq : vid = v := by
            have h1 := hvle _ hvar
            simp only [Lvl.leL, decide_eq_true_eq] at h1
            simp only [Lvl.natLt, decide_eq_false_iff_not, decide_eq_true_eq] at hlt
            omega
          subst hveq
          refine ⟨hs.hi_sOT _ hmem, hs.lo_sOT _ hmem, ?_, ?_, ?_⟩
          · exact fun Lh hLh => hs.hi_ord _ hmem Lh hLh
          · exact fun Ll hLl => hs.lo_ord _ hmem Ll hLl
          · exact fun env => bval_node hs hrow env

theorem reach_terminal {s : BDD} (hs : StoreInv s) {n m : Nat}
    (h : Reach s [n] m) (ht : n = 0 ∨ n = 1) : m = n := by
  induction h with
  | mem hm => simpa using hm
  | hi hre hr ih =>
    exfalso
    have := ih
    subst this
    have h2 := hs.rows_ge2 _ (lookupA_eq_some_mem hr)
    simp only at h2
    omega
  | lo hre hr ih =>
    exfalso
    have := ih
    subst this
    have h2 := hs.rows_ge2 _ (lookupA_eq_some_mem hr)
    simp only at h2
    omega

theorem reach_trans_child {s : BDD} {n c m : Nat}
    (hstep : ∀ x, x ∈ ([c] : List Nat) → Reach s [n] x)
    (h : Reach s [c] m) : Reach s [n] m := by
  induction h with
  | mem hm => exact hstep _ hm
  | hi hre hr ih => exact Reach.hi ih hr
  | lo hre hr ih => exact Reach.lo ih hr

theorem evensupp_terminal {s : BDD} (hs : StoreInv s) {n : Nat}
    (ht : n = 0 ∨ n = 1) : EvenSupp s n := by
  intro m v h l hre hr
  have := reach_terminal hs hre ht
  subst this
  have h2 := hs.rows_ge2 _ (lookupA_eq_some_mem hr)
  simp only at h2
  rcases ht with ht | ht <;> omega

theorem evensupp_step {s : BDD} {n v h l : Nat}
    (hr : lookupA n s.node_to_row = some (v, h, l)) (he : EvenSupp s n) :
    EvenSupp s h ∧ EvenSupp s l ∧ v % 2 = 0 := by
  refine ⟨?_, ?_, he n v h l (Reach.mem (by simp)) hr⟩
  · intro m v' h' l' hre hr'
    refine he m v' h' l' ?_ hr'
    refine reach_trans_child (fun x hx => ?_) hre
    simp only [List.mem_singleton] at hx
    subst hx
    exact Reach.hi (Reach.mem (by simp)) hr
  · intro m v' h' l' hre hr'
    refine he m v' h' l' ?_ hr'
    refine reach_trans_child (fun x hx => ?_) hre
    simp only [List.mem_singleton] at hx
    subst hx
    exact Reach.lo (Reach.mem (by simp)) hr

theorem reach_node_cases {s : BDD} (hs : StoreInv s) {n v h l m : Nat}
    (hr : lookupA n s.node_to_row = some (v, h, l))
    (hre : Reach s [n] m) : m = n ∨ Reach s [h] m ∨ Reach s [l] m := by
  induction hre with
  | mem hm => exact Or.inl (by simpa using hm)
  | hi hre' hr' ih =>
    rcases ih with he | hh | hl
    · subst he
      rw [hr] at hr'
      cases Option.some.inj hr'
      exact Or.inr (Or.inl (Reach.mem (by simp)))
    · exact Or.inr (Or.inl (Reach.hi hh hr'))
    · exact Or.inr (Or.inr (Reach.hi hl hr'))
  | lo hre' hr' ih =>
    rcases ih with he | hh | hl
    · subst he
      rw [hr] at hr'
      cases Option.some.inj hr'
      exact Or.inr (Or.inr (Reach.mem (by simp)))
    · exact Or.inr (Or.inl (Reach.lo hh hr'))
    · exact Or.inr (Or.inr (Reach.lo hl hr'))

theorem evensupp_make {s : BDD} (hs : StoreInv s) {n v h l : Nat}
    (hr : lookupA n s.node_to_row = some (v, h, l)) (hv : v % 2 = 0)
    (hh : EvenSupp s h) (hl : EvenSupp s l) : EvenSupp s n := by
  intro m v' h' l' hre hr'
  rcases reach_node_cases hs hr hre with he | hm | hm
  · subst he
    rw [hr] at hr'
    cases Option.some.inj hr'
    exact hv
  · exact hh m v' h' l' hm hr'
  · exact hl m v' h' l' hm hr'

/-- Reachability in a grown store, started from an old node, only visits
old nodes. -/
theorem reach_ext_rev {s t : BDD} (hs : StoreInv s) (ht : StoreInv t)
    (he : StoreExt s t) {n : Nat} (hn : sOT s n) :
    ∀ m, Reach t [n] m → sOT s m ∧ Reach s [n] m := by
  intro m hre
  induction hre with
  | mem hm =>
    simp only [List.mem_singleton] at hm
    subst hm
    exact ⟨hn, Reach.mem (by simp)⟩
  | hi hre' hr' ih =>
    obtain ⟨hmS, hmR⟩ := ih
    rcases hmS with h0 | h0 | h0
    · exfalso
      subst h0
      have := ht.rows_ge2 _ (lookupA_eq_some_mem hr')
      simp [get_zero_node, get_one_node] at this
    · exfalso
      subst h0
      have := ht.rows_ge2 _ (lookupA_eq_some_mem hr')
      simp [get_zero_node, get_one_node] at this
    · rw [Option.isSome_iff_exists] at h0
      obtain ⟨r, hrs⟩ := h0
      have := he.2.2.1 _ _ hrs
      rw [hr'] at this
      cases Option.some.inj this
      exact ⟨hs.hi_sOT _ (lookupA_eq_some_mem hrs), Reach.hi hmR hrs⟩
  | lo hre' hr' ih =>
    obtain ⟨hmS, hmR⟩ := ih
    rcases hmS with h0 | h0 | h0
    · exfalso
      subst h0
      have := ht.rows_ge2 _ (lookupA_eq_some_mem hr')
      simp [get_zero_node, get_one_node] at this
    · exfalso
      subst h0
      have := ht.rows_ge2 _ (lookupA_eq_some_mem hr')
      simp [get_zero_node, get_one_node] at this
    · rw [Option.isSome_iff_exists] at h0
      obtain ⟨r, hrs⟩ := h0
      have := he.2.2.1 _ _ hrs
      rw [hr'] at this
      cases Option.some.inj this
      exact ⟨hs.lo_sOT _ (lookupA_eq_some_mem hrs), Reach.lo hmR hrs⟩

theorem evensupp_ext {s t : BDD} (hs : StoreInv s) (ht : StoreInv t)
    (he : StoreExt s t) {n : Nat} (hn : sOT s n) (hev : EvenSupp s n) :
    EvenSupp t n := by
  intro m v h l hre hr
  obtain ⟨hmS, hmR⟩ := reach_ext_rev hs ht he hn m hre
  rcases hmS with h0 | h0 | h0
  · exfalso
    subst h0
    have := ht.rows_ge2 _ (lookupA_eq_some_mem hr)
    simp [get_zero_node, get_one_node] at this
  · exfalso
    subst h0
    have := ht.rows_ge2 _ (lookupA_eq_some_mem hr)
    simp [get_zero_node, get_one_node] at this
  · rw [Option.isSome_iff_exists] at h0
    obtain ⟨r, hrs⟩ := h0
    have := he.2.2.1 _ _ hrs
    rw [hr] at this
    cases Option.some.inj this
    exact hev m v h l hmR hrs

/-- Level lookups are deterministic across extension: an old node keeps its
old level. -/
theorem lvl_ext {s t : BDD} (hs : StoreInv s) (he : StoreExt s t) {n : Nat}
    (hn : sOT s n) {L : Lvl} (hL : lookupA n t.node_to_var_id = some L) :
    lookupA n s.node_to_var_id = some L := by
  obtain ⟨L0, hL0⟩ := lvl_of_sOT hs hn
  have := he.2.2.2.1 _ _ hL0
  rw [hL] at this
  cases Option.some.inj this
  exact hL0

theorem iteEntry_ext {s t : BDD} (hs : StoreInv s) (he : StoreExt s t)
    {e : (Nat × Nat × Nat) × Nat} (hok : IteEntryOk s e) : IteEntryOk t e := by
  obtain ⟨ha, hb, hc, hr, hlvl, hsem⟩ := hok
  refine ⟨sOT_ext he ha, sOT_ext he hb, sOT_ext he hc, sOT_ext he hr, ?_, ?_⟩
  · intro la lb lc lr h1 h2 h3 h4
    exact hlvl la lb lc lr (lvl_ext hs he ha h1) (lvl_ext hs he hb h2)
      (lvl_ext hs he hc h3) (lvl_ext hs he hr h4)
  · intro env
    rw [bval_ext hs he ha, bval_ext hs he hb, bval_ext hs he hc,
      bval_ext hs he hr]
    exact hsem env

theorem andEntry_ext {s t : BDD} (hs : StoreInv s) (he : StoreExt s t)
    {e : (Nat × Nat) × Nat} (hok : AndEntryOk s e) : AndEntryOk t e := by
  obtain ⟨ha, hb, hr, hlvl, hsem⟩ := hok
  refine ⟨sOT_ext he ha, sOT_ext he hb, sOT_ext he hr, ?_, ?_⟩
  · intro la lb lr h1 h2 h3
    exact hlvl la lb lr (lvl_ext hs he ha h1) (lvl_ext hs he hb h2)
      (lvl_ext hs he hr h3)
  · intro env
    rw [bval_ext hs he ha, bval_ext hs he hb, bval_ext hs he hr]
    exact hsem env

theorem reach_ext_fwd {s t : BDD} (he : StoreExt s t) {n m : Nat}
    (h : Reach s [n] m) : Reach t [n] m := by
  induction h with
  | mem hm => exact Reach.mem hm
  | hi hre hr ih => exact Reach.hi ih (he.2.2.1 _ _ hr)
  | lo hre hr ih => exact Reach.lo ih (he.2.2.1 _ _ hr)

theorem evensupp_ext_rev {s t : BDD} (he : StoreExt s t) {n : Nat}
    (hev : EvenSupp t n) : EvenSupp s n := by
  intro m v h l hre hr
  exact hev m v h l (reach_ext_fwd he hre) (he.2.2.1 _ _ hr)

theorem orEntry_ext {s t : BDD} (hs : StoreInv s) (ht : StoreInv t)
    (he : StoreExt s t) {e : (Nat × Nat) × Nat} (hok : OrEntryOk s e) :
    OrEntryOk t e := by
  obtain ⟨ha, hb, hr, hlvl, hev, hsem⟩ := hok
  refine ⟨sOT_ext he ha, sOT_ext he hb, sOT_ext he hr, ?_, ?_, ?_⟩
  · intro la lb lr h1 h2 h3
    exact hlvl la lb lr (lvl_ext hs he ha h1) (lvl_ext hs he hb h2)
      (lvl_ext hs he hr h3)
  · intro hea heb
    exact evensupp_ext hs ht he hr
      (hev (evensupp_ext_rev he hea) (evensupp_ext_rev he heb))
  · intro env
    rw [bval_ext hs he ha, bval_ext hs he hb, bval_ext hs he hr]
    exact hsem env

theorem interleaved_ext {s t : BDD} (he : StoreExt s t) :
    Interleaved s ↔ Interleaved t := by
  unfold Interleaved
  rw [he.1]

theorem preEntry_ext {s t : BDD} (hs : StoreInv s) (ht : StoreInv t)
    (he : StoreExt s t) {e : (Nat × Nat) × Nat} (hok : PreEntryOk s e) :
    PreEntryOk t e := by
  obtain ⟨ha, hb, hcond⟩ := hok
  refine ⟨sOT_ext he ha, sOT_ext he hb, ?_⟩
  intro hint hev
  obtain ⟨hr, hevr, hlvl, hsem⟩ :=
    hcond ((interleaved_ext he).mpr hint) (evensupp_ext_rev he hev)
  refine ⟨sOT_ext he hr, evensupp_ext hs ht he hr hevr, ?_, ?_⟩
  · intro la lb lr h1 h2 h3
    exact hlvl la lb lr (lvl_ext hs he ha h1) (lvl_ext hs he hb h2)
      (lvl_ext hs he hr h3)
  · intro env
    rw [bval_ext hs he hr]
    rw [hsem env]
    unfold PreSem
    constructor
    · rintro ⟨g, h1, h2⟩
      exact ⟨g, by rw [bval_ext hs he ha]; exact h1,
        by rw [bval_ext hs he hb]; exact h2⟩
    · rintro ⟨g, h1, h2⟩
      refine ⟨g, ?_, ?_⟩
      · rw [← bval_ext hs he ha (mixenv env g)]; exact h1
      · rw [← bval_ext hs he hb (liftg g)]; exact h2

/-- Transport of the full invariant along a cache-preserving extension. -/
theorem wf_transport {s t : BDD} (hw : WF s) (ht : StoreInv t)
    (he : StoreExt s t) (hi : t.ite_cache = s.ite_cache)
    (ha : t.and_cache = s.and_cache) (ho : t.or_cache = s.or_cache) :
    WF t := by
  refine ⟨ht, ?_, ?_, ?_⟩
  · intro e hmem
    rw [hi] at hmem
    exact iteEntry_ext hw.store he (hw.iteOk e hmem)
  · intro e hmem
    rw [ha] at hmem
    exact andEntry_ext hw.store he (hw.andOk e hmem)
  · intro e hmem
    rw [ho] at hmem
    exact orEntry_ext hw.store ht he (hw.orOk e hmem)

theorem preOk_transport {s t : BDD} (hs : StoreInv s) (ht : StoreInv t)
    (he : StoreExt s t) (hp : PreOk s) (hc : t.pre_cache = s.pre_cache) :
    PreOk t := by
  intro e hmem
  rw [hc] at hmem
  exact preEntry_ext hs ht he (hp e hmem)

theorem storeInv_putIte {s : BDD} (hs : StoreInv s) (k : Nat × Nat × Nat)
    (r : Nat) : StoreInv (s.putIte k r) :=
  ⟨hs.nodupRows, hs.nodupRtn, hs.nodupVarMap, hs.rows_ge2, hs.rows_lt_id,
   hs.two_le_id, hs.inv1, hs.inv2, hs.var_of_row, hs.var_zero, hs.var_one,
   hs.var_dom, hs.reduced, hs.hi_sOT, hs.lo_sOT, hs.hi_lt, hs.lo_lt,
   hs.hi_ord, hs.lo_ord, hs.var_lt_len, hs.reg_ids⟩

theorem storeInv_putAnd {s : BDD} (hs : StoreInv s) (k : Nat × Nat)
    (r : Nat) : StoreInv (s.putAnd k r) :=
  ⟨hs.nodupRows, hs.nodupRtn, hs.nodupVarMap, hs.rows_ge2, hs.rows_lt_id,
   hs.two_le_id, hs.inv1, hs.inv2, hs.var_of_row, hs.var_zero, hs.var_one,
   hs.var_dom, hs.reduced, hs.hi_sOT, hs.lo_sOT, hs.hi_lt, hs.lo_lt,
   hs.hi_ord, hs.lo_ord, hs.var_lt_len, hs.reg_ids⟩

theorem storeInv_putOr {s : BDD} (hs : StoreInv s) (k : Nat × Nat)
    (r : Nat) : StoreInv (s.putOr k r) :=
  ⟨hs.nodupRows, hs.nodupRtn, hs.nodupVarMap, hs.rows_ge2, hs.rows_lt_id,
   hs.two_le_id, hs.inv1, hs.inv2, hs.var_of_row, hs.var_zero, hs.var_one,
   hs.var_dom, hs.reduced, hs.hi_sOT, hs.lo_sOT, hs.hi_lt, hs.lo_lt,
   hs.hi_ord, hs.lo_ord, hs.var_lt_len, hs.reg_ids⟩

theorem storeInv_putPre {s : BDD} (hs : StoreInv s) (k : Nat × Nat)
    (r : Nat) : StoreInv (s.putPre k r) :=
  ⟨hs.nodupRows, hs.nodupRtn, hs.nodupVarMap, hs.rows_ge2, hs.rows_lt_id,
   hs.two_le_id, hs.inv1, hs.inv2, hs.var_of_row, hs.var_zero, hs.var_one,
   hs.var_dom, hs.reduced, hs.hi_sOT, hs.lo_sOT, hs.hi_lt, hs.lo_lt,
   hs.hi_ord, hs.lo_ord, hs.var_lt_len, hs.reg_ids⟩

theorem ext_putIte (s : BDD) (k : Nat × Nat × Nat) (r : Nat) :
    StoreExt s (s.putIte k r) :=
  ⟨rfl, Nat.le_refl _, fun _ _ h => h, fun _ _ h => h, fun _ _ h => h⟩

theorem ext_putAnd (s : BDD) (k : Nat × Nat) (r : Nat) :
    StoreExt s (s.putAnd k r) :=
  ⟨rfl, Nat.le_refl _, fun _ _ h => h, fun _ _ h => h, fun _ _ h => h⟩

theorem ext_putOr (s : BDD) (k : Nat × Nat) (r : Nat) :
    StoreExt s (s.putOr k r) :=
  ⟨rfl, Nat.le_refl _, fun _ _ h => h, fun _ _ h => h, fun _ _ h => h⟩

theorem ext_putPre (s : BDD) (k : Nat × Nat) (r : Nat) :
    StoreExt s (s.putPre k r) :=
  ⟨rfl, Nat.le_refl _, fun _ _ h => h, fun _ _ h => h, fun _ _ h => h⟩

theorem min3_le_a (la lb lc : Lvl) :
    Lvl.leL (Lvl.minL la (Lvl.minL lb lc)) la = true :=
  Lvl.minL_le_left _ _

theorem min3_le_b (la lb lc : Lvl) :
    Lvl.leL (Lvl.minL la (Lvl.minL lb lc)) lb = true :=
  Lvl.leL_trans (Lvl.minL_le_right _ _) (Lvl.minL_le_left _ _)

theorem min3_le_c (la lb lc : Lvl) :
    Lvl.leL (Lvl.minL la (Lvl.minL lb lc)) lc = true :=
  Lvl.leL_trans (Lvl.minL_le_right _ _) (Lvl.minL_le_right _ _)

theorem lvl_lookup_ext {s t : BDD} (hs : StoreInv s) (he : StoreExt s t)
    {n : Nat} (hn : sOT s n) :
    lookupA n t.node_to_var_id = lookupA n s.node_to_var_id := by
  obtain ⟨L, hL⟩ := lvl_of_sOT hs hn
  rw [hL, he.2.2.2.1 _ _ hL]

/-- When the minimum of the operand levels projects to an index, the
minimum is that finite level. -/
theorem idx_some {L : Lvl} {mid : Nat} (h : L.idx = some mid) :
    L = Lvl.fin mid := by
  cases L with
  | fin k => cases Option.some.inj h; rfl
  | inf => cases h

theorem get?_lt_length {l : List BDDVar} {i : Nat} {v : BDDVar}
    (h : l.get? i = some v) : i < l.length := by
  by_contra hge
  rw [List.get?_eq_none.mpr (Nat.le_of_not_lt hge)] at h
  cases h

theorem evalF_store_congr {s t : BDD} (h : s.node_to_row = t.node_to_row) :
    ∀ (f n : Nat) (env : Nat → Bool), evalF f s n env = evalF f t n env := by
  intro f
  induction f with
  | zero => intro n env; rfl
  | succ f ih =>
    intro n env
    simp only [evalF, h]
    cases lookupA n t.node_to_row with
    | none => rfl
    | some r =>
      obtain ⟨v, n1, n0⟩ := r
      simp only [ih]

theorem bval_store_congr {s t : BDD} (h : s.node_to_row = t.node_to_row)
    (n : Nat) (env : Nat → Bool) : bval s n env = bval t n env := by
  unfold bval
  rw [evalF_store_congr h]

theorem iteEntry_intro {s : BDD} {a b c r : Nat}
    (ha : sOT s a) (hb : sOT s b) (hc : sOT s c) (hr : sOT s r)
    (hlvl : ∀ la lb lc lr,
      lookupA a s.node_to_var_id = some la →
      lookupA b s.node_to_var_id = some lb →
      lookupA c s.node_to_var_id = some lc →
      lookupA r s.node_to_var_id = some lr →
      Lvl.leL (Lvl.minL la (Lvl.minL lb lc)) lr = true)
    (hsem : ∀ env, bval s r env =
      cond (bval s a env) (bval s b env) (bval s c env)) :
    IteEntryOk s ((a, b, c), r) :=
  ⟨ha, hb, hc, hr, hlvl, hsem⟩

theorem andEntry_intro {s : BDD} {a b r : Nat}
    (ha : sOT s a) (hb : sOT s b) (hr : sOT s r)
    (hlvl : ∀ la lb lr,
      lookupA a s.node_to_var_id = some la →
      lookupA b s.node_to_var_id = some lb →
      lookupA r s.node_to_var_id = some lr →
      Lvl.leL (Lvl.minL la lb) lr = true)
    (hsem : ∀ env, bval s r env = (bval s a env && bval s b env)) :
    AndEntryOk s ((a, b), r) :=
  ⟨ha, hb, hr, hlvl, hsem⟩

theorem orEntry_intro {s : BDD} {a b r : Nat}
    (ha : sOT s a) (hb : sOT s b) (hr : sOT s r)
    (hlvl : ∀ la lb lr,
      lookupA a s.node_to_var_id = some la →
      lookupA b s.node_to_var_id = some lb →
      lookupA r s.node_to_var_id = some lr →
      Lvl.leL (Lvl.minL la lb) lr = true)
    (hev : EvenSupp s a → EvenSupp s b → EvenSupp s r)
    (hsem : ∀ env, bval s r env = (bval s a env || bval s b env)) :
    OrEntryOk s ((a, b), r) :=
  ⟨ha, hb, hr, hlvl, hev, hsem⟩

theorem bval_term_one {s : BDD} (env : Nat → Bool) :
    bval s get_one_node env = true := rfl

theorem bval_term_zero {s : BDD} (env : Nat → Bool) :
    bval s get_zero_node env = false := rfl

theorem bval_putIte (s : BDD) (k : Nat × Nat × Nat) (q n : Nat)
    (env : Nat → Bool) : bval (s.putIte k q) n env = bval s n env :=
  bval_store_congr (s := s.putIte k q) (t := s) rfl n env

theorem bval_putAnd (s : BDD) (k : Nat × Nat) (q n : Nat)
    (env : Nat → Bool) : bval (s.putAnd k q) n env = bval s n env :=
  bval_store_congr (s := s.putAnd k q) (t := s) rfl n env

theorem bval_putOr (s : BDD) (k : Nat × Nat) (q n : Nat)
    (env : Nat → Bool) : bval (s.putOr k q) n env = bval s n env :=
  bval_store_congr (s := s.putOr k q) (t := s) rfl n env

theorem bval_putPre (s : BDD) (k : Nat × Nat) (q n : Nat)
    (env : Nat → Bool) : bval (s.putPre k q) n env = bval s n env :=
  bval_store_congr (s := s.putPre k q) (t := s) rfl n env

theorem lookup_det {α β : Type} [DecidableEq α] {k : α} {l : List (α × β)}
    {b1 b2 : β} (h1 : lookupA k l = some b1) (h2 : lookupA k l = some b2) :
    b1 = b2 := by
  rw [h1] at h2
  exact Option.some.inj h2

/-- The `ite` cache-hit path: the memo table answer satisfies the full
specification. -/
theorem iteHit_spec {s : BDD} {a b c r : Nat} (hw : WF s)
    (hc : lookupA (a, b, c) s.ite_cache = some r) :
    WF s ∧ StoreExt s s ∧ sOT s r ∧ s.pre_cache = s.pre_cache ∧
    (∀ la lb lc lr,
      lookupA a s.node_to_var_id = some la →
      lookupA b s.node_to_var_id = some lb →
      lookupA c s.node_to_var_id = some lc →
      lookupA r s.node_to_var_id = some lr →
      Lvl.leL (Lvl.minL la (Lvl.minL lb lc)) lr = true) ∧
    (∀ env, bval s r env =
      cond (bval s a env) (bval s b env) (bval s c env)) := by
  obtain ⟨hea, heb, hec, her, hlvl, hsem⟩ :=
    hw.iteOk _ (lookupA_eq_some_mem hc)
  exact ⟨hw, storeExt_refl s, her, rfl, hlvl, hsem⟩

/-- The `ite` short-circuit on a constant condition: caching and returning
the selected branch satisfies the full specification. -/
theorem iteConst_spec {s : BDD} {a b c d : Nat} (hw : WF s)
    (ha : sOT s a) (hb : sOT s b) (hc : sOT s c)
    (hd : d = b ∨ d = c)
    (hsel : ∀ env, bval s d env =
      cond (bval s a env) (bval s b env) (bval s c env)) :
    WF (s.putIte (a, b, c) d) ∧ StoreExt s (s.putIte (a, b, c) d) ∧
    sOT (s.putIte (a, b, c) d) d ∧
    (s.putIte (a, b, c) d).pre_cache = s.pre_cache ∧
    (∀ la lb lc lr,
      lookupA a s.node_to_var_id = some la →
      lookupA b s.node_to_var_id = some lb →
      lookupA c s.node_to_var_id = some lc →
      lookupA d (s.putIte (a, b, c) d).node_to_var_id = some lr →
      Lvl.leL (Lvl.minL la (Lvl.minL lb lc)) lr = true) ∧
    (∀ env, bval (s.putIte (a, b, c) d) d env =
      cond (bval s a env) (bval s b env) (bval s c env)) := by
  have hsi := storeInv_putIte hw.store (a, b, c) d
  have hext := ext_putIte s (a, b, c) d
  have hdS : sOT s d := by rcases hd with hd | hd <;> (subst hd; assumption)
  have hbvp : ∀ n env, bval (s.putIte (a, b, c) d) n env = bval s n env :=
    fun n env => bval_putIte s (a, b, c) d n env
  have hlvl : ∀ la lb lc lr,
      lookupA a s.node_to_var_id = some la →
      lookupA b s.node_to_var_id = some lb →
      lookupA c s.node_to_var_id = some lc →
      lookupA d s.node_to_var_id = some lr →
      Lvl.leL (Lvl.minL la (Lvl.minL lb lc)) lr = true := by
    intro la lb lc lr hla hlb hlc hlr
    rcases hd with hd | hd
    · subst hd
      rw [hlb] at hlr
      cases Option.some.inj hlr
      exact min3_le_b _ _ _
    · subst hd
      rw [hlc] at hlr
      cases Option.some.inj hlr
      exact min3_le_c _ _ _
  have hentry : IteEntryOk (s.putIte (a, b, c) d) ((a, b, c), d) := by
    refine iteEntry_intro (sOT_ext hext ha) (sOT_ext hext hb)
      (sOT_ext hext hc) (sOT_ext hext hdS) ?_ ?_
    · intro la lb lc lr hla hlb hlc hlr
      exact hlvl la lb lc lr hla hlb hlc hlr
    · intro env
      rw [hbvp, hbvp, hbvp, hbvp]
      exact hsel env
  refine ⟨⟨hsi, ?_, ?_, ?_⟩, hext, sOT_ext hext hdS, rfl, ?_, ?_⟩
  · intro e hmem
    rcases List.mem_cons.mp hmem with hmem | hmem
    · subst hmem; exact hentry
    · exact iteEntry_ext hw.store hext (hw.iteOk _ hmem)
  · exact fun e hmem => andEntry_ext hw.store hext (hw.andOk _ hmem)
  · exact fun e hmem => orEntry_ext hw.store hsi hext (hw.orOk _ hmem)
  · exact fun la lb lc lr hla hlb hlc hlr => hlvl la lb lc lr hla hlb hlc hlr
  · intro env
    rw [hbvp]
    exact hsel env


/-- Specification of `ite`: on a valid manager it preserves the invariant,
extends the store, leaves the `pre_image` cache unchanged, and returns a
stored-or-terminal node, at a level no higher than the minimum operand
level, denoting `if a then b else c`. -/
theorem iteF_spec :
    ∀ (fuel : Nat) (s : BDD) (a b c r : Nat) (s' : BDD),
    WF s → sOT s a → sOT s b → sOT s c →
    iteF fuel s a b c = some (r, s') →
    WF s' ∧ StoreExt s s' ∧ sOT s' r ∧ s'.pre_cache = s.pre_cache ∧
    (∀ la lb lc lr,
      lookupA a s.node_to_var_id = some la →
      lookupA b s.node_to_var_id = some lb →
      lookupA c s.node_to_var_id = some lc →
      lookupA r s'.node_to_var_id = some lr →
      Lvl.leL (Lvl.minL la (Lvl.minL lb lc)) lr = true) ∧
    (∀ env, bval s' r env =
      cond (bval s a env) (bval s b env) (bval s c env)) := by
  intro fuel
  induction fuel with
  | zero =>
    intro s a b c r s' hw ha hb hc h
    simp only [iteF] at h
    cases hcache : lookupA (a, b, c) s.ite_cache with
    | some r0 =>
      rw [hcache] at h
      injection h with h
      injection h with h1 h2
      subst h1; subst h2
      exact iteHit_spec hw hcache
    | none =>
      rw [hcache] at h
      by_cases h1 : a = get_one_node
      · rw [if_pos h1] at h
        injection h with h
        injection h with he1 he2
        subst he1; subst he2
        exact iteConst_spec hw ha hb hc (Or.inl rfl)
          (fun env => by rw [h1, bval_term_one]; rfl)
      · rw [if_neg h1] at h
        by_cases h0 : a = get_zero_node
        · rw [if_pos h0] at h
          injection h with h
          injection h with he1 he2
          subst he1; subst he2
          exact iteConst_spec hw ha hb hc (Or.inr rfl)
            (fun env => by rw [h0, bval_term_zero]; rfl)
        · rw [if_neg h0] at h
          cases h
  | succ fuel ih =>
    intro s a b c r s' hw ha hb hc h
    simp only [iteF] at h
    cases hcache : lookupA (a, b, c) s.ite_cache with
    | some r0 =>
      rw [hcache] at h
      injection h with h
      injection h with h1 h2
      subst h1; subst h2
      exact iteHit_spec hw hcache
    | none =>
      rw [hcache] at h
      by_cases h1 : a = get_one_node
      · rw [if_pos h1] at h
        injection h with h
        injection h with he1 he2
        subst he1; subst he2
        exact iteConst_spec hw ha hb hc (Or.inl rfl)
          (fun env => by rw [h1, bval_term_one]; rfl)
      · rw [if_neg h1] at h
        by_cases h0 : a = get_zero_node
        · rw [if_pos h0] at h
          injection h with h
          injection h with he1 he2
          subst he1; subst he2
          exact iteConst_spec hw ha hb hc (Or.inr rfl)
            (fun env => by rw [h0, bval_term_zero]; rfl)
        · rw [if_neg h0] at h
          cases hla : lookupA a s.node_to_var_id with
          | none => rw [hla] at h; cases h
          | some la =>
          cases hlb : lookupA b s.node_to_var_id with
          | none => rw [hla] at h; rw [hlb] at h; cases h
          | some lb =>
          cases hlc : lookupA c s.node_to_var_id with
          | none => simp only [hla, hlb, hlc] at h; cases h
          | some lc =>
          simp only [hla, hlb, hlc] at h
          cases hidx : (Lvl.minL la (Lvl.minL lb lc)).idx with
          | none => simp only [hidx] at h; cases h
          | some mid =>
          simp only [hidx] at h
          have hmin : Lvl.minL la (Lvl.minL lb lc) = Lvl.fin mid :=
            idx_some hidx
          cases hmv : s.variable_ordering.get? mid with
          | none => simp only [hmv] at h; cases h
          | some mv =>
          simp only [hmv] at h
          have hvid : mv.var_id = mid := hw.store.reg_ids mid mv hmv
          have hvle_a : ∀ L, lookupA a s.node_to_var_id = some L →
              Lvl.leL (Lvl.fin mv.var_id) L = true := by
            intro L hL
            rw [hla] at hL
            cases Option.some.inj hL
            rw [hvid, ← hmin]
            exact min3_le_a _ _ _
          have hvle_b : ∀ L, lookupA b s.node_to_var_id = some L →
              Lvl.leL (Lvl.fin mv.var_id) L = true := by
            intro L hL
            rw [hlb] at hL
            cases Option.some.inj hL
            rw [hvid, ← hmin]
            exact min3_le_b _ _ _
          have hvle_c : ∀ L, lookupA c s.node_to_var_id = some L →
              Lvl.leL (Lvl.fin mv.var_id) L = true := by
            intro L hL
            rw [hlc] at hL
            cases Option.some.inj hL
            rw [hvid, ← hmin]
            exact min3_le_c _ _ _
          cases hcofa : s.get_cofactors a mv.var_id with
          | none => rw [hcofa] at h; cases h
          | some pa =>
          obtain ⟨a1, a0⟩ := pa
          cases hcofb : s.get_cofactors b mv.var_id with
          | none => simp only [hcofa, hcofb] at h; cases h
          | some pb =>
          obtain ⟨b1, b0⟩ := pb
          cases hcofc : s.get_cofactors c mv.var_id with
          | none => simp only [hcofa, hcofb, hcofc] at h; cases h
          | some pc =>
          obtain ⟨c1, c0⟩ := pc
          simp only [hcofa, hcofb, hcofc] at h
          obtain ⟨hA1, hA0, hLa1, hLa0, hShA⟩ :=
            cof_spec hw.store ha hvle_a hcofa
          obtain ⟨hB1, hB0, hLb1, hLb0, hShB⟩ :=
            cof_spec hw.store hb hvle_b hcofb
          obtain ⟨hC1, hC0, hLc1, hLc0, hShC⟩ :=
            cof_spec hw.store hc hvle_c hcofc
          cases hrec1 : iteF fuel s a1 b1 c1 with
          | none => simp only [hrec1] at h; cases h
          | some p1 =>
          obtain ⟨w1, s1⟩ := p1
          simp only [hrec1] at h
          obtain ⟨hw1, he1, hrW1, hpre1, hlvl1, hsem1⟩ :=
            ih s a1 b1 c1 w1 s1 hw hA1 hB1 hC1 hrec1
          cases hrec2 : iteF fuel s1 a0 b0 c0 with
          | none => simp only [hrec2] at h; cases h
          | some p2 =>
          obtain ⟨w0, s2⟩ := p2
          simp only [hrec2] at h
          obtain ⟨hw2, he2, hrW0, hpre2, hlvl2, hsem2⟩ :=
            ih s1 a0 b0 c0 w0 s2 hw1 (sOT_ext he1 hA0) (sOT_ext he1 hB0)
              (sOT_ext he1 hC0) hrec2
          have he12 : StoreExt s s2 := storeExt_trans he1 he2
          have hrW1s2 : sOT s2 w1 := sOT_ext he2 hrW1
          -- levels of the two sub-results are strictly below mid
          have hlvlW1 : ∀ L, lookupA w1 s2.node_to_var_id = some L →
              Lvl.natLt mv.var_id L = true := by
            intro L hL
            rw [lvl_lookup_ext hw1.store he2 hrW1] at hL
            obtain ⟨La1, hLa1e⟩ := lvl_of_sOT hw.store hA1
            obtain ⟨Lb1, hLb1e⟩ := lvl_of_sOT hw.store hB1
            obtain ⟨Lc1, hLc1e⟩ := lvl_of_sOT hw.store hC1
            have := hlvl1 La1 Lb1 Lc1 L hLa1e hLb1e hLc1e hL
            refine Lvl.natLt_of_lt_of_le ?_ this
            exact Lvl.minL_natLt (hLa1 _ hLa1e)
              (Lvl.minL_natLt (hLb1 _ hLb1e) (hLc1 _ hLc1e))
          have hlvlW0 : ∀ L, lookupA w0 s2.node_to_var_id = some L →
              Lvl.natLt mv.var_id L = true := by
            intro L hL
            obtain ⟨La0, hLa0e⟩ := lvl_of_sOT hw.store hA0
            obtain ⟨Lb0, hLb0e⟩ := lvl_of_sOT hw.store hB0
            obtain ⟨Lc0, hLc0e⟩ := lvl_of_sOT hw.store hC0
            have h1e : lookupA a0 s1.node_to_var_id = some La0 := by
              rw [lvl_lookup_ext hw.store he1 hA0]; exact hLa0e
            have h2e : lookupA b0 s1.node_to_var_id = some Lb0 := by
              rw [lvl_lookup_ext hw.store he1 hB0]; exact hLb0e
            have h3e : lookupA c0 s1.node_to_var_id = some Lc0 := by
              rw [lvl_lookup_ext hw.store he1 hC0]; exact hLc0e
            have := hlvl2 La0 Lb0 Lc0 L h1e h2e h3e hL
            refine Lvl.natLt_of_lt_of_le ?_ this
            exact Lvl.minL_natLt (hLa0 _ hLa0e)
              (Lvl.minL_natLt (hLb0 _ hLb0e) (hLc0 _ hLc0e))
          have hsem1s2 : ∀ env, bval s2 w1 env =
              cond (bval s a1 env) (bval s b1 env) (bval s c1 env) := by
            intro env
            rw [bval_ext hw1.store he2 hrW1]
            exact hsem1 env
          have hsem2s : ∀ env, bval s2 w0 env =
              cond (bval s a0 env) (bval s b0 env) (bval s c0 env) := by
            intro env
            rw [hsem2 env, bval_ext hw.store he1 hA0,
              bval_ext hw.store he1 hB0, bval_ext hw.store he1 hC0]
          have hmainSem : ∀ env,
              (if env mv.var_id then bval s2 w1 env else bval s2 w0 env) =
              cond (bval s a env) (bval s b env) (bval s c env) := by
            intro env
            rw [hShA env, hShB env, hShC env]
            cases henv : env mv.var_id with
            | true => simp only [henv, if_true]; exact hsem1s2 env
            | false => simp only [henv, Bool.false_eq_true, if_false]; exact hsem2s env
          by_cases hww : w0 = w1
          · rw [if_pos hww] at h
            injection h with h
            injection h with hq1 hq2
            subst hq1; subst hq2
            have hmainSem0 : ∀ env, bval s2 w0 env =
                cond (bval s a env) (bval s b env) (bval s c env) := by
              intro env
              rw [← hmainSem env, hww, ite_self]
            have hfin : ∀ lr, lookupA w0 s2.node_to_var_id = some lr →
                Lvl.leL (Lvl.minL la (Lvl.minL lb lc)) lr = true := by
              intro lr hlr
              rw [hmin]
              rw [← hvid]
              exact natLt_to_leL (hlvlW0 _ hlr)
            have hextp := ext_putIte s2 (a, b, c) w0
            have hsip := storeInv_putIte hw2.store (a, b, c) w0
            have hbvp : ∀ n env,
                bval (s2.putIte (a, b, c) w0) n env = bval s2 n env :=
              fun n env => bval_putIte s2 (a, b, c) w0 n env
            have hsemP : ∀ env, bval (s2.putIte (a, b, c) w0) w0 env =
                cond (bval s a env) (bval s b env) (bval s c env) := by
              intro env
              rw [hbvp]
              exact hmainSem0 env
            have hentry : IteEntryOk (s2.putIte (a, b, c) w0) ((a, b, c), w0) := by
              refine iteEntry_intro
                (sOT_ext (storeExt_trans he12 hextp) ha)
                (sOT_ext (storeExt_trans he12 hextp) hb)
                (sOT_ext (storeExt_trans he12 hextp) hc)
                (sOT_ext hextp hrW0) ?_ ?_
              · intro la' lb' lc' lr' hla' hlb' hlc' hlr'
                cases lookup_det hla ((lvl_lookup_ext hw.store
                  (storeExt_trans he12 hextp) ha).symm.trans hla')
                cases lookup_det hlb ((lvl_lookup_ext hw.store
                  (storeExt_trans he12 hextp) hb).symm.trans hlb')
                cases lookup_det hlc ((lvl_lookup_ext hw.store
                  (storeExt_trans he12 hextp) hc).symm.trans hlc')
                exact hfin _ ((lvl_lookup_ext hw2.store hextp
                  hrW0).symm.trans hlr')
              · intro env
                rw [hbvp, hbvp, hbvp, hbvp]
                rw [bval_ext hw.store he12 ha, bval_ext hw.store he12 hb,
                  bval_ext hw.store he12 hc]
                exact hmainSem0 env
            refine ⟨⟨hsip, ?_, ?_, ?_⟩, storeExt_trans he12 hextp,
              sOT_ext hextp hrW0, ?_, ?_, hsemP⟩
            · intro e hmem
              rcases List.mem_cons.mp hmem with hmem | hmem
              · subst hmem; exact hentry
              · exact iteEntry_ext hw2.store hextp (hw2.iteOk _ hmem)
            · exact fun e hmem => andEntry_ext hw2.store hextp (hw2.andOk _ hmem)
            · exact fun e hmem =>
                orEntry_ext hw2.store hsip hextp (hw2.orOk _ hmem)
            · rw [show (s2.putIte (a, b, c) w0).pre_cache = s2.pre_cache
                from rfl, hpre2, hpre1]
            · intro la' lb' lc' lr' hla' hlb' hlc' hlr'
              cases Option.some.inj hla'
              cases Option.some.inj hlb'
              cases Option.some.inj hlc'
              exact hfin _ ((lvl_lookup_ext hw2.store hextp
                hrW0).symm.trans hlr')
          · rw [if_neg hww] at h
            cases hmk : s2.make mv.var_id w1 w0 with
            | mk r3 s3 =>
            simp only [hmk] at h
            injection h with h
            injection h with hq1 hq2
            subst hq1; subst hq2
            have hvlen : mv.var_id < s2.variable_ordering.length := by
              rw [he12.1, hvid]
              exact get?_lt_length hmv
            obtain ⟨hs3, he3, hr3, hc1e, hc2e, hc3e, hc4e, hlvl3, hsem3⟩ :=
              make_spec hw2.store hrW1s2 hrW0
                (fun L hL => hlvlW1 L hL) (fun L hL => hlvlW0 L hL) hvlen hmk
            have he123 : StoreExt s s3 := storeExt_trans he12 he3
            have hw3 : WF s3 := wf_transport hw2 hs3 he3 hc1e hc2e hc3e
            have hmainSem3 : ∀ env, bval s3 r3 env =
                cond (bval s a env) (bval s b env) (bval s c env) := by
              intro env
              rw [hsem3 env, bval_ext hw2.store he3 hrW1s2,
                bval_ext hw2.store he3 hrW0]
              exact hmainSem env
            have hfin : ∀ lr, lookupA r3 s3.node_to_var_id = some lr →
                Lvl.leL (Lvl.minL la (Lvl.minL lb lc)) lr = true := by
              intro lr hlr
              rw [hmin, ← hvid]
              exact hlvl3 _ hlr
            have hextp := ext_putIte s3 (a, b, c) r3
            have hsip := storeInv_putIte hs3 (a, b, c) r3
            have hbvp : ∀ n env,
                bval (s3.putIte (a, b, c) r3) n env = bval s3 n env :=
              fun n env => bval_putIte s3 (a, b, c) r3 n env
            have hsemP : ∀ env, bval (s3.putIte (a, b, c) r3) r3 env =
                cond (bval s a env) (bval s b env) (bval s c env) := by
              intro env
              rw [hbvp]
              exact hmainSem3 env
            have hentry : IteEntryOk (s3.putIte (a, b, c) r3) ((a, b, c), r3) := by
              refine iteEntry_intro
                (sOT_ext (storeExt_trans he123 hextp) ha)
                (sOT_ext (storeExt_trans he123 hextp) hb)
                (sOT_ext (storeExt_trans he123 hextp) hc)
                (sOT_ext hextp hr3) ?_ ?_
              · intro la' lb' lc' lr' hla' hlb' hlc' hlr'
                cases lookup_det hla ((lvl_lookup_ext hw.store
                  (storeExt_trans he123 hextp) ha).symm.trans hla')
                cases lookup_det hlb ((lvl_lookup_ext hw.store
                  (storeExt_trans he123 hextp) hb).symm.trans hlb')
                cases lookup_det hlc ((lvl_lookup_ext hw.store
                  (storeExt_trans he123 hextp) hc).symm.trans hlc')
                exact hfin _ ((lvl_lookup_ext hs3 hextp hr3).symm.trans hlr')
              · intro env
                rw [hbvp, hbvp, hbvp, hbvp]
                rw [bval_ext hw.store he123 ha, bval_ext hw.store he123 hb,
                  bval_ext hw.store he123 hc]
                exact hmainSem3 env
            refine ⟨⟨hsip, ?_, ?_, ?_⟩, storeExt_trans he123 hextp,
              sOT_ext hextp hr3, ?_, ?_, hsemP⟩
            · intro e hmem
              rcases List.mem_cons.mp hmem with hmem | hmem
              · subst hmem; exact hentry
              · exact iteEntry_ext hs3 hextp (hw3.iteOk _ hmem)
            · exact fun e hmem => andEntry_ext hs3 hextp (hw3.andOk _ hmem)
            · exact fun e hmem => orEntry_ext hs3 hsip hextp (hw3.orOk _ hmem)
            · rw [show (s3.putIte (a, b, c) r3).pre_cache = s3.pre_cache
                from rfl, hc4e, hpre2, hpre1]
            · intro la' lb' lc' lr' hla' hlb' hlc' hlr'
              cases Option.some.inj hla'
              cases Option.some.inj hlb'
              cases Option.some.inj hlc'
              exact hfin _ ((lvl_lookup_ext hs3 hextp hr3).symm.trans hlr')

theorem leL_inf (x : Lvl) : Lvl.leL x Lvl.inf = true := by
  cases x <;> rfl

theorem lvl_terminal {s : BDD} (hs : StoreInv s) {d : Nat}
    (hd : d = get_zero_node ∨ d = get_one_node) :
    lookupA d s.node_to_var_id = some Lvl.inf := by
  rcases hd with hd | hd
  · rw [hd]; exact hs.var_zero
  · rw [hd]; exact hs.var_one

theorem evensupp_lvl_even {s : BDD} (hs : StoreInv s) {a k : Nat}
    (he : EvenSupp s a)
    (hL : lookupA a s.node_to_var_id = some (Lvl.fin k)) : k % 2 = 0 := by
  rcases hs.var_dom _ (lookupA_eq_some_mem hL) with h0 | h0 | h0
  · simp only at h0
    rw [h0] at hL
    rw [hs.var_zero] at hL
    cases hL
  · simp only at h0
    rw [h0] at hL
    rw [hs.var_one] at hL
    cases hL
  · rw [Option.isSome_iff_exists] at h0
    obtain ⟨⟨v, n1, n0⟩, hr⟩ := h0
    simp only at hr
    have := hs.var_of_row _ (lookupA_eq_some_mem hr)
    simp only at this
    rw [hL] at this
    cases Option.some.inj this
    exact he _ _ _ _ (Reach.mem (by simp)) hr

theorem make_row {s : BDD} (hs : StoreInv s) {vid h l r : Nat} {s' : BDD}
    (hm : s.make vid h l = (r, s')) :
    (h = l ∧ r = h ∧ s' = s) ∨
    lookupA r s'.node_to_row = some (vid, h, l) := by
  by_cases hhl : h = l
  · rw [BDD.make, if_pos hhl] at hm
    injection hm with hm1 hm2
    exact Or.inl ⟨hhl, hm1.symm, hm2.symm⟩
  · rw [BDD.make, if_neg hhl] at hm
    cases hfind : lookupA (vid, h, l) s.row_to_node with
    | some m =>
      rw [hfind] at hm
      injection hm with hm1 hm2
      subst hm1; subst hm2
      exact Or.inr (hs.inv2 _ (lookupA_eq_some_mem hfind))
    | none =>
      rw [hfind] at hm
      injection hm with hm1 hm2
      subst hm1; subst hm2
      exact Or.inr (lookupA_cons_self ..)

/-- The `conjunction` cache-hit path. -/
theorem conjHit_spec {s : BDD} {a b r : Nat} (hw : WF s)
    (hc : lookupA (a, b) s.and_cache = some r) :
    WF s ∧ StoreExt s s ∧ sOT s r ∧ s.pre_cache = s.pre_cache ∧
    (∀ la lb lr,
      lookupA a s.node_to_var_id = some la →
      lookupA b s.node_to_var_id = some lb →
      lookupA r s.node_to_var_id = some lr →
      Lvl.leL (Lvl.minL la lb) lr = true) ∧
    (∀ env, bval s r env = (bval s a env && bval s b env)) := by
  obtain ⟨hea, heb, her, hlvl, hsem⟩ := hw.andOk _ (lookupA_eq_some_mem hc)
  exact ⟨hw, storeExt_refl s, her, rfl, hlvl, hsem⟩

/-- The `conjunction` constant short-circuits: caching and returning a
terminal satisfies the full specification. -/
theorem conjConst_spec {s : BDD} {a b d : Nat} (hw : WF s)
    (ha : sOT s a) (hb : sOT s b)
    (hd : d = get_zero_node ∨ d = get_one_node)
    (hsel : ∀ env, bval s d env = (bval s a env && bval s b env)) :
    WF (s.putAnd (a, b) d) ∧ StoreExt s (s.putAnd (a, b) d) ∧
    sOT (s.putAnd (a, b) d) d ∧
    (s.putAnd (a, b) d).pre_cache = s.pre_cache ∧
    (∀ la lb lr,
      lookupA a s.node_to_var_id = some la →
      lookupA b s.node_to_var_id = some lb →
      lookupA d (s.putAnd (a, b) d).node_to_var_id = some lr →
      Lvl.leL (Lvl.minL la lb) lr = true) ∧
    (∀ env, bval (s.putAnd (a, b) d) d env =
      (bval s a env && bval s b env)) := by
  have hsi := storeInv_putAnd hw.store (a, b) d
  have hext := ext_putAnd s (a, b) d
  have hdS : sOT s d := by
    rcases hd with hd | hd <;> rw [hd]
    · exact sOT_zero s
    · exact sOT_one s
  have hbvp : ∀ n env, bval (s.putAnd (a, b) d) n env = bval s n env :=
    fun n env => bval_putAnd s (a, b) d n env
  have hlvl : ∀ la lb lr,
      lookupA a s.node_to_var_id = some la →
      lookupA b s.node_to_var_id = some lb →
      lookupA d s.node_to_var_id = some lr →
      Lvl.leL (Lvl.minL la lb) lr = true := by
    intro la lb lr hla hlb hlr
    rw [lvl_terminal hw.store hd] at hlr
    cases Option.some.inj hlr
    exact leL_inf _
  have hentry : AndEntryOk (s.putAnd (a, b) d) ((a, b), d) := by
    refine andEntry_intro (sOT_ext hext ha) (sOT_ext hext hb)
      (sOT_ext hext hdS) ?_ ?_
    · intro la lb lr hla hlb hlr
      exact hlvl la lb lr hla hlb hlr
    · intro env
      rw [hbvp, hbvp, hbvp]
      exact hsel env
  refine ⟨⟨hsi, ?_, ?_, ?_⟩, hext, sOT_ext hext hdS, rfl, ?_, ?_⟩
  · exact fun e hmem => iteEntry_ext hw.store hext (hw.iteOk _ hmem)
  · intro e hmem
    rcases List.mem_cons.mp hmem with hmem | hmem
    · subst hmem; exact hentry
    · exact andEntry_ext hw.store hext (hw.andOk _ hmem)
  · exact fun e hmem => orEntry_ext hw.store hsi hext (hw.orOk _ hmem)
  · exact fun la lb lr hla hlb hlr => hlvl la lb lr hla hlb hlr
  · intro env
    rw [hbvp]
    exact hsel env

/-- Specification of `conjunction`: on a valid manager it preserves the
invariant, extends the store, leaves the `pre_image` cache unchanged, and
returns a stored-or-terminal node, at a level no higher than the minimum
operand level, denoting `a ∧ b`. -/
theorem conjF_spec :
    ∀ (fuel : Nat) (s : BDD) (a b r : Nat) (s' : BDD),
    WF s → sOT s a → sOT s b →
    conjF fuel s a b = some (r, s') →
    WF s' ∧ StoreExt s s' ∧ sOT s' r ∧ s'.pre_cache = s.pre_cache ∧
    (∀ la lb lr,
      lookupA a s.node_to_var_id = some la →
      lookupA b s.node_to_var_id = some lb →
      lookupA r s'.node_to_var_id = some lr →
      Lvl.leL (Lvl.minL la lb) lr = true) ∧
    (∀ env, bval s' r env = (bval s a env && bval s b env)) := by
  intro fuel
  induction fuel with
  | zero =>
    intro s a b r s' hw ha hb h
    simp only [conjF] at h
    cases hcache : lookupA (a, b) s.and_cache with
    | some r0 =>
      rw [hcache] at h
      injection h with h
      injection h with h1 h2
      subst h1; subst h2
      exact conjHit_spec hw hcache
    | none =>
      rw [hcache] at h
      by_cases h0 : a = get_zero_node ∨ b = get_zero_node
      · rw [if_pos h0] at h
        injection h with h
        injection h with he1 he2
        subst he1; subst he2
        refine conjConst_spec hw ha hb (Or.inl rfl) ?_
        intro env
        rw [bval_term_zero]
        rcases h0 with h0 | h0 <;> rw [h0, bval_term_zero]
        · rfl
        · simp
      · rw [if_neg h0] at h
        by_cases h1 : a = b ∧ a = get_one_node
        · rw [if_pos h1] at h
          injection h with h
          injection h with he1 he2
          subst he1; subst he2
          refine conjConst_spec hw ha hb (Or.inr rfl) ?_
          intro env
          rw [bval_term_one, ← h1.1, h1.2, bval_term_one]
          rfl
        · rw [if_neg h1] at h
          cases h
  | succ fuel ih =>
    intro s a b r s' hw ha hb h
    simp only [conjF] at h
    cases hcache : lookupA (a, b) s.and_cache with
    | some r0 =>
      rw [hcache] at h
      injection h with h
      injection h with h1 h2
      subst h1; subst h2
      exact conjHit_spec hw hcache
    | none =>
      rw [hcache] at h
      by_cases h0 : a = get_zero_node ∨ b = get_zero_node
      · rw [if_pos h0] at h
        injection h with h
        injection h with he1 he2
        subst he1; subst he2
        refine conjConst_spec hw ha hb (Or.inl rfl) ?_
        intro env
        rw [bval_term_zero]
        rcases h0 with h0 | h0 <;> rw [h0, bval_term_zero]
        · rfl
        · simp
      · rw [if_neg h0] at h
        by_cases h1 : a = b ∧ a = get_one_node
        · rw [if_pos h1] at h
          injection h with h
          injection h with he1 he2
          subst he1; subst he2
          refine conjConst_spec hw ha hb (Or.inr rfl) ?_
          intro env
          rw [bval_term_one, ← h1.1, h1.2, bval_term_one]
          rfl
        · rw [if_neg h1] at h
          cases hla : lookupA a s.node_to_var_id with
          | none => rw [hla] at h; cases h
          | some la =>
          cases hlb : lookupA b s.node_to_var_id with
          | none => rw [hla] at h; rw [hlb] at h; cases h
          | some lb =>
          simp only [hla, hlb] at h
          cases hidx : (Lvl.minL la lb).idx with
          | none => simp only [hidx] at h; cases h
          | some mid =>
          simp only [hidx] at h
          have hmin : Lvl.minL la lb = Lvl.fin mid := idx_some hidx
          cases hmv : s.variable_ordering.get? mid with
          | none => simp only [hmv] at h; cases h
          | some mv =>
          simp only [hmv] at h
          have hvid : mv.var_id = mid := hw.store.reg_ids mid mv hmv
          have hvle_a : ∀ L, lookupA a s.node_to_var_id = some L →
              Lvl.leL (Lvl.fin mv.var_id) L = true := by
            intro L hL
            cases lookup_det hla hL
            rw [hvid, ← hmin]
            exact Lvl.minL_le_left _ _
          have hvle_b : ∀ L, lookupA b s.node_to_var_id = some L →
              Lvl.leL (Lvl.fin mv.var_id) L = true := by
            intro L hL
            cases lookup_det hlb hL
            rw [hvid, ← hmin]
            exact Lvl.minL_le_right _ _
          cases hcofa : s.get_cofactors a mv.var_id with
          | none => rw [hcofa] at h; cases h
          | some pa =>
          obtain ⟨a1, a0⟩ := pa
          cases hcofb : s.get_cofactors b mv.var_id with
          | none => simp only [hcofa, hcofb] at h; cases h
          | some pb =>
          obtain ⟨b1, b0⟩ := pb
          simp only [hcofa, hcofb] at h
          obtain ⟨hA1, hA0, hLa1, hLa0, hShA⟩ :=
            cof_spec hw.store ha hvle_a hcofa
          obtain ⟨hB1, hB0, hLb1, hLb0, hShB⟩ :=
            cof_spec hw.store hb hvle_b hcofb
          cases hrec1 : conjF fuel s a1 b1 with
          | none => simp only [hrec1] at h; cases h
          | some p1 =>
          obtain ⟨w1, s1⟩ := p1
          simp only [hrec1] at h
          obtain ⟨hw1, he1, hrW1, hpre1, hlvl1, hsem1⟩ :=
            ih s a1 b1 w1 s1 hw hA1 hB1 hrec1
          cases hrec2 : conjF fuel s1 a0 b0 with
          | none => simp only [hrec2] at h; cases h
          | some p2 =>
          obtain ⟨w0, s2⟩ := p2
          simp only [hrec2] at h
          obtain ⟨hw2, he2, hrW0, hpre2, hlvl2, hsem2⟩ :=
            ih s1 a0 b0 w0 s2 hw1 (sOT_ext he1 hA0) (sOT_ext he1 hB0) hrec2
          have he12 : StoreExt s s2 := storeExt_trans he1 he2
          have hrW1s2 : sOT s2 w1 := sOT_ext he2 hrW1
          have hlvlW1 : ∀ L, lookupA w1 s2.node_to_var_id = some L →
              Lvl.natLt mv.var_id L = true := by
            intro L hL
            rw [lvl_lookup_ext hw1.store he2 hrW1] at hL
            obtain ⟨La1, hLa1e⟩ := lvl_of_sOT hw.store hA1
            obtain ⟨Lb1, hLb1e⟩ := lvl_of_sOT hw.store hB1
            have := hlvl1 La1 Lb1 L hLa1e hLb1e hL
            refine Lvl.natLt_of_lt_of_le ?_ this
            exact Lvl.minL_natLt (hLa1 _ hLa1e) (hLb1 _ hLb1e)
          have hlvlW0 : ∀ L, lookupA w0 s2.node_to_var_id = some L →
              Lvl.natLt mv.var_id L = true := by
            intro L hL
            obtain ⟨La0, hLa0e⟩ := lvl_of_sOT hw.store hA0
            obtain ⟨Lb0, hLb0e⟩ := lvl_of_sOT hw.store hB0
            have h1e : lookupA a0 s1.node_to_var_id = some La0 := by
              rw [lvl_lookup_ext hw.store he1 hA0]; exact hLa0e
            have h2e : lookupA b0 s1.node_to_var_id = some Lb0 := by
              rw [lvl_lookup_ext hw.store he1 hB0]; exact hLb0e
            have := hlvl2 La0 Lb0 L h1e h2e hL
            refine Lvl.natLt_of_lt_of_le ?_ this
            exact Lvl.minL_natLt (hLa0 _ hLa0e) (hLb0 _ hLb0e)
          have hsem1s2 : ∀ env, bval s2 w1 env =
              (bval s a1 env && bval s b1 env) := by
            intro env
            rw [bval_ext hw1.store he2 hrW1]
            exact hsem1 env
          have hsem2s : ∀ env, bval s2 w0 env =
              (bval s a0 env && bval s b0 env) := by
            intro env
            rw [hsem2 env, bval_ext hw.store he1 hA0,
              bval_ext hw.store he1 hB0]
          have hmainSem : ∀ env,
              (if env mv.var_id then bval s2 w1 env else bval s2 w0 env) =
              (bval s a env && bval s b env) := by
            intro env
            rw [hShA env, hShB env]
            cases henv : env mv.var_id with
            | true => simp only [henv, if_true]; exact hsem1s2 env
            | false =>
              simp only [henv, Bool.false_eq_true, if_false]
              exact hsem2s env
          cases hmk : s2.make mv.var_id w1 w0 with
          | mk r3 s3 =>
          simp only [hmk] at h
          injection h with h
          injection h with hq1 hq2
          subst hq1; subst hq2
          have hvlen : mv.var_id < s2.variable_ordering.length := by
            rw [he12.1, hvid]
            exact get?_lt_length hmv
          obtain ⟨hs3, he3, hr3, hc1e, hc2e, hc3e, hc4e, hlvl3, hsem3⟩ :=
            make_spec hw2.store hrW1s2 hrW0
              (fun L hL => hlvlW1 L hL) (fun L hL => hlvlW0 L hL) hvlen hmk
          have he123 : StoreExt s s3 := storeExt_trans he12 he3
          have hw3 : WF s3 := wf_transport hw2 hs3 he3 hc1e hc2e hc3e
          have hmainSem3 : ∀ env, bval s3 r3 env =
              (bval s a env && bval s b env) := by
            intro env
            rw [hsem3 env, bval_ext hw2.store he3 hrW1s2,
              bval_ext hw2.store he3 hrW0]
            exact hmainSem env
          have hfin : ∀ lr, lookupA r3 s3.node_to_var_id = some lr →
              Lvl.leL (Lvl.minL la lb) lr = true := by
            intro lr hlr
            rw [hmin, ← hvid]
            exact hlvl3 _ hlr
          have hextp := ext_putAnd s3 (a, b) r3
          have hsip := storeInv_putAnd hs3 (a, b) r3
          have hbvp : ∀ n env,
              bval (s3.putAnd (a, b) r3) n env = bval s3 n env :=
            fun n env => bval_putAnd s3 (a, b) r3 n env
          have hsemP : ∀ env, bval (s3.putAnd (a, b) r3) r3 env =
              (bval s a env && bval s b env) := by
            intro env
            rw [hbvp]
            exact hmainSem3 env
          have hentry : AndEntryOk (s3.putAnd (a, b) r3) ((a, b), r3) := by
            refine andEntry_intro
              (sOT_ext (storeExt_trans he123 hextp) ha)
              (sOT_ext (storeExt_trans he123 hextp) hb)
              (sOT_ext hextp hr3) ?_ ?_
            · intro la' lb' lr' hla' hlb' hlr'
              cases lookup_det hla ((lvl_lookup_ext hw.store
                (storeExt_trans he123 hextp) ha).symm.trans hla')
              cases lookup_det hlb ((lvl_lookup_ext hw.store
                (storeExt_trans he123 hextp) hb).symm.trans hlb')
              exact hfin _ ((lvl_lookup_ext hs3 hextp hr3).symm.trans hlr')
            · intro env
              rw [hbvp, hbvp, hbvp]
              rw [bval_ext hw.store he123 ha, bval_ext hw.store he123 hb]
              exact hmainSem3 env
          refine ⟨⟨hsip, ?_, ?_, ?_⟩, storeExt_trans he123 hextp,
            sOT_ext hextp hr3, ?_, ?_, hsemP⟩
          · exact fun e hmem => iteEntry_ext hs3 hextp (hw3.iteOk _ hmem)
          · intro e hmem
            rcases List.mem_cons.mp hmem with hmem | hmem
            · subst hmem; exact hentry
            · exact andEntry_ext hs3 hextp (hw3.andOk _ hmem)
          · exact fun e hmem => orEntry_ext hs3 hsip hextp (hw3.orOk _ hmem)
          · rw [show (s3.putAnd (a, b) r3).pre_cache = s3.pre_cache
              from rfl, hc4e, hpre2, hpre1]
          · intro la' lb' lr' hla' hlb' hlr'
            cases Option.some.inj hla'
            cases Option.some.inj hlb'
            exact hfin _ ((lvl_lookup_ext hs3 hextp hr3).symm.trans hlr')

theorem reach_store_congr {s t : BDD} (h : s.node_to_row = t.node_to_row)
    {roots : List Nat} {m : Nat} (hr : Reach s roots m) : Reach t roots m := by
  induction hr with
  | mem hm => exact Reach.mem hm
  | hi hre hr' ih => exact Reach.hi ih (by rw [← h]; exact hr')
  | lo hre hr' ih => exact Reach.lo ih (by rw [← h]; exact hr')

theorem evensupp_store_congr {s t : BDD}
    (h : s.node_to_row = t.node_to_row) {n : Nat} (he : EvenSupp s n) :
    EvenSupp t n := by
  intro m v hh ll hre hr
  exact he m v hh ll (reach_store_congr h.symm hre) (by rw [h]; exact hr)

theorem cof_evensupp {s : BDD} (hs : StoreInv s) {n vid h l : Nat}
    (hc : s.get_cofactors n vid = some (h, l)) (he : EvenSupp s n) :
    EvenSupp s h ∧ EvenSupp s l := by
  rw [BDD.get_cofactors] at hc
  by_cases ht : n = get_zero_node ∨ n = get_one_node
  · rw [if_pos ht] at hc
    injection hc with hc
    injection hc with hc1 hc2
    subst hc1; subst hc2
    exact ⟨he, he⟩
  · rw [if_neg ht] at hc
    cases hvar : lookupA n s.node_to_var_id with
    | none => rw [hvar] at hc; cases hc
    | some L =>
      rw [hvar] at hc
      cases hlt : Lvl.natLt vid L with
      | true =>
        simp only [hlt, if_true] at hc
        injection hc with hc
        injection hc with hc1 hc2
        subst hc1; subst hc2
        exact ⟨he, he⟩
      | false =>
        simp only [hlt, Bool.false_eq_true, if_false, BDD.get_succs] at hc
        cases hrow : lookupA n s.node_to_row with
        | none => rw [hrow] at hc; cases hc
        | some r =>
          obtain ⟨v, n1, n0⟩ := r
          rw [hrow] at hc
          injection hc with hc
          injection hc with hc1 hc2
          subst hc1; subst hc2
          obtain ⟨h1, h2, _⟩ := evensupp_step hrow he
          exact ⟨h1, h2⟩

/-- The `disjunction` cache-hit path. -/
theorem disjHit_spec {s : BDD} {a b r : Nat} (hw : WF s)
    (hc : lookupA (a, b) s.or_cache = some r) :
    WF s ∧ StoreExt s s ∧ sOT s r ∧ s.pre_cache = s.pre_cache ∧
    (∀ la lb lr,
      lookupA a s.node_to_var_id = some la →
      lookupA b s.node_to_var_id = some lb →
      lookupA r s.node_to_var_id = some lr →
      Lvl.leL (Lvl.minL la lb) lr = true) ∧
    (EvenSupp s a → EvenSupp s b → EvenSupp s r) ∧
    (∀ env, bval s r env = (bval s a env || bval s b env)) := by
  obtain ⟨hea, heb, her, hlvl, hev, hsem⟩ :=
    hw.orOk _ (lookupA_eq_some_mem hc)
  exact ⟨hw, storeExt_refl s, her, rfl, hlvl, hev, hsem⟩

/-- The `disjunction` constant short-circuits. -/
theorem disjConst_spec {s : BDD} {a b d : Nat} (hw : WF s)
    (ha : sOT s a) (hb : sOT s b)
    (hd : d = get_zero_node ∨ d = get_one_node)
    (hsel : ∀ env, bval s d env = (bval s a env || bval s b env)) :
    WF (s.putOr (a, b) d) ∧ StoreExt s (s.putOr (a, b) d) ∧
    sOT (s.putOr (a, b) d) d ∧
    (s.putOr (a, b) d).pre_cache = s.pre_cache ∧
    (∀ la lb lr,
      lookupA a s.node_to_var_id = some la →
      lookupA b s.node_to_var_id = some lb →
      lookupA d (s.putOr (a, b) d).node_to_var_id = some lr →
      Lvl.leL (Lvl.minL la lb) lr = true) ∧
    (EvenSupp (s.putOr (a, b) d) a → EvenSupp (s.putOr (a, b) d) b →
      EvenSupp (s.putOr (a, b) d) d) ∧
    (∀ env, bval (s.putOr (a, b) d) d env =
      (bval s a env || bval s b env)) := by
  have hsi := storeInv_putOr hw.store (a, b) d
  have hext := ext_putOr s (a, b) d
  have hdS : sOT s d := by
    rcases hd with hd | hd <;> rw [hd]
    · exact sOT_zero s
    · exact sOT_one s
  have hbvp : ∀ n env, bval (s.putOr (a, b) d) n env = bval s n env :=
    fun n env => bval_putOr s (a, b) d n env
  have hlvl : ∀ la lb lr,
      lookupA a s.node_to_var_id = some la →
      lookupA b s.node_to_var_id = some lb →
      lookupA d s.node_to_var_id = some lr →
      Lvl.leL (Lvl.minL la lb) lr = true := by
    intro la lb lr hla hlb hlr
    rw [lvl_terminal hw.store hd] at hlr
    cases Option.some.inj hlr
    exact leL_inf _
  have hevd : EvenSupp (s.putOr (a, b) d) d :=
    evensupp_terminal hsi (by
      rcases hd with hd | hd
      · exact Or.inl (by rw [hd]; rfl)
      · exact Or.inr (by rw [hd]; rfl))
  have hentry : OrEntryOk (s.putOr (a, b) d) ((a, b), d) := by
    refine orEntry_intro (sOT_ext hext ha) (sOT_ext hext hb)
      (sOT_ext hext hdS) ?_ (fun _ _ => hevd) ?_
    · intro la lb lr hla hlb hlr
      exact hlvl la lb lr hla hlb hlr
    · intro env
      rw [hbvp, hbvp, hbvp]
      exact hsel env
  refine ⟨⟨hsi, ?_, ?_, ?_⟩, hext, sOT_ext hext hdS, rfl, ?_,
    (fun _ _ => hevd), ?_⟩
  · exact fun e hmem => iteEntry_ext hw.store hext (hw.iteOk _ hmem)
  · exact fun e hmem => andEntry_ext hw.store hext (hw.andOk _ hmem)
  · intro e hmem
    rcases List.mem_cons.mp hmem with hmem | hmem
    · subst hmem; exact hentry
    · exact orEntry_ext hw.store hsi hext (hw.orOk _ hmem)
  · exact fun la lb lr hla hlb hlr => hlvl la lb lr hla hlb hlr
  · intro env
    rw [hbvp]
    exact hsel env

theorem disjF_spec :
    ∀ (fuel : Nat) (s : BDD) (a b r : Nat) (s' : BDD),
    WF s → sOT s a → sOT s b →
    disjF fuel s a b = some (r, s') →
    WF s' ∧ StoreExt s s' ∧ sOT s' r ∧ s'.pre_cache = s.pre_cache ∧
    (∀ la lb lr,
      lookupA a s.node_to_var_id = some la →
      lookupA b s.node_to_var_id = some lb →
      lookupA r s'.node_to_var_id = some lr →
      Lvl.leL (Lvl.minL la lb) lr = true) ∧
    (EvenSupp s a → EvenSupp s b → EvenSupp s' r) ∧
    (∀ env, bval s' r env = (bval s a env || bval s b env)) := by
  intro fuel
  induction fuel with
  | zero =>
    intro s a b r s' hw ha hb h
    simp only [disjF] at h
    cases hcache : lookupA (a, b) s.or_cache with
    | some r0 =>
      rw [hcache] at h
      injection h with h
      injection h with h1 h2
      subst h1; subst h2
      exact disjHit_spec hw hcache
    | none =>
      rw [hcache] at h
      by_cases h0 : a = get_one_node ∨ b = get_one_node
      · rw [if_pos h0] at h
        injection h with h
        injection h with he1 he2
        subst he1; subst he2
        obtain ⟨hw', hext', hr', hpre', hlvl', hev', hsem'⟩ :=
          disjConst_spec hw ha hb (Or.inr rfl) (by
            intro env
            rw [bval_term_one]
            rcases h0 with h0 | h0 <;> rw [h0, bval_term_one]
            · rfl
            · simp)
        exact ⟨hw', hext', hr', hpre', hlvl',
          fun hea heb => hev'
            (evensupp_ext hw.store hw'.store hext' ha hea)
            (evensupp_ext hw.store hw'.store hext' hb heb), hsem'⟩
      · rw [if_neg h0] at h
        by_cases h1 : a = b ∧ a = get_zero_node
        · rw [if_pos h1] at h
          injection h with h
          injection h with he1 he2
          subst he1; subst he2
          obtain ⟨hw', hext', hr', hpre', hlvl', hev', hsem'⟩ :=
            disjConst_spec hw ha hb (Or.inl rfl) (by
              intro env
              rw [bval_term_zero, ← h1.1, h1.2, bval_term_zero]
              rfl)
          exact ⟨hw', hext', hr', hpre', hlvl',
            fun hea heb => hev'
              (evensupp_ext hw.store hw'.store hext' ha hea)
              (evensupp_ext hw.store hw'.store hext' hb heb), hsem'⟩
        · rw [if_neg h1] at h
          cases h
  | succ fuel ih =>
    intro s a b r s' hw ha hb h
    simp only [disjF] at h
    cases hcache : lookupA (a, b) s.or_cache with
    | some r0 =>
      rw [hcache] at h
      injection h with h
      injection h with h1 h2
      subst h1; subst h2
      exact disjHit_spec hw hcache
    | none =>
      rw [hcache] at h
      by_cases h0 : a = get_one_node ∨ b = get_one_node
      · rw [if_pos h0] at h
        injection h with h
        injection h with he1 he2
        subst he1; subst he2
        obtain ⟨hw', hext', hr', hpre', hlvl', hev', hsem'⟩ :=
          disjConst_spec hw ha hb (Or.inr rfl) (by
            intro env
            rw [bval_term_one]
            rcases h0 with h0 | h0 <;> rw [h0, bval_term_one]
            · rfl
            · simp)
        exact ⟨hw', hext', hr', hpre', hlvl',
          fun hea heb => hev'
            (evensupp_ext hw.store hw'.store hext' ha hea)
            (evensupp_ext hw.store hw'.store hext' hb heb), hsem'⟩
      · rw [if_neg h0] at h
        by_cases h1 : a = b ∧ a = get_zero_node
        · rw [if_pos h1] at h
          injection h with h
          injection h with he1 he2
          subst he1; subst he2
          obtain ⟨hw', hext', hr', hpre', hlvl', hev', hsem'⟩ :=
            disjConst_spec hw ha hb (Or.inl rfl) (by
              intro env
              rw [bval_term_zero, ← h1.1, h1.2, bval_term_zero]
              rfl)
          exact ⟨hw', hext', hr', hpre', hlvl',
            fun hea heb => hev'
              (evensupp_ext hw.store hw'.store hext' ha hea)
              (evensupp_ext hw.store hw'.store hext' hb heb), hsem'⟩
        · rw [if_neg h1] at h
          cases hla : lookupA a s.node_to_var_id with
          | none => rw [hla] at h; cases h
          | some la =>
          cases hlb : lookupA b s.node_to_var_id with
          | none => rw [hla] at h; rw [hlb] at h; cases h
          | some lb =>
          simp only [hla, hlb] at h
          cases hidx : (Lvl.minL la lb).idx with
          | none => simp only [hidx] at h; cases h
          | some mid =>
          simp only [hidx] at h
          have hmin : Lvl.minL la lb = Lvl.fin mid := idx_some hidx
          cases hmv : s.variable_ordering.get? mid with
          | none => simp only [hmv] at h; cases h
          | some mv =>
          simp only [hmv] at h
          have hvid : mv.var_id = mid := hw.store.reg_ids mid mv hmv
          have hvle_a : ∀ L, lookupA a s.node_to_var_id = some L →
              Lvl.leL (Lvl.fin mv.var_id) L = true := by
            intro L hL
            cases lookup_det hla hL
            rw [hvid, ← hmin]
            exact Lvl.minL_le_left _ _
          have hvle_b : ∀ L, lookupA b s.node_to_var_id = some L →
              Lvl.leL (Lvl.fin mv.var_id) L = true := by
            intro L hL
            cases lookup_det hlb hL
            rw [hvid, ← hmin]
            exact Lvl.minL_le_right _ _
          cases hcofa : s.get_cofactors a mv.var_id with
          | none => rw [hcofa] at h; cases h
          | some pa =>
          obtain ⟨a1, a0⟩ := pa
          cases hcofb : s.get_cofactors b mv.var_id with
          | none => simp only [hcofa, hcofb] at h; cases h
          | some pb =>
          obtain ⟨b1, b0⟩ := pb
          simp only [hcofa, hcofb] at h
          obtain ⟨hA1, hA0, hLa1, hLa0, hShA⟩ :=
            cof_spec hw.store ha hvle_a hcofa
          obtain ⟨hB1, hB0, hLb1, hLb0, hShB⟩ :=
            cof_spec hw.store hb hvle_b hcofb
          cases hrec1 : disjF fuel s a1 b1 with
          | none => simp only [hrec1] at h; cases h
          | some p1 =>
          obtain ⟨w1, s1⟩ := p1
          simp only [hrec1] at h
          obtain ⟨hw1, he1, hrW1, hpre1, hlvl1, hev1, hsem1⟩ :=
            ih s a1 b1 w1 s1 hw hA1 hB1 hrec1
          cases hrec2 : disjF fuel s1 a0 b0 with
          | none => simp only [hrec2] at h; cases h
          | some p2 =>
          obtain ⟨w0, s2⟩ := p2
          simp only [hrec2] at h
          obtain ⟨hw2, he2, hrW0, hpre2, hlvl2, hev2, hsem2⟩ :=
            ih s1 a0 b0 w0 s2 hw1 (sOT_ext he1 hA0) (sOT_ext he1 hB0) hrec2
          have he12 : StoreExt s s2 := storeExt_trans he1 he2
          have hrW1s2 : sOT s2 w1 := sOT_ext he2 hrW1
          have hlvlW1 : ∀ L, lookupA w1 s2.node_to_var_id = some L →
              Lvl.natLt mv.var_id L = true := by
            intro L hL
            rw [lvl_lookup_ext hw1.store he2 hrW1] at hL
            obtain ⟨La1, hLa1e⟩ := lvl_of_sOT hw.store hA1
            obtain ⟨Lb1, hLb1e⟩ := lvl_of_sOT hw.store hB1
            have := hlvl1 La1 Lb1 L hLa1e hLb1e hL
            refine Lvl.natLt_of_lt_of_le ?_ this
            exact Lvl.minL_natLt (hLa1 _ hLa1e) (hLb1 _ hLb1e)
          have hlvlW0 : ∀ L, lookupA w0 s2.node_to_var_id = some L →
              Lvl.natLt mv.var_id L = true := by
            intro L hL
            obtain ⟨La0, hLa0e⟩ := lvl_of_sOT hw.store hA0
            obtain ⟨Lb0, hLb0e⟩ := lvl_of_sOT hw.store hB0
            have h1e : lookupA a0 s1.node_to_var_id = some La0 := by
              rw [lvl_lookup_ext hw.store he1 hA0]; exact hLa0e
            have h2e : lookupA b0 s1.node_to_var_id = some Lb0 := by
              rw [lvl_lookup_ext hw.store he1 hB0]; exact hLb0e
            have := hlvl2 La0 Lb0 L h1e h2e hL
            refine Lvl.natLt_of_lt_of_le ?_ this
            exact Lvl.minL_natLt (hLa0 _ hLa0e) (hLb0 _ hLb0e)
          have hsem1s2 : ∀ env, bval s2 w1 env =
              (bval s a1 env || bval s b1 env) := by
            intro env
            rw [bval_ext hw1.store he2 hrW1]
            exact hsem1 env
          have hsem2s : ∀ env, bval s2 w0 env =
              (bval s a0 env || bval s b0 env) := by
            intro env
            rw [hsem2 env, bval_ext hw.store he1 hA0,
              bval_ext hw.store he1 hB0]
          have hmainSem : ∀ env,
              (if env mv.var_id then bval s2 w1 env else bval s2 w0 env) =
              (bval s a env || bval s b env) := by
            intro env
            rw [hShA env, hShB env]
            cases henv : env mv.var_id with
            | true => simp only [henv, if_true]; exact hsem1s2 env
            | false =>
              simp only [henv, Bool.false_eq_true, if_false]
              exact hsem2s env
          cases hmk : s2.make mv.var_id w1 w0 with
          | mk r3 s3 =>
          simp only [hmk] at h
          injection h with h
          injection h with hq1 hq2
          subst hq1; subst hq2
          have hvlen : mv.var_id < s2.variable_ordering.length := by
            rw [he12.1, hvid]
            exact get?_lt_length hmv
          obtain ⟨hs3, he3, hr3, hc1e, hc2e, hc3e, hc4e, hlvl3, hsem3⟩ :=
            make_spec hw2.store hrW1s2 hrW0
              (fun L hL => hlvlW1 L hL) (fun L hL => hlvlW0 L hL) hvlen hmk
          have he123 : StoreExt s s3 := storeExt_trans he12 he3
          have hw3 : WF s3 := wf_transport hw2 hs3 he3 hc1e hc2e hc3e
          have hmainSem3 : ∀ env, bval s3 r3 env =
              (bval s a env || bval s b env) := by
            intro env
            rw [hsem3 env, bval_ext hw2.store he3 hrW1s2,
              bval_ext hw2.store he3 hrW0]
            exact hmainSem env
          have hfin : ∀ lr, lookupA r3 s3.node_to_var_id = some lr →
              Lvl.leL (Lvl.minL la lb) lr = true := by
            intro lr hlr
            rw [hmin, ← hvid]
            exact hlvl3 _ hlr
          have hextp := ext_putOr s3 (a, b) r3
          have hsip := storeInv_putOr hs3 (a, b) r3
          have hbvp : ∀ n env,
              bval (s3.putOr (a, b) r3) n env = bval s3 n env :=
            fun n env => bval_putOr s3 (a, b) r3 n env
          have hevMain : EvenSupp s a → EvenSupp s b →
              EvenSupp (s3.putOr (a, b) r3) r3 := by
            intro hea heb
            obtain ⟨hea1, hea0⟩ := cof_evensupp hw.store hcofa hea
            obtain ⟨heb1, heb0⟩ := cof_evensupp hw.store hcofb heb
            have hevW1 : EvenSupp s1 w1 := hev1 hea1 heb1
            have hevW1s2 : EvenSupp s2 w1 :=
              evensupp_ext hw1.store hw2.store he2 hrW1 hevW1
            have hevW0 : EvenSupp s2 w0 := hev2
              (evensupp_ext hw.store hw1.store he1 hA0 hea0)
              (evensupp_ext hw.store hw1.store he1 hB0 heb0)
            have hmidE : mid % 2 = 0 := by
              rcases Lvl.minL_cases la lb with hc | hc
              · refine evensupp_lvl_even hw.store hea ?_
                rw [hla, ← hc.symm.trans hmin]
              · refine evensupp_lvl_even hw.store heb ?_
                rw [hlb, ← hc.symm.trans hmin]
            rcases make_row hw2.store hmk with ⟨hhl, hreq, hseq⟩ | hrow
            · rw [hseq, hreq]
              exact evensupp_store_congr (s := s2) (t := s2.putOr (a, b) w1) rfl hevW1s2
            · have hevR3 : EvenSupp s3 r3 := by
                refine evensupp_make hs3 hrow ?_
                  (evensupp_ext hw2.store hs3 he3 hrW1s2 hevW1s2)
                  (evensupp_ext hw2.store hs3 he3 hrW0 hevW0)
                rw [hvid]
                exact hmidE
              exact evensupp_store_congr (s := s3) (t := s3.putOr (a, b) r3) rfl hevR3
          have hsemP : ∀ env, bval (s3.putOr (a, b) r3) r3 env =
              (bval s a env || bval s b env) := by
            intro env
            rw [hbvp]
            exact hmainSem3 env
          have hentry : OrEntryOk (s3.putOr (a, b) r3) ((a, b), r3) := by
            refine orEntry_intro
              (sOT_ext (storeExt_trans he123 hextp) ha)
              (sOT_ext (storeExt_trans he123 hextp) hb)
              (sOT_ext hextp hr3) ?_ ?_ ?_
            · intro la' lb' lr' hla' hlb' hlr'
              cases lookup_det hla ((lvl_lookup_ext hw.store
                (storeExt_trans he123 hextp) ha).symm.trans hla')
              cases lookup_det hlb ((lvl_lookup_ext hw.store
                (storeExt_trans he123 hextp) hb).symm.trans hlb')
              exact hfin _ ((lvl_lookup_ext hs3 hextp hr3).symm.trans hlr')
            · intro hea' heb'
              exact hevMain
                (evensupp_ext_rev (storeExt_trans he123 hextp) hea')
                (evensupp_ext_rev (storeExt_trans he123 hextp) heb')
            · intro env
              rw [hbvp, hbvp, hbvp]
              rw [bval_ext hw.store he123 ha, bval_ext hw.store he123 hb]
              exact hmainSem3 env
          refine ⟨⟨hsip, ?_, ?_, ?_⟩, storeExt_trans he123 hextp,
            sOT_ext hextp hr3, ?_, ?_, hevMain, hsemP⟩
          · exact fun e hmem => iteEntry_ext hs3 hextp (hw3.iteOk _ hmem)
          · exact fun e hmem => andEntry_ext hs3 hextp (hw3.andOk _ hmem)
          · intro e hmem
            rcases List.mem_cons.mp hmem with hmem | hmem
            · subst hmem; exact hentry
            · exact orEntry_ext hs3 hsip hextp (hw3.orOk _ hmem)
          · rw [show (s3.putOr (a, b) r3).pre_cache = s3.pre_cache
              from rfl, hc4e, hpre2, hpre1]
          · intro la' lb' lr' hla' hlb' hlr'
            cases Option.some.inj hla'
            cases Option.some.inj hlb'
            exact hfin _ ((lvl_lookup_ext hs3 hextp hr3).symm.trans hlr')

theorem Lvl.succ_le_of_natLt {k : Nat} : ∀ {L : Lvl},
    Lvl.natLt k L = true → Lvl.leL (Lvl.fin (k + 1)) L = true
  | .inf, _ => rfl
  | .fin m, h => by
    simp only [Lvl.natLt, decide_eq_true_eq] at h
    simp only [Lvl.leL, decide_eq_true_eq]
    omega

theorem Lvl.natLt_of_le_of_natLt {k j : Nat} (hkj : k ≤ j) : ∀ {L : Lvl},
    Lvl.natLt j L = true → Lvl.natLt k L = true
  | .inf, _ => rfl
  | .fin m, h => by
    simp only [Lvl.natLt, decide_eq_true_eq] at h ⊢
    omega

theorem Lvl.leL_minL {x a b : Lvl} (h1 : Lvl.leL x a = true)
    (h2 : Lvl.leL x b = true) : Lvl.leL x (Lvl.minL a b) = true := by
  rcases Lvl.minL_cases a b with h | h <;> rw [h]
  · exact h1
  · exact h2

theorem mixenv_even (env g : Nat → Bool) {k : Nat} (hk : k % 2 = 0) :
    mixenv env g k = env k := by
  rw [mixenv, if_neg (by omega)]

theorem mixenv_odd (env g : Nat → Bool) {k : Nat} (hk : k % 2 = 1) :
    mixenv env g k = g k := by
  rw [mixenv, if_pos hk]

theorem mixenv_setEnv (env g : Nat → Bool) {i : Nat} (hi : i % 2 = 1)
    (v : Bool) :
    mixenv env (setEnv g i v) = setEnv (mixenv env g) i v := by
  funext k
  by_cases hk : k = i
  · subst hk
    rw [mixenv, if_pos hi, setEnv, if_pos rfl, setEnv, if_pos rfl]
  · rw [setEnv, if_neg hk, mixenv, mixenv]
    by_cases hk2 : k % 2 = 1
    · rw [if_pos hk2, if_pos hk2, setEnv, if_neg hk]
    · rw [if_neg hk2, if_neg hk2]

theorem liftg_setEnv (g : Nat → Bool) (j : Nat) (v : Bool) :
    liftg (setEnv g (j + 1) v) = setEnv (liftg g) j v := by
  funext l
  by_cases hl : l = j
  · subst hl
    rw [liftg, setEnv, if_pos rfl, setEnv, if_pos rfl]
  · rw [liftg, setEnv, if_neg (by omega), setEnv, if_neg hl, liftg]

theorem preSem_ext {s t : BDD} (hs : StoreInv s) (he : StoreExt s t)
    {a b : Nat} (ha : sOT s a) (hb : sOT s b) (env : Nat → Bool) :
    PreSem t a b env ↔ PreSem s a b env := by
  constructor
  · rintro ⟨g, h1, h2⟩
    refine ⟨g, ?_, ?_⟩
    · rw [← bval_ext hs he ha (mixenv env g)]; exact h1
    · rw [← bval_ext hs he hb (liftg g)]; exact h2
  · rintro ⟨g, h1, h2⟩
    refine ⟨g, ?_, ?_⟩
    · rw [bval_ext hs he ha (mixenv env g)]; exact h1
    · rw [bval_ext hs he hb (liftg g)]; exact h2

theorem preEntry_intro {s : BDD} {a b r : Nat}
    (ha : sOT s a) (hb : sOT s b)
    (hcond : Interleaved s → EvenSupp s b →
      (sOT s r ∧ EvenSupp s r ∧
       (∀ la lb lr,
         lookupA a s.node_to_var_id = some la →
         lookupA b s.node_to_var_id = some lb →
         lookupA r s.node_to_var_id = some lr →
         Lvl.leL (Lvl.minL la lb) lr = true) ∧
       ∀ env, bval s r env = true ↔ PreSem s a b env)) :
    PreEntryOk s ((a, b), r) :=
  ⟨ha, hb, hcond⟩

/-- The `pre_image` cache-hit path. -/
theorem preHit_spec {s : BDD} {a b r : Nat} (hw : WF s) (hp : PreOk s)
    (hint : Interleaved s) (hevb : EvenSupp s b)
    (hc : lookupA (a, b) s.pre_cache = some r) :
    WF s ∧ PreOk s ∧ StoreExt s s ∧ sOT s r ∧ EvenSupp s r ∧
    (∀ la lb lr,
      lookupA a s.node_to_var_id = some la →
      lookupA b s.node_to_var_id = some lb →
      lookupA r s.node_to_var_id = some lr →
      Lvl.leL (Lvl.minL la lb) lr = true) ∧
    (∀ env, bval s r env = true ↔ PreSem s a b env) := by
  obtain ⟨ha, hb, hcond⟩ := hp _ (lookupA_eq_some_mem hc)
  obtain ⟨hr, hevr, hlvl, hsem⟩ := hcond hint hevb
  exact ⟨hw, hp, storeExt_refl s, hr, hevr, hlvl, hsem⟩

/-- The `pre_image` terminal short-circuits. -/
theorem preConst_spec {s : BDD} {a b d : Nat} (hw : WF s) (hp : PreOk s)
    (ha : sOT s a) (hb : sOT s b)
    (hd : d = get_zero_node ∨ d = get_one_node)
    (hsel : ∀ env, bval s d env = true ↔ PreSem s a b env) :
    WF (s.putPre (a, b) d) ∧ PreOk (s.putPre (a, b) d) ∧
    StoreExt s (s.putPre (a, b) d) ∧ sOT (s.putPre (a, b) d) d ∧
    EvenSupp (s.putPre (a, b) d) d ∧
    (∀ la lb lr,
      lookupA a s.node_to_var_id = some la →
      lookupA b s.node_to_var_id = some lb →
      lookupA d (s.putPre (a, b) d).node_to_var_id = some lr →
      Lvl.leL (Lvl.minL la lb) lr = true) ∧
    (∀ env, bval (s.putPre (a, b) d) d env = true ↔ PreSem s a b env) := by
  have hsi := storeInv_putPre hw.store (a, b) d
  have hext := ext_putPre s (a, b) d
  have hdS : sOT s d := by
    rcases hd with hd | hd <;> rw [hd]
    · exact sOT_zero s
    · exact sOT_one s
  have hbvp : ∀ n env, bval (s.putPre (a, b) d) n env = bval s n env :=
    fun n env => bval_putPre s (a, b) d n env
  have hlvl : ∀ la lb lr,
      lookupA a s.node_to_var_id = some la →
      lookupA b s.node_to_var_id = some lb →
      lookupA d s.node_to_var_id = some lr →
      Lvl.leL (Lvl.minL la lb) lr = true := by
    intro la lb lr hla hlb hlr
    rw [lvl_terminal hw.store hd] at hlr
    cases Option.some.inj hlr
    exact leL_inf _
  have hevd : EvenSupp (s.putPre (a, b) d) d :=
    evensupp_terminal hsi (by
      rcases hd with hd | hd
      · exact Or.inl (by rw [hd]; rfl)
      · exact Or.inr (by rw [hd]; rfl))
  have hsemP : ∀ env,
      bval (s.putPre (a, b) d) d env = true ↔ PreSem s a b env := by
    intro env
    rw [hbvp]
    exact hsel env
  have hwf : WF (s.putPre (a, b) d) :=
    wf_transport hw hsi hext rfl rfl rfl
  have hentry : PreEntryOk (s.putPre (a, b) d) ((a, b), d) := by
    refine preEntry_intro (sOT_ext hext ha) (sOT_ext hext hb) ?_
    intro hint hevb
    refine ⟨sOT_ext hext hdS, hevd, ?_, ?_⟩
    · intro la lb lr hla lb' hlr
      refine hlvl la lb lr ?_ ?_ ?_
      · rw [← lvl_lookup_ext hw.store hext ha]; exact hla
      · rw [← lvl_lookup_ext hw.store hext hb]; exact lb'
      · rw [← lvl_lookup_ext hw.store hext hdS]; exact hlr
    · intro env
      rw [hsemP env]
      exact (preSem_ext hw.store hext ha hb env).symm
  refine ⟨hwf, ?_, hext, sOT_ext hext hdS, hevd, ?_, hsemP⟩
  · intro e hmem
    rcases List.mem_cons.mp hmem with hmem | hmem
    · subst hmem; exact hentry
    · exact preEntry_ext hw.store hsi hext (hp _ hmem)
  · intro la lb lr hla hlb hlr
    exact hlvl la lb lr hla hlb hlr

theorem preF_spec :
    ∀ (fuel : Nat) (s : BDD) (a b r : Nat) (s' : BDD),
    WF s → PreOk s → Interleaved s → sOT s a → sOT s b → EvenSupp s b →
    preF fuel s a b = some (r, s') →
    WF s' ∧ PreOk s' ∧ StoreExt s s' ∧ sOT s' r ∧ EvenSupp s' r ∧
    (∀ la lb lr,
      lookupA a s.node_to_var_id = some la →
      lookupA b s.node_to_var_id = some lb →
      lookupA r s'.node_to_var_id = some lr →
      Lvl.leL (Lvl.minL la lb) lr = true) ∧
    (∀ env, bval s' r env = true ↔ PreSem s a b env) := by
  intro fuel
  induction fuel with
  | zero =>
    intro s a b r s' hw hp hint ha hb hevb h
    simp only [preF] at h
    cases hcache : lookupA (a, b) s.pre_cache with
    | some r0 =>
      rw [hcache] at h
      injection h with h
      injection h with h1 h2
      subst h1; subst h2
      exact preHit_spec hw hp hint hevb hcache
    | none =>
      rw [hcache] at h
      by_cases h0 : a = get_zero_node ∨ b = get_zero_node
      · rw [if_pos h0] at h
        injection h with h
        injection h with he1 he2
        subst he1; subst he2
        refine preConst_spec hw hp ha hb (Or.inl rfl) ?_
        intro env
        rw [bval_term_zero]
        constructor
        · intro hc; exact absurd hc Bool.false_ne_true
        · rintro ⟨g, h1g, h2g⟩
          rcases h0 with h0 | h0
          · rw [h0, bval_term_zero] at h1g
            exact absurd h1g Bool.false_ne_true
          · rw [h0, bval_term_zero] at h2g
            exact absurd h2g Bool.false_ne_true
      · rw [if_neg h0] at h
        by_cases h1c : a = get_one_node ∧ b = get_one_node
        · rw [if_pos h1c] at h
          injection h with h
          injection h with he1 he2
          subst he1; subst he2
          refine preConst_spec hw hp ha hb (Or.inr rfl) ?_
          intro env
          rw [bval_term_one]
          constructor
          · intro _
            exact ⟨fun _ => false, by rw [h1c.1]; exact bval_term_one _,
              by rw [h1c.2]; exact bval_term_one _⟩
          · intro _; rfl
        · rw [if_neg h1c] at h
          cases h
  | succ fuel ih =>
    intro s a b r s' hw hp hint ha hb hevb h
    simp only [preF] at h
    cases hcache : lookupA (a, b) s.pre_cache with
    | some r0 =>
      rw [hcache] at h
      injection h with h
      injection h with h1 h2
      subst h1; subst h2
      exact preHit_spec hw hp hint hevb hcache
    | none =>
      rw [hcache] at h
      by_cases h0 : a = get_zero_node ∨ b = get_zero_node
      · rw [if_pos h0] at h
        injection h with h
        injection h with he1 he2
        subst he1; subst he2
        refine preConst_spec hw hp ha hb (Or.inl rfl) ?_
        intro env
        rw [bval_term_zero]
        constructor
        · intro hc; exact absurd hc Bool.false_ne_true
        · rintro ⟨g, h1g, h2g⟩
          rcases h0 with h0 | h0
          · rw [h0, bval_term_zero] at h1g
            exact absurd h1g Bool.false_ne_true
          · rw [h0, bval_term_zero] at h2g
            exact absurd h2g Bool.false_ne_true
      · rw [if_neg h0] at h
        by_cases h1c : a = get_one_node ∧ b = get_one_node
        · rw [if_pos h1c] at h
          injection h with h
          injection h with he1 he2
          subst he1; subst he2
          refine preConst_spec hw hp ha hb (Or.inr rfl) ?_
          intro env
          rw [bval_term_one]
          constructor
          · intro _
            exact ⟨fun _ => false, by rw [h1c.1]; exact bval_term_one _,
              by rw [h1c.2]; exact bval_term_one _⟩
          · intro _; rfl
        · rw [if_neg h1c] at h
          cases hla : lookupA a s.node_to_var_id with
          | none => rw [hla] at h; cases h
          | some la =>
          cases hlb : lookupA b s.node_to_var_id with
          | none => rw [hla] at h; rw [hlb] at h; cases h
          | some lb =>
          simp only [hla, hlb] at h
          cases hidx : (Lvl.minL la lb).idx with
          | none => simp only [hidx] at h; cases h
          | some mid =>
          simp only [hidx] at h
          have hmin : Lvl.minL la lb = Lvl.fin mid := idx_some hidx
          cases hmv : s.variable_ordering.get? mid with
          | none => simp only [hmv] at h; cases h
          | some mv =>
          simp only [hmv] at h
          have hvid : mv.var_id = mid := hw.store.reg_ids mid mv hmv
          have hvle_a : ∀ L, lookupA a s.node_to_var_id = some L →
              Lvl.leL (Lvl.fin mv.var_id) L = true := by
            intro L hL
            cases lookup_det hla hL
            rw [hvid, ← hmin]
            exact Lvl.minL_le_left _ _
          have hvle_b : ∀ L, lookupA b s.node_to_var_id = some L →
              Lvl.leL (Lvl.fin mv.var_id) L = true := by
            intro L hL
            cases lookup_det hlb hL
            rw [hvid, ← hmin]
            exact Lvl.minL_le_right _ _
          have hlebB : Lvl.leL (Lvl.fin mid) lb = true := by
            rw [← hmin]
            exact Lvl.minL_le_right _ _
          by_cases hprim : mv.is_primed = true
          · rw [if_pos hprim] at h
            have hmidOdd : mid % 2 = 1 := by
              have h2 := hint.2 mid mv hmv
              rw [hprim] at h2
              exact of_decide_eq_true h2.symm
            have hOddVid : mv.var_id % 2 = 1 := by
              rw [hvid]; exact hmidOdd
            cases hcofa : s.get_cofactors a mv.var_id with
            | none => rw [hcofa] at h; cases h
            | some pa =>
            obtain ⟨a1, a0⟩ := pa
            rw [hcofa] at h
            obtain ⟨hA1, hA0, hLa1, hLa0, hShA⟩ :=
              cof_spec hw.store ha hvle_a hcofa
            cases hrec1 : preF fuel s a1 b with
            | none => simp only [hrec1] at h; cases h
            | some p1 =>
            obtain ⟨w1, s1⟩ := p1
            simp only [hrec1] at h
            obtain ⟨hw1, hp1, he1, hrW1, hevW1, hlvl1, hsem1⟩ :=
              ih s a1 b w1 s1 hw hp hint hA1 hb hevb hrec1
            cases hrec2 : preF fuel s1 a0 b with
            | none => simp only [hrec2] at h; cases h
            | some p2 =>
            obtain ⟨w0, s2⟩ := p2
            simp only [hrec2] at h
            obtain ⟨hw2, hp2, he2, hrW0, hevW0, hlvl2, hsem2⟩ :=
              ih s1 a0 b w0 s2 hw1 hp1 ((interleaved_ext he1).mp hint)
                (sOT_ext he1 hA0) (sOT_ext he1 hb)
                (evensupp_ext hw.store hw1.store he1 hb hevb) hrec2
            have hrW1s2 : sOT s2 w1 := sOT_ext he2 hrW1
            cases hrecD : disjF fuel s2 w1 w0 with
            | none => simp only [hrecD] at h; cases h
            | some p3 =>
            obtain ⟨r0, s3⟩ := p3
            simp only [hrecD] at h
            injection h with h
            injection h with hq1 hq2
            subst hq1; subst hq2
            obtain ⟨hw3, he3, hrR, hpre3, hlvlD, hevD, hsemD⟩ :=
              disjF_spec fuel s2 w1 w0 r0 s3 hw2 hrW1s2 hrW0 hrecD
            have hsiP := storeInv_putPre hw3.store (a, b) r0
            have hextP := ext_putPre s3 (a, b) r0
            have hwP : WF (s3.putPre (a, b) r0) :=
              wf_transport hw3 hsiP hextP rfl rfl rfl
            have hFull : StoreExt s (s3.putPre (a, b) r0) :=
              storeExt_trans he1 (storeExt_trans he2
                (storeExt_trans he3 hextP))
            have hevW1s2 : EvenSupp s2 w1 :=
              evensupp_ext hw1.store hw2.store he2 hrW1 hevW1
            have hevR0 : EvenSupp s3 r0 := hevD hevW1s2 hevW0
            have hevFinal : EvenSupp (s3.putPre (a, b) r0) r0 :=
              evensupp_store_congr (s := s3) (t := s3.putPre (a, b) r0)
                rfl hevR0
            obtain ⟨j, hj⟩ : ∃ j, mv.var_id = j + 1 :=
              ⟨mv.var_id - 1, by omega⟩
            have hordBj : ∀ L, lookupA b s.node_to_var_id = some L →
                Lvl.natLt j L = true := by
              intro L hL
              cases lookup_det hlb hL
              refine Lvl.natLt_of_lt_of_le ?_ hlebB
              simp only [Lvl.natLt, decide_eq_true_eq]
              omega
            have hcore : ∀ env,
                (PreSem s a1 b env ∨ PreSem s a0 b env) ↔
                PreSem s a b env := by
              intro env
              constructor
              · rintro (⟨g, h1g, h2g⟩ | ⟨g, h1g, h2g⟩)
                · refine ⟨setEnv g mv.var_id true, ?_, ?_⟩
                  · rw [mixenv_setEnv env g hOddVid true, hShA,
                      setEnv_same, if_pos rfl,
                      bval_setEnv hw.store hA1 hLa1]
                    exact h1g
                  · rw [hj, liftg_setEnv,
                      bval_setEnv hw.store hb hordBj]
                    exact h2g
                · refine ⟨setEnv g mv.var_id false, ?_, ?_⟩
                  · rw [mixenv_setEnv env g hOddVid false, hShA,
                      setEnv_same, if_neg Bool.false_ne_true,
                      bval_setEnv hw.store hA0 hLa0]
                    exact h1g
                  · rw [hj, liftg_setEnv,
                      bval_setEnv hw.store hb hordBj]
                    exact h2g
              · rintro ⟨g, h1g, h2g⟩
                rw [hShA (mixenv env g),
                  mixenv_odd env g hOddVid] at h1g
                cases hg : g mv.var_id with
                | true =>
                  left
                  simp only [hg, if_true] at h1g
                  exact ⟨g, h1g, h2g⟩
                | false =>
                  right
                  simp only [hg, Bool.false_eq_true, if_false] at h1g
                  exact ⟨g, h1g, h2g⟩
            have hsemMain : ∀ env,
                bval (s3.putPre (a, b) r0) r0 env = true ↔
                PreSem s a b env := by
              intro env
              rw [bval_putPre, hsemD env, Bool.or_eq_true]
              rw [bval_ext hw1.store he2 hrW1 env]
              rw [hsem1 env, hsem2 env]
              rw [preSem_ext hw.store he1 hA0 hb env]
              exact hcore env
            have hlvlR : ∀ lr, lookupA r0 s3.node_to_var_id = some lr →
                Lvl.leL (Lvl.fin mid) lr = true := by
              intro lr hlr
              obtain ⟨Lw1, hLw1⟩ := lvl_of_sOT hw2.store hrW1s2
              obtain ⟨Lw0, hLw0⟩ := lvl_of_sOT hw2.store hrW0
              have hD := hlvlD Lw1 Lw0 lr hLw1 hLw0 hlr
              refine Lvl.leL_trans (Lvl.leL_minL ?_ ?_) hD
              · obtain ⟨La1, hLa1e⟩ := lvl_of_sOT hw.store hA1
                have hLw1s1 : lookupA w1 s1.node_to_var_id = some Lw1 := by
                  rw [← lvl_lookup_ext hw1.store he2 hrW1]
                  exact hLw1
                have h1 := hlvl1 La1 lb Lw1 hLa1e hlb hLw1s1
                refine Lvl.leL_trans (Lvl.leL_minL ?_ hlebB) h1
                have := natLt_to_leL (hLa1 _ hLa1e)
                rw [hvid] at this
                exact this
              · obtain ⟨La0, hLa0e⟩ := lvl_of_sOT hw.store hA0
                have hLa0s1 : lookupA a0 s1.node_to_var_id = some La0 := by
                  rw [lvl_lookup_ext hw.store he1 hA0]
                  exact hLa0e
                have hLbs1 : lookupA b s1.node_to_var_id = some lb := by
                  rw [lvl_lookup_ext hw.store he1 hb]
                  exact hlb
                have h2 := hlvl2 La0 lb Lw0 hLa0s1 hLbs1 hLw0
                refine Lvl.leL_trans (Lvl.leL_minL ?_ hlebB) h2
                have := natLt_to_leL (hLa0 _ hLa0e)
                rw [hvid] at this
                exact this
            have hp3' : PreOk s3 :=
              preOk_transport hw2.store hw3.store he3 hp2 hpre3
            have hentry : PreEntryOk (s3.putPre (a, b) r0) ((a, b), r0) := by
              refine preEntry_intro (sOT_ext hFull ha) (sOT_ext hFull hb) ?_
              intro _ _
              refine ⟨sOT_ext hextP hrR, hevFinal, ?_, ?_⟩
              · intro la' lb' lr hla' hlb' hlr'
                cases lookup_det hla ((lvl_lookup_ext hw.store hFull
                  ha).symm.trans hla')
                cases lookup_det hlb ((lvl_lookup_ext hw.store hFull
                  hb).symm.trans hlb')
                rw [hmin]
                exact hlvlR lr ((lvl_lookup_ext hw3.store hextP
                  hrR).symm.trans hlr')
              · intro env
                rw [hsemMain env]
                exact (preSem_ext hw.store hFull ha hb env).symm
            refine ⟨hwP, ?_, hFull, sOT_ext hextP hrR, hevFinal, ?_,
              hsemMain⟩
            · intro e hmem
              rcases List.mem_cons.mp hmem with hmem | hmem
              · subst hmem; exact hentry
              · exact preEntry_ext hw3.store hsiP hextP (hp3' e hmem)
            · intro la' lb' lr hla' hlb' hlr'
              cases Option.some.inj hla'
              cases Option.some.inj hlb'
              rw [hmin]
              exact hlvlR lr ((lvl_lookup_ext hw3.store hextP
                hrR).symm.trans hlr')
          · rw [if_neg hprim] at h
            have hprim' : mv.is_primed = false := by
              revert hprim
              cases mv.is_primed <;> simp
            have hmidEven : mid % 2 = 0 := by
              have h2 := hint.2 mid mv hmv
              rw [hprim'] at h2
              have h3 := of_decide_eq_false h2.symm
              omega
            have hEvenVid : mv.var_id % 2 = 0 := by
              rw [hvid]; exact hmidEven
            cases hmvp : s.variable_ordering.get? (mid + 1) with
            | none => simp only [hmvp] at h; cases h
            | some mvp =>
            simp only [hmvp] at h
            have hvidp : mvp.var_id = mid + 1 :=
              hw.store.reg_ids (mid + 1) mvp hmvp
            have hOddVidp : mvp.var_id % 2 = 1 := by
              rw [hvidp]; omega
            have hneVid : mv.var_id ≠ mvp.var_id := by
              rw [hvid, hvidp]; omega
            cases hcofa : s.get_cofactors a mv.var_id with
            | none => rw [hcofa] at h; cases h
            | some pa =>
            obtain ⟨a1, a0⟩ := pa
            cases hcofb : s.get_cofactors b mv.var_id with
            | none => simp only [hcofa, hcofb] at h; cases h
            | some pb =>
            obtain ⟨b1, b0⟩ := pb
            simp only [hcofa, hcofb] at h
            obtain ⟨hA1, hA0, hLa1, hLa0, hShA⟩ :=
              cof_spec hw.store ha hvle_a hcofa
            obtain ⟨hB1, hB0, hLb1, hLb0, hShB⟩ :=
              cof_spec hw.store hb hvle_b hcofb
            have hvle_a1 : ∀ L, lookupA a1 s.node_to_var_id = some L →
                Lvl.leL (Lvl.fin mvp.var_id) L = true := by
              intro L hL
              have := Lvl.succ_le_of_natLt (hLa1 L hL)
              rw [hvid] at this
              rw [hvidp]
              exact this
            have hvle_a0 : ∀ L, lookupA a0 s.node_to_var_id = some L →
                Lvl.leL (Lvl.fin mvp.var_id) L = true := by
              intro L hL
              have := Lvl.succ_le_of_natLt (hLa0 L hL)
              rw [hvid] at this
              rw [hvidp]
              exact this
            cases hcofa1 : s.get_cofactors a1 mvp.var_id with
            | none => rw [hcofa1] at h; cases h
            | some pa1 =>
            obtain ⟨a11, a10⟩ := pa1
            cases hcofa0 : s.get_cofactors a0 mvp.var_id with
            | none => simp only [hcofa1, hcofa0] at h; cases h
            | some pa0 =>
            obtain ⟨a01, a00⟩ := pa0
            simp only [hcofa1, hcofa0] at h
            obtain ⟨hA11, hA10, hLa11, hLa10, hShA1⟩ :=
              cof_spec hw.store hA1 hvle_a1 hcofa1
            obtain ⟨hA01, hA00, hLa01, hLa00, hShA0⟩ :=
              cof_spec hw.store hA0 hvle_a0 hcofa0
            obtain ⟨hevB1, hevB0⟩ := cof_evensupp hw.store hcofb hevb
            cases hrec1 : preF fuel s a10 b0 with
            | none => simp only [hrec1] at h; cases h
            | some p1 =>
            obtain ⟨w10, s1⟩ := p1
            simp only [hrec1] at h
            obtain ⟨hw1, hp1, he1, hrW10, hevW10, hlvl1, hsem1⟩ :=
              ih s a10 b0 w10 s1 hw hp hint hA10 hB0 hevB0 hrec1
            cases hrec2 : preF fuel s1 a11 b1 with
            | none => simp only [hrec2] at h; cases h
            | some p2 =>
            obtain ⟨w11, s2⟩ := p2
            simp only [hrec2] at h
            obtain ⟨hw2, hp2, he2, hrW11, hevW11, hlvl2, hsem2⟩ :=
              ih s1 a11 b1 w11 s2 hw1 hp1 ((interleaved_ext he1).mp hint)
                (sOT_ext he1 hA11) (sOT_ext he1 hB1)
                (evensupp_ext hw.store hw1.store he1 hB1 hevB1) hrec2
            have hS2 : StoreExt s s2 := storeExt_trans he1 he2
            cases hrec3 : preF fuel s2 a00 b0 with
            | none => simp only [hrec3] at h; cases h
            | some p3 =>
            obtain ⟨w00, s3⟩ := p3
            simp only [hrec3] at h
            obtain ⟨hw3, hp3, he3, hrW00, hevW00, hlvl3, hsem3⟩ :=
              ih s2 a00 b0 w00 s3 hw2 hp2 ((interleaved_ext hS2).mp hint)
                (sOT_ext hS2 hA00) (sOT_ext hS2 hB0)
                (evensupp_ext hw.store hw2.store hS2 hB0 hevB0) hrec3
            have hS3 : StoreExt s s3 := storeExt_trans hS2 he3
            cases hrec4 : preF fuel s3 a01 b1 with
            | none => simp only [hrec4] at h; cases h
            | some p4 =>
            obtain ⟨w01, s4⟩ := p4
            simp only [hrec4] at h
            obtain ⟨hw4, hp4, he4, hrW01, hevW01, hlvl4, hsem4⟩ :=
              ih s3 a01 b1 w01 s4 hw3 hp3 ((interleaved_ext hS3).mp hint)
                (sOT_ext hS3 hA01) (sOT_ext hS3 hB1)
                (evensupp_ext hw.store hw3.store hS3 hB1 hevB1) hrec4
            have hS4 : StoreExt s s4 := storeExt_trans hS3 he4
            have he14 : StoreExt s1 s4 :=
              storeExt_trans he2 (storeExt_trans he3 he4)
            have he24 : StoreExt s2 s4 := storeExt_trans he3 he4
            cases hrecD1 : disjF fuel s4 w10 w11 with
            | none => simp only [hrecD1] at h; cases h
            | some p5 =>
            obtain ⟨q1, s5⟩ := p5
            simp only [hrecD1] at h
            obtain ⟨hw5, he5, hrQ1, hpre5, hlvlD1, hevD1, hsemD1⟩ :=
              disjF_spec fuel s4 w10 w11 q1 s5 hw4
                (sOT_ext he14 hrW10) (sOT_ext he24 hrW11) hrecD1
            have he35 : StoreExt s3 s5 := storeExt_trans he4 he5
            cases hrecD2 : disjF fuel s5 w00 w01 with
            | none => simp only [hrecD2] at h; cases h
            | some p6 =>
            obtain ⟨q0, s6⟩ := p6
            simp only [hrecD2] at h
            obtain ⟨hw6, he6, hrQ0, hpre6, hlvlD2, hevD2, hsemD2⟩ :=
              disjF_spec fuel s5 w00 w01 q0 s6 hw5
                (sOT_ext he35 hrW00) (sOT_ext he5 hrW01) hrecD2
            have hS5 : StoreExt s s5 := storeExt_trans hS4 he5
            have hS6 : StoreExt s s6 := storeExt_trans hS5 he6
            have hrQ1s6 : sOT s6 q1 := sOT_ext he6 hrQ1
            have hLveQ1 : ∀ L, lookupA q1 s6.node_to_var_id = some L →
                Lvl.natLt mv.var_id L = true := by
              intro L hL
              rw [lvl_lookup_ext hw5.store he6 hrQ1] at hL
              obtain ⟨L10, hL10⟩ := lvl_of_sOT hw1.store hrW10
              obtain ⟨L11, hL11⟩ := lvl_of_sOT hw2.store hrW11
              have hL10s4 : lookupA w10 s4.node_to_var_id = some L10 := by
                rw [lvl_lookup_ext hw1.store he14 hrW10]
                exact hL10
              have hL11s4 : lookupA w11 s4.node_to_var_id = some L11 := by
                rw [lvl_lookup_ext hw2.store he24 hrW11]
                exact hL11
              have hD := hlvlD1 L10 L11 L hL10s4 hL11s4 hL
              refine Lvl.natLt_of_lt_of_le ?_ hD
              refine Lvl.minL_natLt ?_ ?_
              · obtain ⟨La10, hLa10e⟩ := lvl_of_sOT hw.store hA10
                obtain ⟨Lb0e, hLb0e⟩ := lvl_of_sOT hw.store hB0
                have h10 := hlvl1 La10 Lb0e L10 hLa10e hLb0e hL10
                refine Lvl.natLt_of_lt_of_le ?_ h10
                refine Lvl.minL_natLt ?_ (hLb0 _ hLb0e)
                refine Lvl.natLt_of_le_of_natLt ?_ (hLa10 _ hLa10e)
                rw [hvid, hvidp]; omega
              · obtain ⟨La11, hLa11e⟩ := lvl_of_sOT hw.store hA11
                obtain ⟨Lb1e, hLb1e⟩ := lvl_of_sOT hw.store hB1
                have hLa11s1 : lookupA a11 s1.node_to_var_id
                    = some La11 := by
                  rw [lvl_lookup_ext hw.store he1 hA11]
                  exact hLa11e
                have hLb1s1 : lookupA b1 s1.node_to_var_id
                    = some Lb1e := by
                  rw [lvl_lookup_ext hw.store he1 hB1]
                  exact hLb1e
                have h11 := hlvl2 La11 Lb1e L11 hLa11s1 hLb1s1 hL11
                refine Lvl.natLt_of_lt_of_le ?_ h11
                refine Lvl.minL_natLt ?_ (hLb1 _ hLb1e)
                refine Lvl.natLt_of_le_of_natLt ?_ (hLa11 _ hLa11e)
                rw [hvid, hvidp]; omega
            have hLveQ0 : ∀ L, lookupA q0 s6.node_to_var_id = some L →
                Lvl.natLt mv.var_id L = true := by
              intro L hL
              obtain ⟨L00, hL00⟩ := lvl_of_sOT hw3.store hrW00
              obtain ⟨L01, hL01⟩ := lvl_of_sOT hw4.store hrW01
              have hL00s5 : lookupA w00 s5.node_to_var_id = some L00 := by
                rw [lvl_lookup_ext hw3.store he35 hrW00]
                exact hL00
              have hL01s5 : lookupA w01 s5.node_to_var_id = some L01 := by
                rw [lvl_lookup_ext hw4.store he5 hrW01]
                exact hL01
              have hD := hlvlD2 L00 L01 L hL00s5 hL01s5 hL
              refine Lvl.natLt_of_lt_of_le ?_ hD
              refine Lvl.minL_natLt ?_ ?_
              · obtain ⟨La00, hLa00e⟩ := lvl_of_sOT hw.store hA00
                obtain ⟨Lb0e, hLb0e⟩ := lvl_of_sOT hw.store hB0
                have hLa00s2 : lookupA a00 s2.node_to_var_id
                    = some La00 := by
                  rw [lvl_lookup_ext hw.store hS2 hA00]
                  exact hLa00e
                have hLb0s2 : lookupA b0 s2.node_to_var_id
                    = some Lb0e := by
                  rw [lvl_lookup_ext hw.store hS2 hB0]
                  exact hLb0e
                have h00 := hlvl3 La00 Lb0e L00 hLa00s2 hLb0s2 hL00
                refine Lvl.natLt_of_lt_of_le ?_ h00
                refine Lvl.minL_natLt ?_ (hLb0 _ hLb0e)
                refine Lvl.natLt_of_le_of_natLt ?_ (hLa00 _ hLa00e)
                rw [hvid, hvidp]; omega
              · obtain ⟨La01, hLa01e⟩ := lvl_of_sOT hw.store hA01
                obtain ⟨Lb1e, hLb1e⟩ := lvl_of_sOT hw.store hB1
                have hLa01s3 : lookupA a01 s3.node_to_var_id
                    = some La01 := by
                  rw [lvl_lookup_ext hw.store hS3 hA01]
                  exact hLa01e
                have hLb1s3 : lookupA b1 s3.node_to_var_id
                    = some Lb1e := by
                  rw [lvl_lookup_ext hw.store hS3 hB1]
                  exact hLb1e
                have h01 := hlvl4 La01 Lb1e L01 hLa01s3 hLb1s3 hL01
                refine Lvl.natLt_of_lt_of_le ?_ h01
                refine Lvl.minL_natLt ?_ (hLb1 _ hLb1e)
                refine Lvl.natLt_of_le_of_natLt ?_ (hLa01 _ hLa01e)
                rw [hvid, hvidp]; omega
            cases hmk : s6.make mv.var_id q1 q0 with
            | mk r0 s7 =>
            simp only [hmk] at h
            injection h with h
            injection h with hq1e hq2e
            subst hq1e; subst hq2e
            have hvlen : mv.var_id < s6.variable_ordering.length := by
              rw [hS6.1, hvid]
              exact get?_lt_length hmv
            obtain ⟨hs7, he7, hr7, hc1e, hc2e, hc3e, hc4e, hlvl7, hsem7⟩ :=
              make_spec hw6.store hrQ1s6 hrQ0 hLveQ1 hLveQ0 hvlen hmk
            have hS7 : StoreExt s s7 := storeExt_trans hS6 he7
            have hw7 : WF s7 := wf_transport hw6 hs7 he7 hc1e hc2e hc3e
            have hsiP := storeInv_putPre hs7 (a, b) r0
            have hextP := ext_putPre s7 (a, b) r0
            have hwP : WF (s7.putPre (a, b) r0) :=
              wf_transport hw7 hsiP hextP rfl rfl rfl
            have hFull : StoreExt s (s7.putPre (a, b) r0) :=
              storeExt_trans hS7 hextP
            have hp5' : PreOk s5 :=
              preOk_transport hw4.store hw5.store he5 hp4 hpre5
            have hp6' : PreOk s6 :=
              preOk_transport hw5.store hw6.store he6 hp5' hpre6
            have hp7' : PreOk s7 :=
              preOk_transport hw6.store hs7 he7 hp6' hc4e
            have hevW10s4 : EvenSupp s4 w10 :=
              evensupp_ext hw1.store hw4.store he14 hrW10 hevW10
            have hevW11s4 : EvenSupp s4 w11 :=
              evensupp_ext hw2.store hw4.store he24 hrW11 hevW11
            have hevQ1 : EvenSupp s5 q1 := hevD1 hevW10s4 hevW11s4
            have hevW00s5 : EvenSupp s5 w00 :=
              evensupp_ext hw3.store hw5.store he35 hrW00 hevW00
            have hevW01s5 : EvenSupp s5 w01 :=
              evensupp_ext hw4.store hw5.store he5 hrW01 hevW01
            have hevQ0 : EvenSupp s6 q0 := hevD2 hevW00s5 hevW01s5
            have hevQ1s6 : EvenSupp s6 q1 :=
              evensupp_ext hw5.store hw6.store he6 hrQ1 hevQ1
            have hevR : EvenSupp s7 r0 := by
              rcases make_row hw6.store hmk with ⟨hhl, hreq, hseq⟩ | hrow
              · rw [hseq, hreq]
                exact hevQ1s6
              · refine evensupp_make hs7 hrow ?_
                  (evensupp_ext hw6.store hs7 he7 hrQ1s6 hevQ1s6)
                  (evensupp_ext hw6.store hs7 he7 hrQ0 hevQ0)
                rw [hvid]
                exact hmidEven
            have hevFinal : EvenSupp (s7.putPre (a, b) r0) r0 :=
              evensupp_store_congr (s := s7) (t := s7.putPre (a, b) r0)
                rfl hevR
            have hordB0 : ∀ L, lookupA b0 s.node_to_var_id = some L →
                Lvl.natLt mid L = true := by
              intro L hL
              have := hLb0 L hL
              rw [hvid] at this
              exact this
            have hordB1 : ∀ L, lookupA b1 s.node_to_var_id = some L →
                Lvl.natLt mid L = true := by
              intro L hL
              have := hLb1 L hL
              rw [hvid] at this
              exact this
            have hcondA : ∀ env g v,
                setEnv (mixenv env g) mvp.var_id v mv.var_id
                = env mv.var_id := by
              intro env g v
              rw [setEnv, if_neg hneVid]
              exact mixenv_even env g hEvenVid
            have hcoreT : ∀ env, env mv.var_id = true →
                ((PreSem s a10 b0 env ∨ PreSem s a11 b1 env) ↔
                 PreSem s a b env) := by
              intro env henv
              constructor
              · rintro (⟨g, h1g, h2g⟩ | ⟨g, h1g, h2g⟩)
                · refine ⟨setEnv g mvp.var_id false, ?_, ?_⟩
                  · rw [mixenv_setEnv env g hOddVidp false, hShA,
                      hcondA env g false, henv, if_pos rfl, hShA1,
                      setEnv_same, if_neg Bool.false_ne_true,
                      bval_setEnv hw.store hA10 hLa10]
                    exact h1g
                  · rw [hvidp, liftg_setEnv, hShB, hvid, setEnv_same,
                      if_neg Bool.false_ne_true,
                      bval_setEnv hw.store hB0 hordB0]
                    exact h2g
                · refine ⟨setEnv g mvp.var_id true, ?_, ?_⟩
                  · rw [mixenv_setEnv env g hOddVidp true, hShA,
                      hcondA env g true, henv, if_pos rfl, hShA1,
                      setEnv_same, if_pos rfl,
                      bval_setEnv hw.store hA11 hLa11]
                    exact h1g
                  · rw [hvidp, liftg_setEnv, hShB, hvid, setEnv_same,
                      if_pos rfl, bval_setEnv hw.store hB1 hordB1]
                    exact h2g
              · rintro ⟨g, h1g, h2g⟩
                rw [hShA (mixenv env g),
                  mixenv_even env g hEvenVid, henv, if_pos rfl,
                  hShA1 (mixenv env g),
                  mixenv_odd env g hOddVidp] at h1g
                rw [hShB (liftg g)] at h2g
                have hlgB : liftg g mv.var_id = g mvp.var_id := by
                  simp only [liftg]
                  rw [hvid, ← hvidp]
                rw [hlgB] at h2g
                cases hg : g mvp.var_id with
                | true =>
                  right
                  simp only [hg, if_true] at h1g h2g
                  exact ⟨g, h1g, h2g⟩
                | false =>
                  left
                  simp only [hg, Bool.false_eq_true, if_false] at h1g h2g
                  exact ⟨g, h1g, h2g⟩
            have hcoreF : ∀ env, env mv.var_id = false →
                ((PreSem s a00 b0 env ∨ PreSem s a01 b1 env) ↔
                 PreSem s a b env) := by
              intro env henv
              constructor
              · rintro (⟨g, h1g, h2g⟩ | ⟨g, h1g, h2g⟩)
                · refine ⟨setEnv g mvp.var_id false, ?_, ?_⟩
                  · rw [mixenv_setEnv env g hOddVidp false, hShA,
                      hcondA env g false, henv,
                      if_neg Bool.false_ne_true, hShA0,
                      setEnv_same, if_neg Bool.false_ne_true,
                      bval_setEnv hw.store hA00 hLa00]
                    exact h1g
                  · rw [hvidp, liftg_setEnv, hShB, hvid, setEnv_same,
                      if_neg Bool.false_ne_true,
                      bval_setEnv hw.store hB0 hordB0]
                    exact h2g
                · refine ⟨setEnv g mvp.var_id true, ?_, ?_⟩
                  · rw [mixenv_setEnv env g hOddVidp true, hShA,
                      hcondA env g true, henv,
                      if_neg Bool.false_ne_true, hShA0,
                      setEnv_same, if_pos rfl,
                      bval_setEnv hw.store hA01 hLa01]
                    exact h1g
                  · rw [hvidp, liftg_setEnv, hShB, hvid, setEnv_same,
                      if_pos rfl, bval_setEnv hw.store hB1 hordB1]
                    exact h2g
              · rintro ⟨g, h1g, h2g⟩
                rw [hShA (mixenv env g),
                  mixenv_even env g hEvenVid, henv,
                  if_neg Bool.false_ne_true,
                  hShA0 (mixenv env g),
                  mixenv_odd env g hOddVidp] at h1g
                rw [hShB (liftg g)] at h2g
                have hlgB : liftg g mv.var_id = g mvp.var_id := by
                  simp only [liftg]
                  rw [hvid, ← hvidp]
                rw [hlgB] at h2g
                cases hg : g mvp.var_id with
                | true =>
                  right
                  simp only [hg, if_true] at h1g h2g
                  exact ⟨g, h1g, h2g⟩
                | false =>
                  left
                  simp only [hg, Bool.false_eq_true, if_false] at h1g h2g
                  exact ⟨g, h1g, h2g⟩
            have hQ1sem : ∀ env, bval s7 q1 env = true ↔
                (PreSem s a10 b0 env ∨ PreSem s a11 b1 env) := by
              intro env
              rw [bval_ext hw5.store (storeExt_trans he6 he7) hrQ1 env,
                hsemD1 env, Bool.or_eq_true,
                bval_ext hw1.store he14 hrW10 env,
                bval_ext hw2.store he24 hrW11 env,
                hsem1 env, hsem2 env,
                preSem_ext hw.store he1 hA11 hB1 env]
            have hQ0sem : ∀ env, bval s7 q0 env = true ↔
                (PreSem s a00 b0 env ∨ PreSem s a01 b1 env) := by
              intro env
              rw [bval_ext hw6.store he7 hrQ0 env,
                hsemD2 env, Bool.or_eq_true,
                bval_ext hw3.store he35 hrW00 env,
                bval_ext hw4.store he5 hrW01 env,
                hsem3 env, hsem4 env,
                preSem_ext hw.store hS2 hA00 hB0 env,
                preSem_ext hw.store hS3 hA01 hB1 env]
            have hsemMain : ∀ env,
                bval (s7.putPre (a, b) r0) r0 env = true ↔
                PreSem s a b env := by
              intro env
              rw [bval_putPre, hsem7 env]
              cases henv : env mv.var_id with
              | true =>
                simp only [henv, if_true]
                rw [hQ1sem env]
                exact hcoreT env henv
              | false =>
                simp only [henv, Bool.false_eq_true, if_false]
                rw [hQ0sem env]
                exact hcoreF env henv
            have hfin : ∀ lr, lookupA r0 s7.node_to_var_id = some lr →
                Lvl.leL (Lvl.minL la lb) lr = true := by
              intro lr hlr
              rw [hmin, ← hvid]
              exact hlvl7 _ hlr
            have hentry : PreEntryOk (s7.putPre (a, b) r0) ((a, b), r0) := by
              refine preEntry_intro (sOT_ext hFull ha) (sOT_ext hFull hb) ?_
              intro _ _
              refine ⟨sOT_ext hextP hr7, hevFinal, ?_, ?_⟩
              · intro la' lb' lr hla' hlb' hlr'
                cases lookup_det hla ((lvl_lookup_ext hw.store hFull
                  ha).symm.trans hla')
                cases lookup_det hlb ((lvl_lookup_ext hw.store hFull
                  hb).symm.trans hlb')
                exact hfin _ ((lvl_lookup_ext hs7 hextP hr7).symm.trans
                  hlr')
              · intro env
                rw [hsemMain env]
                exact (preSem_ext hw.store hFull ha hb env).symm
            refine ⟨hwP, ?_, hFull, sOT_ext hextP hr7, hevFinal, ?_,
              hsemMain⟩
            · intro e hmem
              rcases List.mem_cons.mp hmem with hmem | hmem
              · subst hmem; exact hentry
              · exact preEntry_ext hs7 hsiP hextP (hp7' e hmem)
            · intro la' lb' lr hla' hlb' hlr'
              cases Option.some.inj hla'
              cases Option.some.inj hlb'
              exact hfin _ ((lvl_lookup_ext hs7 hextP hr7).symm.trans
                hlr')

/-- `neg` of the main source is `ite(a, 0, 1)`: it complements the
denotation. -/
theorem negF_spec {fuel : Nat} {s : BDD} {a r : Nat} {s' : BDD}
    (hw : WF s) (ha : sOT s a) (h : negF fuel s a = some (r, s')) :
    WF s' ∧ StoreExt s s' ∧ sOT s' r ∧ s'.pre_cache = s.pre_cache ∧
    (∀ env, bval s' r env = !(bval s a env)) := by
  obtain ⟨hw', he', hr', hpre', _, hsem'⟩ :=
    iteF_spec fuel s a get_zero_node get_one_node r s' hw ha
      (sOT_zero s) (sOT_one s) h
  refine ⟨hw', he', hr', hpre', ?_⟩
  intro env
  rw [hsem' env, bval_term_zero, bval_term_one]
  cases bval s a env <;> rfl

/-- `node_from_variable` behaves as the indicator of its variable level. -/
theorem nfv_spec {s : BDD} {i : Nat} {v : BDDVar} {r : Nat} {s' : BDD}
    (hw : WF s) (hv : s.variable_ordering.get? i = some v)
    (h : node_from_variable s v = (r, s')) :
    WF s' ∧ StoreExt s s' ∧ sOT s' r ∧ s'.pre_cache = s.pre_cache ∧
    (∀ env, bval s' r env = env i) := by
  have hvid : v.var_id = i := hw.store.reg_ids i v hv
  have hoh : ∀ L, lookupA get_one_node s.node_to_var_id = some L →
      Lvl.natLt v.var_id L = true := by
    intro L hL
    have hL1 : lookupA (1 : Nat) s.node_to_var_id = some L := hL
    rw [hw.store.var_one] at hL1
    cases Option.some.inj hL1
    rfl
  have hol : ∀ L, lookupA get_zero_node s.node_to_var_id = some L →
      Lvl.natLt v.var_id L = true := by
    intro L hL
    have hL0 : lookupA (0 : Nat) s.node_to_var_id = some L := hL
    rw [hw.store.var_zero] at hL0
    cases Option.some.inj hL0
    rfl
  have hvlen : v.var_id < s.variable_ordering.length := by
    rw [hvid]
    exact get?_lt_length hv
  obtain ⟨hs', he', hr', hc1e, hc2e, hc3e, hc4e, _, hsem'⟩ :=
    make_spec hw.store (sOT_one s) (sOT_zero s) hoh hol hvlen h
  refine ⟨wf_transport hw hs' he' hc1e hc2e hc3e, he', hr', hc4e, ?_⟩
  intro env
  cases henv : env i
  · rw [hsem' env, hvid, henv, if_neg Bool.false_ne_true]
    rfl
  · rw [hsem' env, hvid, henv, if_pos rfl]
    rfl

/-- Correctness of building a formula through the public operators: the
returned node denotes the truth table of the formula. -/
theorem buildF_spec : ∀ (f : Formula) (fuel : Nat) (s : BDD) (n : Nat)
    (s' : BDD), WF s → buildF fuel s f = some (n, s') →
    WF s' ∧ StoreExt s s' ∧ sOT s' n ∧
    (∀ env, bval s' n env = f.sem env) := by
  intro f
  induction f with
  | var i =>
    intro fuel s n s' hw h
    simp only [buildF] at h
    cases hv : s.variable_ordering.get? i with
    | none => rw [hv] at h; cases h
    | some v =>
      rw [hv] at h
      injection h with h
      cases hm : node_from_variable s v with
      | mk r1 s1 =>
      rw [hm] at h
      injection h with h1 h2
      subst h1; subst h2
      obtain ⟨hw', he', hr', _, hsem'⟩ := nfv_spec hw hv hm
      exact ⟨hw', he', hr', hsem'⟩
  | neg f ihf =>
    intro fuel s n s' hw h
    simp only [buildF] at h
    cases hf : buildF fuel s f with
    | none => simp only [hf] at h; cases h
    | some p1 =>
    obtain ⟨a, s1⟩ := p1
    simp only [hf] at h
    obtain ⟨hw1, he1, hra, hsema⟩ := ihf fuel s a s1 hw hf
    obtain ⟨hw', he', hr', _, hsem'⟩ := negF_spec hw1 hra h
    refine ⟨hw', storeExt_trans he1 he', hr', ?_⟩
    intro env
    rw [hsem' env, hsema env]
    rfl
  | conj f g ihf ihg =>
    intro fuel s n s' hw h
    simp only [buildF] at h
    cases hf : buildF fuel s f with
    | none => simp only [hf] at h; cases h
    | some p1 =>
    obtain ⟨a, s1⟩ := p1
    simp only [hf] at h
    cases hg : buildF fuel s1 g with
    | none => simp only [hg] at h; cases h
    | some p2 =>
    obtain ⟨b, s2⟩ := p2
    simp only [hg] at h
    obtain ⟨hw1, he1, hra, hsema⟩ := ihf fuel s a s1 hw hf
    obtain ⟨hw2, he2, hrb, hsemb⟩ := ihg fuel s1 b s2 hw1 hg
    obtain ⟨hw', he', hr', _, _, hsem'⟩ :=
      conjF_spec fuel s2 a b n s' hw2 (sOT_ext he2 hra) hrb h
    refine ⟨hw', storeExt_trans he1 (storeExt_trans he2 he'), hr', ?_⟩
    intro env
    rw [hsem' env, bval_ext hw1.store he2 hra env, hsema env, hsemb env]
    rfl
  | disj f g ihf ihg =>
    intro fuel s n s' hw h
    simp only [buildF] at h
    cases hf : buildF fuel s f with
    | none => simp only [hf] at h; cases h
    | some p1 =>
    obtain ⟨a, s1⟩ := p1
    simp only [hf] at h
    cases hg : buildF fuel s1 g with
    | none => simp only [hg] at h; cases h
    | some p2 =>
    obtain ⟨b, s2⟩ := p2
    simp only [hg] at h
    obtain ⟨hw1, he1, hra, hsema⟩ := ihf fuel s a s1 hw hf
    obtain ⟨hw2, he2, hrb, hsemb⟩ := ihg fuel s1 b s2 hw1 hg
    obtain ⟨hw', he', hr', _, _, _, hsem'⟩ :=
      disjF_spec fuel s2 a b n s' hw2 (sOT_ext he2 hra) hrb h
    refine ⟨hw', storeExt_trans he1 (storeExt_trans he2 he'), hr', ?_⟩
    intro env
    rw [hsem' env, bval_ext hw1.store he2 hra env, hsema env, hsemb env]
    rfl
  | ifte f g k ihf ihg ihk =>
    intro fuel s n s' hw h
    simp only [buildF] at h
    cases hf : buildF fuel s f with
    | none => simp only [hf] at h; cases h
    | some p1 =>
    obtain ⟨a, s1⟩ := p1
    simp only [hf] at h
    cases hg : buildF fuel s1 g with
    | none => simp only [hg] at h; cases h
    | some p2 =>
    obtain ⟨b, s2⟩ := p2
    simp only [hg] at h
    cases hk : buildF fuel s2 k with
    | none => simp only [hk] at h; cases h
    | some p3 =>
    obtain ⟨c, s3⟩ := p3
    simp only [hk] at h
    obtain ⟨hw1, he1, hra, hsema⟩ := ihf fuel s a s1 hw hf
    obtain ⟨hw2, he2, hrb, hsemb⟩ := ihg fuel s1 b s2 hw1 hg
    obtain ⟨hw3, he3, hrc, hsemc⟩ := ihk fuel s2 c s3 hw2 hk
    have he23 : StoreExt s1 s3 := storeExt_trans he2 he3
    obtain ⟨hw', he', hr', _, _, hsem'⟩ :=
      iteF_spec fuel s3 a b c n s' hw3 (sOT_ext he23 hra)
        (sOT_ext he3 hrb) hrc h
    refine ⟨hw', storeExt_trans he1 (storeExt_trans he23 he'), hr', ?_⟩
    intro env
    rw [hsem' env, bval_ext hw1.store he23 hra env,
      bval_ext hw2.store he3 hrb env, hsema env, hsemb env, hsemc env]
    rfl

theorem check_ord {α : Type} (l : List α) (key vid : α → Nat)
    (m : List (Nat × Lvl))
    (hc : ∀ p ∈ l, (match lookupA (key p) m with
      | some L => Lvl.natLt (vid p) L
      | none => true) = true) :
    ∀ p ∈ l, ∀ L, lookupA (key p) m = some L →
      Lvl.natLt (vid p) L = true := by
  intro p hp L hL
  have := hc p hp
  rw [hL] at this
  exact this

theorem reg_ids_of_bounded (l : List BDDVar)
    (hc : ∀ i, i < l.length → (match l.get? i with
      | some v => decide (v.var_id = i)
      | none => true) = true) :
    ∀ i v, l.get? i = some v → v.var_id = i := by
  intro i v h
  have hlen : i < l.length := by
    by_contra hge
    rw [List.get?_eq_none.mpr (by omega)] at h
    cases h
  have := hc i hlen
  rw [h] at this
  simpa using this

/-- The final seed state is a valid store. -/
theorem storeInv_seedSt20 : StoreInv seedSt20 := by
  refine ⟨?_, ?_, ?_, ?_, ?_, ?_, ?_, ?_, ?_, ?_, ?_, ?_, ?_, ?_, ?_,
    ?_, ?_, ?_, ?_, ?_, ?_⟩
  · decide
  · decide
  · decide
  · decide
  · decide
  · decide
  · decide
  · decide
  · decide
  · decide
  · decide
  · decide
  · decide
  · decide
  · decide
  · decide
  · decide
  · exact check_ord seedSt20.node_to_row (fun p => p.2.2.1) (fun p => p.2.1)
      seedSt20.node_to_var_id (by decide)
  · exact check_ord seedSt20.node_to_row (fun p => p.2.2.2) (fun p => p.2.1)
      seedSt20.node_to_var_id (by decide)
  · decide
  · exact reg_ids_of_bounded _ (by decide)

/-- In the final seed state, the pre-image node `9` denotes `¬x0 ∧ x1`. -/
theorem seed_bval_pre : ∀ env, bval seedSt20 9 env = (!(env 0) && env 2) := by
  intro env
  rw [bval_node storeInv_seedSt20
    (show lookupA 9 seedSt20.node_to_row = some (0, 0, 4) from by decide)]
  rw [bval_node storeInv_seedSt20
    (show lookupA 4 seedSt20.node_to_row = some (2, 1, 0) from by decide)]
  rw [bval_zero, bval_one]
  cases env 0 <;> cases env 2 <;> rfl

/-- In the final seed state, node `8` (the state `00`) denotes
`¬x0 ∧ ¬x1`. -/
theorem seed_bval_x00 : ∀ env, bval seedSt20 8 env =
    (!(env 0) && !(env 2)) := by
  intro env
  rw [bval_node storeInv_seedSt20
    (show lookupA 8 seedSt20.node_to_row = some (0, 0, 7) from by decide)]
  rw [bval_node storeInv_seedSt20
    (show lookupA 7 seedSt20.node_to_row = some (2, 0, 1) from by decide)]
  rw [bval_zero, bval_one]
  cases env 0 <;> cases env 2 <;> rfl

theorem no_row_terminal {s : BDD} (hs : StoreInv s) :
    lookupA get_zero_node s.node_to_row = none ∧
    lookupA get_one_node s.node_to_row = none := by
  constructor
  · cases hz : lookupA get_zero_node s.node_to_row with
    | none => rfl
    | some row =>
      have := hs.rows_ge2 _ (lookupA_eq_some_mem hz)
      simp only [get_zero_node] at this
      omega
  · cases ho : lookupA get_one_node s.node_to_row with
    | none => rfl
    | some row =>
      have := hs.rows_ge2 _ (lookupA_eq_some_mem ho)
      simp only [get_one_node] at this
      omega

theorem bfs_inv : ∀ (fuel : Nat) (s : BDD)
    (queue explored out roots : List Nat),
    StoreInv s →
    bfsF fuel s queue explored = some out →
    (∀ x ∈ queue, Reach s roots x) →
    (∀ x ∈ explored, Reach s roots x) →
    (∀ r ∈ roots, r ∈ explored ∨ r ∈ queue) →
    (∀ x ∈ explored, ∀ v h l, lookupA x s.node_to_row = some (v, h, l) →
      ((h ∈ explored ∨ h ∈ queue) ∧ (l ∈ explored ∨ l ∈ queue))) →
    ((∀ x ∈ explored, x ∈ out) ∧
     (∀ x ∈ out, Reach s roots x) ∧
     (∀ r ∈ roots, r ∈ out) ∧
     (∀ x ∈ out, ∀ v h l, lookupA x s.node_to_row = some (v, h, l) →
       (h ∈ out ∧ l ∈ out))) := by
  intro fuel
  induction fuel with
  | zero =>
    intro s queue explored out roots hs h hq hx hr hcl
    cases queue with
    | nil =>
      simp only [bfsF] at h
      cases Option.some.inj h
      refine ⟨fun x hx' => hx', hx, ?_, ?_⟩
      · intro r hrm
        rcases hr r hrm with h' | h'
        · exact h'
        · exact absurd h' (List.not_mem_nil _)
      · intro x hxm v v1 v0 hrow
        obtain ⟨hh, hl⟩ := hcl x hxm v v1 v0 hrow
        constructor
        · rcases hh with h' | h'
          · exact h'
          · exact absurd h' (List.not_mem_nil _)
        · rcases hl with h' | h'
          · exact h'
          · exact absurd h' (List.not_mem_nil _)
    | cons c q =>
      simp only [bfsF] at h
      cases h
  | succ fuel ih =>
    intro s queue explored out roots hs h hq hx hr hcl
    cases queue with
    | nil =>
      simp only [bfsF] at h
      cases Option.some.inj h
      refine ⟨fun x hx' => hx', hx, ?_, ?_⟩
      · intro r hrm
        rcases hr r hrm with h' | h'
        · exact h'
        · exact absurd h' (List.not_mem_nil _)
      · intro x hxm v v1 v0 hrow
        obtain ⟨hh, hl⟩ := hcl x hxm v v1 v0 hrow
        constructor
        · rcases hh with h' | h'
          · exact h'
          · exact absurd h' (List.not_mem_nil _)
        · rcases hl with h' | h'
          · exact h'
          · exact absurd h' (List.not_mem_nil _)
    | cons current queue =>
      simp only [bfsF] at h
      set E1 := if current ∈ explored then explored
        else current :: explored with hE1def
      have hE1sub : ∀ x, x ∈ explored → x ∈ E1 := by
        intro x hxm
        rw [hE1def]
        by_cases hcm : current ∈ explored
        · rw [if_pos hcm]; exact hxm
        · rw [if_neg hcm]; exact List.mem_cons_of_mem _ hxm
      have hE1cur : current ∈ E1 := by
        rw [hE1def]
        by_cases hcm : current ∈ explored
        · rw [if_pos hcm]; exact hcm
        · rw [if_neg hcm]; exact List.mem_cons_self _ _
      have hE1mem : ∀ x, x ∈ E1 → x = current ∨ x ∈ explored := by
        intro x hxm
        rw [hE1def] at hxm
        by_cases hcm : current ∈ explored
        · rw [if_pos hcm] at hxm; exact Or.inr hxm
        · rw [if_neg hcm] at hxm
          rcases List.mem_cons.mp hxm with h' | h'
          · exact Or.inl h'
          · exact Or.inr h'
      have hE1reach : ∀ x, x ∈ E1 → Reach s roots x := by
        intro x hxm
        rcases hE1mem x hxm with h' | h'
        · subst h'; exact hq x (List.mem_cons_self _ _)
        · exact hx x h'
      by_cases hterm : current = get_one_node ∨ current = get_zero_node
      · rw [if_pos hterm] at h
        obtain ⟨c1, c2, c3, c4⟩ := ih s queue E1 out roots hs h
          (fun x hxm => hq x (List.mem_cons_of_mem _ hxm))
          hE1reach
          (by
            intro r hrm
            rcases hr r hrm with h' | h'
            · exact Or.inl (hE1sub r h')
            · rcases List.mem_cons.mp h' with h'' | h''
              · subst h''; exact Or.inl hE1cur
              · exact Or.inr h'')
          (by
            intro x hxm v v1 v0 hrow
            rcases hE1mem x hxm with h' | h'
            · exfalso
              subst h'
              rcases hterm with ht | ht <;> rw [ht] at hrow
              · rw [(no_row_terminal hs).2] at hrow; cases hrow
              · rw [(no_row_terminal hs).1] at hrow; cases hrow
            · obtain ⟨hh, hl⟩ := hcl x h' v v1 v0 hrow
              constructor
              · rcases hh with h'' | h''
                · exact Or.inl (hE1sub _ h'')
                · rcases List.mem_cons.mp h'' with h3 | h3
                  · subst h3; exact Or.inl hE1cur
                  · exact Or.inr h3
              · rcases hl with h'' | h''
                · exact Or.inl (hE1sub _ h'')
                · rcases List.mem_cons.mp h'' with h3 | h3
                  · subst h3; exact Or.inl hE1cur
                  · exact Or.inr h3)
        exact ⟨fun x hxm => c1 x (hE1sub x hxm), c2, c3, c4⟩
      · rw [if_neg hterm] at h
        cases hsucc : s.get_succs current with
        | none => rw [hsucc] at h; cases h
        | some p =>
        obtain ⟨n1, n0⟩ := p
        rw [hsucc] at h
        obtain ⟨v, hrowC⟩ : ∃ v,
            lookupA current s.node_to_row = some (v, n1, n0) := by
          rw [BDD.get_succs] at hsucc
          cases hr' : lookupA current s.node_to_row with
          | none => rw [hr'] at hsucc; cases hsucc
          | some row =>
            obtain ⟨v', m1, m0⟩ := row
            rw [hr'] at hsucc
            injection hsucc with hsucc
            injection hsucc with hs1 hs2
            exact ⟨v', by rw [hs1, hs2]⟩
        set Q1 := if n1 ∈ E1 then queue else queue ++ [n1] with hQ1def
        set Q2 := if n0 ∈ E1 then Q1 else Q1 ++ [n0] with hQ2def
        have hQ1sub : ∀ x, x ∈ queue → x ∈ Q1 := by
          intro x hxm
          rw [hQ1def]
          by_cases hm : n1 ∈ E1
          · rw [if_pos hm]; exact hxm
          · rw [if_neg hm]; exact List.mem_append_left _ hxm
        have hQ2sub : ∀ x, x ∈ Q1 → x ∈ Q2 := by
          intro x hxm
          rw [hQ2def]
          by_cases hm : n0 ∈ E1
          · rw [if_pos hm]; exact hxm
          · rw [if_neg hm]; exact List.mem_append_left _ hxm
        have hQsub : ∀ x, x ∈ queue → x ∈ Q2 :=
          fun x hxm => hQ2sub x (hQ1sub x hxm)
        have hQ1mem : ∀ x, x ∈ Q1 → x ∈ queue ∨ x = n1 := by
          intro x hxm
          rw [hQ1def] at hxm
          by_cases hm : n1 ∈ E1
          · rw [if_pos hm] at hxm; exact Or.inl hxm
          · rw [if_neg hm] at hxm
            rcases List.mem_append.mp hxm with h' | h'
            · exact Or.inl h'
            · exact Or.inr (by simpa using h')
        have hQ2mem : ∀ x, x ∈ Q2 → (x ∈ queue ∨ x = n1) ∨ x = n0 := by
          intro x hxm
          rw [hQ2def] at hxm
          by_cases hm : n0 ∈ E1
          · rw [if_pos hm] at hxm; exact Or.inl (hQ1mem x hxm)
          · rw [if_neg hm] at hxm
            rcases List.mem_append.mp hxm with h' | h'
            · exact Or.inl (hQ1mem x h')
            · exact Or.inr (by simpa using h')
        have hn1in : n1 ∈ E1 ∨ n1 ∈ Q2 := by
          by_cases hm : n1 ∈ E1
          · exact Or.inl hm
          · refine Or.inr (hQ2sub _ ?_)
            rw [hQ1def, if_neg hm]
            exact List.mem_append_right _ (by simp)
        have hn0in : n0 ∈ E1 ∨ n0 ∈ Q2 := by
          by_cases hm : n0 ∈ E1
          · exact Or.inl hm
          · refine Or.inr ?_
            rw [hQ2def, if_neg hm]
            exact List.mem_append_right _ (by simp)
        have hreachC : Reach s roots current :=
          hq current (List.mem_cons_self _ _)
        obtain ⟨c1, c2, c3, c4⟩ := ih s Q2 E1 out roots hs h
          (by
            intro x hxm
            rcases hQ2mem x hxm with h' | h'
            · rcases h' with h'' | h''
              · exact hq x (List.mem_cons_of_mem _ h'')
              · subst h''; exact Reach.hi hreachC hrowC
            · subst h'; exact Reach.lo hreachC hrowC)
          hE1reach
          (by
            intro r hrm
            rcases hr r hrm with h' | h'
            · exact Or.inl (hE1sub r h')
            · rcases List.mem_cons.mp h' with h'' | h''
              · subst h''; exact Or.inl hE1cur
              · exact Or.inr (hQsub r h''))
          (by
            intro x hxm v' v1 v0 hrow
            rcases hE1mem x hxm with h' | h'
            · subst h'
              rw [hrowC] at hrow
              injection hrow with h3
              injection h3 with hv h4
              injection h4 with h1 h0
              subst h1; subst h0
              exact ⟨hn1in, hn0in⟩
            · obtain ⟨hh, hl⟩ := hcl x h' v' v1 v0 hrow
              constructor
              · rcases hh with h'' | h''
                · exact Or.inl (hE1sub _ h'')
                · rcases List.mem_cons.mp h'' with h3 | h3
                  · subst h3; exact Or.inl hE1cur
                  · exact Or.inr (hQsub _ h3)
              · rcases hl with h'' | h''
                · exact Or.inl (hE1sub _ h'')
                · rcases List.mem_cons.mp h'' with h3 | h3
                  · subst h3; exact Or.inl hE1cur
                  · exact Or.inr (hQsub _ h3))
        exact ⟨fun x hxm => c1 x (hE1sub x hxm), c2, c3, c4⟩

/-- The breadth-first traversal of `clear` explores exactly the nodes
reachable from the roots. -/
theorem bfs_exact {fuel : Nat} {s : BDD} {roots out : List Nat}
    (hs : StoreInv s) (h : bfsF fuel s roots [] = some out) :
    ∀ x, x ∈ out ↔ Reach s roots x := by
  obtain ⟨_, c2, c3, c4⟩ := bfs_inv fuel s roots [] out roots hs h
    (fun x hxm => Reach.mem hxm)
    (fun x hxm => absurd hxm (List.not_mem_nil _))
    (fun r hrm => Or.inr hrm)
    (fun x hxm => absurd hxm (List.not_mem_nil _))
  intro x
  constructor
  · exact c2 x
  · intro hre
    induction hre with
    | mem hm => exact c3 _ hm
    | hi hre' hr' ihr => exact (c4 _ ihr _ _ _ hr').1
    | lo hre' hr' ihr => exact (c4 _ ihr _ _ _ hr').2

theorem lookupA_isSome_of_mem {α β : Type} [DecidableEq α] {p : α × β}
    {l : List (α × β)} (h : p ∈ l) : (lookupA p.1 l).isSome := by
  induction l with
  | nil => cases h
  | cons q t ih =>
    obtain ⟨a, b⟩ := q
    by_cases ha : a = p.1
    · simp [lookupA, ha]
    · rcases List.mem_cons.mp h with h' | h'
      · exact absurd (congrArg Prod.fst h'.symm) ha
      · simp only [lookupA, if_neg ha]
        exact ih h'

/-- Exact description of the store after `clear`: the registry, counters
and all four memo caches are untouched; a node record, level entry or
unique-table entry survives exactly when its node is reachable from the
roots (level entries of the two terminals always survive); and the store
invariants persist. -/
theorem clearF_spec :
    ∀ (fuel : Nat) (s : BDD) (roots : List Nat) (s' : BDD),
    StoreInv s → clearF fuel s roots = some s' →
    s'.variable_ordering = s.variable_ordering ∧
    s'.var_id = s.var_id ∧
    s'.node_id = s.node_id ∧
    s'.ite_cache = s.ite_cache ∧
    s'.and_cache = s.and_cache ∧
    s'.or_cache = s.or_cache ∧
    s'.pre_cache = s.pre_cache ∧
    (∀ n row, lookupA n s'.node_to_row = some row ↔
      (lookupA n s.node_to_row = some row ∧ Reach s roots n)) ∧
    (∀ n L, lookupA n s'.node_to_var_id = some L ↔
      (lookupA n s.node_to_var_id = some L ∧
        (n = 0 ∨ n = 1 ∨ Reach s roots n))) ∧
    (∀ k m, lookupA k s'.row_to_node = some m ↔
      (lookupA k s.row_to_node = some m ∧ Reach s roots m)) ∧
    StoreInv s' := by
  intro fuel s roots s' hs h
  simp only [clearF] at h
  cases hbfs : bfsF fuel s roots [] with
  | none => rw [hbfs] at h; cases h
  | some EX =>
  rw [hbfs] at h
  injection h with h
  subst h
  have hex := bfs_exact hs hbfs
  set inact := (s.node_to_row.map Prod.fst).filter
    (fun n => decide (n ∉ EX)) with hinactdef
  have hinact : ∀ n, n ∈ inact ↔
      ((lookupA n s.node_to_row).isSome ∧ ¬ Reach s roots n) := by
    intro n
    rw [hinactdef, List.mem_filter]
    constructor
    · rintro ⟨hmem, hdec⟩
      rw [decide_eq_true_eq] at hdec
      refine ⟨?_, fun hre => hdec ((hex n).mpr hre)⟩
      rcases List.mem_map.mp hmem with ⟨p, hp, hfst⟩
      subst hfst
      exact lookupA_isSome_of_mem hp
    · rintro ⟨hsome, hnre⟩
      rw [Option.isSome_iff_exists] at hsome
      obtain ⟨row, hrow⟩ := hsome
      refine ⟨List.mem_map.mpr ⟨(n, row), lookupA_eq_some_mem hrow, rfl⟩, ?_⟩
      rw [decide_eq_true_eq]
      intro hmem
      exact hnre ((hex n).mp hmem)
  have hnotin : ∀ n, (lookupA n s.node_to_row).isSome → n ∉ inact →
      Reach s roots n := by
    intro n hsome hni
    by_contra hnre
    exact hni ((hinact n).mpr ⟨hsome, hnre⟩)
  have hnd1 : ((s.node_to_row.filter
      (fun p => decide (p.1 ∉ inact))).map Prod.fst).Nodup :=
    List.Nodup.sublist (List.Sublist.map _ (List.filter_sublist _))
      hs.nodupRows
  have hnd2 : ((s.node_to_var_id.filter
      (fun p => decide (p.1 ∉ inact))).map Prod.fst).Nodup :=
    List.Nodup.sublist (List.Sublist.map _ (List.filter_sublist _))
      hs.nodupVarMap
  have hnd3 : ((s.row_to_node.filter
      (fun q => decide (¬ ∃ n ∈ inact,
        lookupA n s.node_to_row = some q.1))).map Prod.fst).Nodup :=
    List.Nodup.sublist (List.Sublist.map _ (List.filter_sublist _))
      hs.nodupRtn
  have hcharA : ∀ n row,
      lookupA n (s.node_to_row.filter
        (fun p => decide (p.1 ∉ inact))) = some row ↔
      (lookupA n s.node_to_row = some row ∧ Reach s roots n) := by
    intro n row
    constructor
    · intro hl
      have hmem := lookupA_eq_some_mem hl
      rw [List.mem_filter] at hmem
      obtain ⟨hmem, hdec⟩ := hmem
      rw [decide_eq_true_eq] at hdec
      have horig : lookupA n s.node_to_row = some row :=
        lookupA_of_mem_nodup hs.nodupRows hmem
      exact ⟨horig, hnotin n (by rw [horig]; rfl) hdec⟩
    · rintro ⟨horig, hre⟩
      refine lookupA_of_mem_nodup hnd1 ?_
      rw [List.mem_filter]
      refine ⟨lookupA_eq_some_mem horig, ?_⟩
      rw [decide_eq_true_eq]
      intro hmem
      exact ((hinact n).mp hmem).2 hre
  have hcharB : ∀ n L,
      lookupA n (s.node_to_var_id.filter
        (fun p => decide (p.1 ∉ inact))) = some L ↔
      (lookupA n s.node_to_var_id = some L ∧
        (n = 0 ∨ n = 1 ∨ Reach s roots n)) := by
    intro n L
    constructor
    · intro hl
      have hmem := lookupA_eq_some_mem hl
      rw [List.mem_filter] at hmem
      obtain ⟨hmem, hdec⟩ := hmem
      rw [decide_eq_true_eq] at hdec
      have horig : lookupA n s.node_to_var_id = some L :=
        lookupA_of_mem_nodup hs.nodupVarMap hmem
      refine ⟨horig, ?_⟩
      rcases hs.var_dom _ hmem with h0 | h0 | h0
      · exact Or.inl h0
      · exact Or.inr (Or.inl h0)
      · exact Or.inr (Or.inr (hnotin n h0 hdec))
    · rintro ⟨horig, hcase⟩
      refine lookupA_of_mem_nodup hnd2 ?_
      rw [List.mem_filter]
      refine ⟨lookupA_eq_some_mem horig, ?_⟩
      rw [decide_eq_true_eq]
      intro hmem
      obtain ⟨hsome, hnre⟩ := (hinact n).mp hmem
      rcases hcase with h0 | h0 | h0
      · subst h0
        have hz : lookupA (0 : Nat) s.node_to_row = none :=
          (no_row_terminal hs).1
        rw [hz] at hsome
        cases hsome
      · subst h0
        have ho : lookupA (1 : Nat) s.node_to_row = none :=
          (no_row_terminal hs).2
        rw [ho] at hsome
        cases hsome
      · exact hnre h0
  have hcharC : ∀ k m,
      lookupA k (s.row_to_node.filter
        (fun q => decide (¬ ∃ n ∈ inact,
          lookupA n s.node_to_row = some q.1))) = some m ↔
      (lookupA k s.row_to_node = some m ∧ Reach s roots m) := by
    intro k m
    constructor
    · intro hl
      have hmem := lookupA_eq_some_mem hl
      rw [List.mem_filter] at hmem
      obtain ⟨hmem, hdec⟩ := hmem
      rw [decide_eq_true_eq] at hdec
      have horig : lookupA k s.row_to_node = some m :=
        lookupA_of_mem_nodup hs.nodupRtn hmem
      refine ⟨horig, ?_⟩
      have hrowm : lookupA m s.node_to_row = some k := hs.inv2 _ hmem
      refine hnotin m (by rw [hrowm]; rfl) ?_
      intro hmemI
      exact hdec ⟨m, hmemI, hrowm⟩
    · rintro ⟨horig, hrem⟩
      refine lookupA_of_mem_nodup hnd3 ?_
      rw [List.mem_filter]
      refine ⟨lookupA_eq_some_mem horig, ?_⟩
      rw [decide_eq_true_eq]
      rintro ⟨n, hnin, hnrow⟩
      have : lookupA k s.row_to_node = some n :=
        hs.inv1 _ (lookupA_eq_some_mem hnrow)
      cases lookup_det horig this
      exact ((hinact _).mp hnin).2 hrem
  have hmemA : ∀ p, p ∈ s.node_to_row.filter
      (fun p => decide (p.1 ∉ inact)) →
      (p ∈ s.node_to_row ∧ Reach s roots p.1) := by
    intro p hp
    rw [List.mem_filter] at hp
    obtain ⟨hp, hdec⟩ := hp
    rw [decide_eq_true_eq] at hdec
    exact ⟨hp, hnotin p.1 (lookupA_isSome_of_mem hp) hdec⟩
  refine ⟨rfl, rfl, rfl, rfl, rfl, rfl, rfl, hcharA, hcharB, hcharC, ?_⟩
  refine ⟨hnd1, hnd3, hnd2, ?_, ?_, hs.two_le_id, ?_, ?_, ?_, ?_, ?_,
    ?_, ?_, ?_, ?_, ?_, ?_, ?_, ?_, ?_, hs.reg_ids⟩
  · intro p hp
    exact hs.rows_ge2 _ (hmemA p hp).1
  · intro p hp
    exact hs.rows_lt_id _ (hmemA p hp).1
  · intro p hp
    obtain ⟨hp0, hre⟩ := hmemA p hp
    exact (hcharC _ _).mpr ⟨hs.inv1 _ hp0, hre⟩
  · intro q hq
    rw [List.mem_filter] at hq
    obtain ⟨hq0, hdec⟩ := hq
    have hl : lookupA q.1 (s.row_to_node.filter
        (fun q => decide (¬ ∃ n ∈ inact,
          lookupA n s.node_to_row = some q.1))) = some q.2 :=
      lookupA_of_mem_nodup hnd3 (List.mem_filter.mpr ⟨hq0, hdec⟩)
    obtain ⟨horig, hrem⟩ := (hcharC _ _).mp hl
    exact (hcharA _ _).mpr ⟨hs.inv2 _ hq0, hrem⟩
  · intro p hp
    obtain ⟨hp0, hre⟩ := hmemA p hp
    exact (hcharB _ _).mpr ⟨hs.var_of_row _ hp0, Or.inr (Or.inr hre)⟩
  · exact (hcharB _ _).mpr ⟨hs.var_zero, Or.inl rfl⟩
  · exact (hcharB _ _).mpr ⟨hs.var_one, Or.inr (Or.inl rfl)⟩
  · intro q hq
    rw [List.mem_filter] at hq
    obtain ⟨hq0, hdec⟩ := hq
    rw [decide_eq_true_eq] at hdec
    rcases hs.var_dom _ hq0 with h0 | h0 | h0
    · exact Or.inl h0
    · exact Or.inr (Or.inl h0)
    · refine Or.inr (Or.inr ?_)
      rw [Option.isSome_iff_exists] at h0
      obtain ⟨row, hrow⟩ := h0
      have hre := hnotin q.1 (by rw [hrow]; rfl) hdec
      rw [Option.isSome_iff_exists]
      exact ⟨row, (hcharA _ _).mpr ⟨hrow, hre⟩⟩
  · intro p hp
    exact hs.reduced _ (hmemA p hp).1
  · intro p hp
    obtain ⟨hp0, hre⟩ := hmemA p hp
    obtain ⟨pk, v, n1, n0⟩ := p
    have hrowp : lookupA pk s.node_to_row = some (v, n1, n0) :=
      lookupA_of_mem_nodup hs.nodupRows hp0
    have hreh : Reach s roots n1 := Reach.hi hre hrowp
    rcases hs.hi_sOT _ hp0 with h0 | h0 | h0
    · exact Or.inl h0
    · exact Or.inr (Or.inl h0)
    · refine Or.inr (Or.inr ?_)
      rw [Option.isSome_iff_exists] at h0
      obtain ⟨rowh, hrowh⟩ := h0
      rw [Option.isSome_iff_exists]
      exact ⟨rowh, (hcharA _ _).mpr ⟨hrowh, hreh⟩⟩
  · intro p hp
    obtain ⟨hp0, hre⟩ := hmemA p hp
    obtain ⟨pk, v, n1, n0⟩ := p
    have hrowp : lookupA pk s.node_to_row = some (v, n1, n0) :=
      lookupA_of_mem_nodup hs.nodupRows hp0
    have hrel : Reach s roots n0 := Reach.lo hre hrowp
    rcases hs.lo_sOT _ hp0 with h0 | h0 | h0
    · exact Or.inl h0
    · exact Or.inr (Or.inl h0)
    · refine Or.inr (Or.inr ?_)
      rw [Option.isSome_iff_exists] at h0
      obtain ⟨rowl, hrowl⟩ := h0
      rw [Option.isSome_iff_exists]
      exact ⟨rowl, (hcharA _ _).mpr ⟨hrowl, hrel⟩⟩
  · intro p hp
    exact hs.hi_lt _ (hmemA p hp).1
  · intro p hp
    exact hs.lo_lt _ (hmemA p hp).1
  · intro p hp l hl
    obtain ⟨horig, _⟩ := (hcharB _ _).mp hl
    exact hs.hi_ord _ (hmemA p hp).1 l horig
  · intro p hp l hl
    obtain ⟨horig, _⟩ := (hcharB _ _).mp hl
    exact hs.lo_ord _ (hmemA p hp).1 l horig
  · intro p hp
    exact hs.var_lt_len _ (hmemA p hp).1

theorem I1I2_of_storeInv {s : BDD} (hs : StoreInv s) : I1I2 s :=
  ⟨hs.reduced, hs.inv1, hs.inv2⟩

/-- `create_variable` registers a fresh variable at the end of the ordering
with the next variable identifier; the node store is untouched, so all
store invariants persist. -/
theorem create_variable_spec {s : BDD} {name : String} {prim : Bool}
    {v : BDDVar} {s1 : BDD}
    (hs : StoreInv s) (hvc : s.var_id = s.variable_ordering.length)
    (h : s.create_variable name prim = (v, s1)) :
    StoreInv s1 ∧ s1.var_id = s1.variable_ordering.length ∧
    v.var_id = s.variable_ordering.length ∧
    s1.variable_ordering = s.variable_ordering ++ [v] ∧
    s1.node_to_row = s.node_to_row ∧
    s1.node_to_var_id = s.node_to_var_id ∧
    s1.row_to_node = s.row_to_node ∧
    s1.node_id = s.node_id := by
  rw [BDD.create_variable] at h
  injection h with h1 h2
  subst h1; subst h2
  refine ⟨⟨hs.nodupRows, hs.nodupRtn, hs.nodupVarMap, hs.rows_ge2,
    hs.rows_lt_id, hs.two_le_id, hs.inv1, hs.inv2, hs.var_of_row,
    hs.var_zero, hs.var_one, hs.var_dom, hs.reduced, hs.hi_sOT,
    hs.lo_sOT, hs.hi_lt, hs.lo_lt, hs.hi_ord, hs.lo_ord, ?_, ?_⟩,
    ?_, hvc, rfl, rfl, rfl, rfl, rfl⟩
  · intro p hp
    have := hs.var_lt_len _ hp
    rw [List.length_append]
    omega
  · intro i w hw
    by_cases hi : i < s.variable_ordering.length
    · rw [List.get?_append hi] at hw
      exact hs.reg_ids i w hw
    · by_cases hieq : i = s.variable_ordering.length
      · subst hieq
        rw [List.get?_concat_length] at hw
        cases Option.some.inj hw
        exact hvc
      · rw [List.get?_eq_none.mpr (by rw [List.length_append]; simp; omega)]
          at hw
        cases hw
  · rw [List.length_append]
    simp only [List.length_singleton]
    omega

/-- `create_variable_node` preserves the store invariants and returns the
indicator node of the new variable. -/
theorem create_variable_node_spec {s : BDD} {name : String} {prim : Bool}
    {r : Nat} {s2 : BDD}
    (hs : StoreInv s) (hvc : s.var_id = s.variable_ordering.length)
    (h : s.create_variable_node name prim = (r, s2)) :
    StoreInv s2 ∧ s2.var_id = s2.variable_ordering.length ∧
    sOT s2 r := by
  rw [BDD.create_variable_node] at h
  cases hcv : s.create_variable name prim with
  | mk v s1 =>
  rw [hcv] at h
  obtain ⟨hs1, hvc1, hvid, hord, hntr, hvar, hrtn, hnid⟩ :=
    create_variable_spec hs hvc hcv
  have hoh : ∀ L, lookupA get_one_node s1.node_to_var_id = some L →
      Lvl.natLt v.var_id L = true := by
    intro L hL
    have hL1 : lookupA (1 : Nat) s1.node_to_var_id = some L := hL
    rw [hs1.var_one] at hL1
    cases Option.some.inj hL1
    rfl
  have hol : ∀ L, lookupA get_zero_node s1.node_to_var_id = some L →
      Lvl.natLt v.var_id L = true := by
    intro L hL
    have hL0 : lookupA (0 : Nat) s1.node_to_var_id = some L := hL
    rw [hs1.var_zero] at hL0
    cases Option.some.inj hL0
    rfl
  have hvlen : v.var_id < s1.variable_ordering.length := by
    rw [hord, List.length_append, hvid]
    simp
  obtain ⟨hs2, he2, hr2, _, _, _, _, _, _⟩ :=
    make_spec hs1 (sOT_one s1) (sOT_zero s1) hoh hol hvlen h
  refine ⟨hs2, ?_, hr2⟩
  have hvid2 : s2.var_id = s1.var_id := by
    simp only [node_from_variable, BDD.make] at h
    by_cases hhl : get_one_node = get_zero_node
    · rw [if_pos hhl] at h
      injection h with h1 h2
      rw [← h2]
    · rw [if_neg hhl] at h
      cases hfind : lookupA (v.var_id, get_one_node, get_zero_node)
          s1.row_to_node with
      | some m =>
        rw [hfind] at h
        injection h with h1 h2
        rw [← h2]
      | none =>
        rw [hfind] at h
        injection h with h1 h2
        rw [← h2]
  rw [he2.1, ← hvc1, hvid2]

theorem capL_le (s : BDD) (n : Nat) :
    capL s n ≤ s.variable_ordering.length := by
  cases hL : lookupA n s.node_to_var_id with
  | none => simp [capL, hL]
  | some L =>
    cases L with
    | fin k =>
      simp only [capL, hL]
      exact Nat.min_le_right _ _
    | inf => simp [capL, hL]

theorem capL_terminal {s : BDD} (hs : StoreInv s) {n : Nat} (hn : sOT s n)
    (h : s.variable_ordering.length ≤ capL s n) :
    n = get_zero_node ∨ n = get_one_node := by
  rcases hn with h0 | h0 | h0
  · exact Or.inl h0
  · exact Or.inr h0
  · exfalso
    rw [Option.isSome_iff_exists] at h0
    obtain ⟨⟨v, n1, n0⟩, hrow⟩ := h0
    have hvar := hs.var_of_row _ (lookupA_eq_some_mem hrow)
    simp only at hvar
    have hlt := hs.var_lt_len _ (lookupA_eq_some_mem hrow)
    simp only at hlt
    simp only [capL, hvar] at h
    omega

theorem capL_child {s : BDD} {n : Nat} {L : Lvl} {k : Nat}
    (hL : lookupA n s.node_to_var_id = some L)
    (hlt : Lvl.natLt k L = true) :
    min (k + 1) s.variable_ordering.length ≤ capL s n := by
  cases L with
  | inf =>
    simp only [capL, hL]
    exact Nat.min_le_right _ _
  | fin m =>
    simp only [capL, hL]
    simp only [Lvl.natLt, decide_eq_true_eq] at hlt
    omega

theorem capL_ext {s t : BDD} (hs : StoreInv s) (he : StoreExt s t)
    {n : Nat} (hn : sOT s n) : capL t n = capL s n := by
  obtain ⟨L, hL⟩ := lvl_of_sOT hs hn
  have hLt : lookupA n t.node_to_var_id = some L := he.2.2.2.1 _ _ hL
  cases L with
  | fin k => simp only [capL, hL, hLt, he.1]
  | inf => simp only [capL, hL, hLt, he.1]

theorem capL_opd_le {s : BDD} {n : Nat} {mid : Nat}
    (hL : lookupA n s.node_to_var_id = some (Lvl.fin mid)) :
    capL s n ≤ mid := by
  simp only [capL, hL]
  exact Nat.min_le_left _ _

theorem lvl_inf_terminal {s : BDD} (hs : StoreInv s) {n : Nat}
    (hn : sOT s n) (hL : lookupA n s.node_to_var_id = some Lvl.inf) :
    n = get_zero_node ∨ n = get_one_node := by
  rcases hn with h0 | h0 | h0
  · exact Or.inl h0
  · exact Or.inr h0
  · exfalso
    rw [Option.isSome_iff_exists] at h0
    obtain ⟨⟨v, n1, n0⟩, hrow⟩ := h0
    have hvar := hs.var_of_row _ (lookupA_eq_some_mem hrow)
    simp only at hvar
    rw [hL] at hvar
    cases hvar

theorem lvl_fin_lt_len {s : BDD} (hs : StoreInv s) {n k : Nat}
    (hn : sOT s n) (hL : lookupA n s.node_to_var_id = some (Lvl.fin k)) :
    k < s.variable_ordering.length := by
  rcases hn with h0 | h0 | h0
  · subst h0
    have hL0 : lookupA (0 : Nat) s.node_to_var_id = some (Lvl.fin k) := hL
    rw [hs.var_zero] at hL0
    cases hL0
  · subst h0
    have hL1 : lookupA (1 : Nat) s.node_to_var_id = some (Lvl.fin k) := hL
    rw [hs.var_one] at hL1
    cases hL1
  · rw [Option.isSome_iff_exists] at h0
    obtain ⟨⟨v, n1, n0⟩, hrow⟩ := h0
    have hvar := hs.var_of_row _ (lookupA_eq_some_mem hrow)
    simp only at hvar
    rw [hL] at hvar
    cases Option.some.inj hvar
    exact hs.var_lt_len _ (lookupA_eq_some_mem hrow)

/-- `ite` always terminates when given at least as much fuel as the
number of variable levels left below its operands. -/
theorem iteF_term : ∀ (fuel : Nat) (s : BDD) (a b c : Nat),
    WF s → sOT s a → sOT s b → sOT s c →
    s.variable_ordering.length ≤
      fuel + min (capL s a) (min (capL s b) (capL s c)) →
    (iteF fuel s a b c).isSome = true := by
  intro fuel
  induction fuel with
  | zero =>
    intro s a b c hw ha hb hc hfuel
    cases hres : iteF 0 s a b c with
    | some p => rfl
    | none =>
    exfalso
    have hca := capL_le s a
    have haT : a = get_zero_node ∨ a = get_one_node :=
      capL_terminal hw.store ha (by omega)
    simp only [iteF] at hres
    cases hcache : lookupA (a, b, c) s.ite_cache with
    | some r => rw [hcache] at hres; cases hres
    | none =>
      rw [hcache] at hres
      by_cases haO : a = get_one_node
      · rw [if_pos haO] at hres; cases hres
      · rw [if_neg haO] at hres
        by_cases haZ : a = get_zero_node
        · rw [if_pos haZ] at hres; cases hres
        · rcases haT with h0 | h0
          · exact haZ h0
          · exact haO h0
  | succ fuel ih =>
    intro s a b c hw ha hb hc hfuel
    cases hres : iteF (fuel + 1) s a b c with
    | some p => rfl
    | none =>
    exfalso
    simp only [iteF] at hres
    cases hcache : lookupA (a, b, c) s.ite_cache with
    | some r => rw [hcache] at hres; cases hres
    | none =>
    rw [hcache] at hres
    by_cases haO : a = get_one_node
    · rw [if_pos haO] at hres; cases hres
    · rw [if_neg haO] at hres
      by_cases haZ : a = get_zero_node
      · rw [if_pos haZ] at hres; cases hres
      · rw [if_neg haZ] at hres
        rcases ha with h0 | h0 | h0
        · exact haZ h0
        · exact haO h0
        · rw [Option.isSome_iff_exists] at h0
          obtain ⟨⟨v, n1, n0⟩, hrow⟩ := h0
          have ha' : sOT s a := sOT_of_row hrow
          have hla : lookupA a s.node_to_var_id = some (Lvl.fin v) := by
            have := hw.store.var_of_row _ (lookupA_eq_some_mem hrow)
            simpa using this
          obtain ⟨lb, hlb⟩ := lvl_of_sOT hw.store hb
          obtain ⟨lc, hlc⟩ := lvl_of_sOT hw.store hc
          simp only [hla, hlb, hlc] at hres
          obtain ⟨mid, hminEq⟩ : ∃ mid,
              Lvl.minL (Lvl.fin v) (Lvl.minL lb lc) = Lvl.fin mid := by
            cases hmm : Lvl.minL lb lc with
            | fin m => exact ⟨min v m, rfl⟩
            | inf => exact ⟨v, rfl⟩
          rw [hminEq] at hres
          simp only [Lvl.idx] at hres
          have hmidv : mid ≤ v := by
            have := Lvl.minL_le_left (Lvl.fin v) (Lvl.minL lb lc)
            rw [hminEq] at this
            simp only [Lvl.leL, decide_eq_true_eq] at this
            exact this
          have hvlen : v < s.variable_ordering.length :=
            hw.store.var_lt_len _ (lookupA_eq_some_mem hrow)
          have hmidlen : mid < s.variable_ordering.length := by omega
          rw [List.get?_eq_get hmidlen] at hres
          set mv := s.variable_ordering.get ⟨mid, hmidlen⟩ with hmvdef
          have hmv : s.variable_ordering.get? mid = some mv :=
            List.get?_eq_get hmidlen
          have hvid : mv.var_id = mid := hw.store.reg_ids mid mv hmv
          have hvle_a : ∀ L, lookupA a s.node_to_var_id = some L →
              Lvl.leL (Lvl.fin mv.var_id) L = true := by
            intro L hL
            cases lookup_det hla hL
            rw [hvid]
            simp only [Lvl.leL, decide_eq_true_eq]
            exact hmidv
          have hvle_b : ∀ L, lookupA b s.node_to_var_id = some L →
              Lvl.leL (Lvl.fin mv.var_id) L = true := by
            intro L hL
            cases lookup_det hlb hL
            rw [hvid, ← hminEq]
            exact min3_le_b _ _ _
          have hvle_c : ∀ L, lookupA c s.node_to_var_id = some L →
              Lvl.leL (Lvl.fin mv.var_id) L = true := by
            intro L hL
            cases lookup_det hlc hL
            rw [hvid, ← hminEq]
            exact min3_le_c _ _ _
          obtain ⟨a1, a0, hcofa⟩ := cof_total hw.store ha' mv.var_id
          obtain ⟨b1, b0, hcofb⟩ := cof_total hw.store hb mv.var_id
          obtain ⟨c1, c0, hcofc⟩ := cof_total hw.store hc mv.var_id
          simp only [hcofa, hcofb, hcofc] at hres
          obtain ⟨hA1, hA0, hLa1, hLa0, _⟩ :=
            cof_spec hw.store ha' hvle_a hcofa
          obtain ⟨hB1, hB0, hLb1, hLb0, _⟩ :=
            cof_spec hw.store hb hvle_b hcofb
          obtain ⟨hC1, hC0, hLc1, hLc0, _⟩ :=
            cof_spec hw.store hc hvle_c hcofc
          have hcapChild : ∀ x, sOT s x →
              (∀ L, lookupA x s.node_to_var_id = some L →
                Lvl.natLt mv.var_id L = true) →
              min (mid + 1) s.variable_ordering.length ≤ capL s x := by
            intro x hx hLx
            obtain ⟨Lx, hLxe⟩ := lvl_of_sOT hw.store hx
            have := capL_child hLxe (hLx _ hLxe)
            rw [hvid] at this
            exact this
          have hca1 := hcapChild a1 hA1 hLa1
          have hca0 := hcapChild a0 hA0 hLa0
          have hcb1 := hcapChild b1 hB1 hLb1
          have hcb0 := hcapChild b0 hB0 hLb0
          have hcc1 := hcapChild c1 hC1 hLc1
          have hcc0 := hcapChild c0 hC0 hLc0
          have hcap3 : min (capL s a) (min (capL s b) (capL s c)) ≤ mid := by
            rcases Lvl.minL_cases (Lvl.fin v) (Lvl.minL lb lc) with hc1 | hc1
            · have hveq : v = mid := by
                cases hc1.symm.trans hminEq
                rfl
              have hla' := hla
              rw [hveq] at hla'
              have := capL_opd_le (s := s) hla'
              omega
            · rw [hc1] at hminEq
              rcases Lvl.minL_cases lb lc with hc2 | hc2
              · rw [hc2] at hminEq
                subst hminEq
                have := capL_opd_le (s := s) hlb
                omega
              · rw [hc2] at hminEq
                subst hminEq
                have := capL_opd_le (s := s) hlc
                omega
          have hrec1 := ih s a1 b1 c1 hw hA1 hB1 hC1 (by omega)
          rw [Option.isSome_iff_exists] at hrec1
          obtain ⟨⟨w1, s1⟩, hrec1e⟩ := hrec1
          simp only [hrec1e] at hres
          obtain ⟨hw1, he1, _, _, _, _⟩ :=
            iteF_spec fuel s a1 b1 c1 w1 s1 hw hA1 hB1 hC1 hrec1e
          have hb2 : s1.variable_ordering.length ≤
              fuel + min (capL s1 a0) (min (capL s1 b0) (capL s1 c0)) := by
            rw [he1.1, capL_ext hw.store he1 hA0, capL_ext hw.store he1 hB0,
              capL_ext hw.store he1 hC0]
            omega
          have hrec2 := ih s1 a0 b0 c0 hw1 (sOT_ext he1 hA0)
            (sOT_ext he1 hB0) (sOT_ext he1 hC0) hb2
          rw [Option.isSome_iff_exists] at hrec2
          obtain ⟨⟨w0, s2⟩, hrec2e⟩ := hrec2
          simp only [hrec2e] at hres
          by_cases hwe : w0 = w1
          · rw [if_pos hwe] at hres; cases hres
          · rw [if_neg hwe] at hres
            cases hmk : s2.make mv.var_id w1 w0 with
            | mk r3 s3 =>
            simp only [hmk] at hres
            cases hres

/-- `conjunction` always terminates when given at least as much fuel as
the number of variable levels left below its operands. -/
theorem conjF_term : ∀ (fuel : Nat) (s : BDD) (a b : Nat),
    WF s → sOT s a → sOT s b →
    s.variable_ordering.length ≤ fuel + min (capL s a) (capL s b) →
    (conjF fuel s a b).isSome = true := by
  intro fuel
  induction fuel with
  | zero =>
    intro s a b hw ha hb hfuel
    cases hres : conjF 0 s a b with
    | some p => rfl
    | none =>
    exfalso
    have hca := capL_le s a
    have hcb := capL_le s b
    have haT : a = get_zero_node ∨ a = get_one_node :=
      capL_terminal hw.store ha (by omega)
    have hbT : b = get_zero_node ∨ b = get_one_node :=
      capL_terminal hw.store hb (by omega)
    simp only [conjF] at hres
    cases hcache : lookupA (a, b) s.and_cache with
    | some r => rw [hcache] at hres; cases hres
    | none =>
      rw [hcache] at hres
      by_cases h0 : a = get_zero_node ∨ b = get_zero_node
      · rw [if_pos h0] at hres; cases hres
      · rw [if_neg h0] at hres
        by_cases h1 : a = b ∧ a = get_one_node
        · rw [if_pos h1] at hres; cases hres
        · rcases haT with hA | hA
          · exact h0 (Or.inl hA)
          · rcases hbT with hB | hB
            · exact h0 (Or.inr hB)
            · exact h1 ⟨hA.trans hB.symm, hA⟩
  | succ fuel ih =>
    intro s a b hw ha hb hfuel
    cases hres : conjF (fuel + 1) s a b with
    | some p => rfl
    | none =>
    exfalso
    simp only [conjF] at hres
    cases hcache : lookupA (a, b) s.and_cache with
    | some r => rw [hcache] at hres; cases hres
    | none =>
    rw [hcache] at hres
    by_cases h0 : a = get_zero_node ∨ b = get_zero_node
    · rw [if_pos h0] at hres; cases hres
    · rw [if_neg h0] at hres
      by_cases h1 : a = b ∧ a = get_one_node
      · rw [if_pos h1] at hres; cases hres
      · rw [if_neg h1] at hres
        obtain ⟨la, hla⟩ := lvl_of_sOT hw.store ha
        obtain ⟨lb, hlb⟩ := lvl_of_sOT hw.store hb
        simp only [hla, hlb] at hres
        obtain ⟨mid, hminEq⟩ : ∃ mid, Lvl.minL la lb = Lvl.fin mid := by
          cases hla' : la with
          | fin ka =>
            cases lb with
            | fin kb => exact ⟨min ka kb, rfl⟩
            | inf => exact ⟨ka, rfl⟩
          | inf =>
            have haT := lvl_inf_terminal hw.store ha (by
              rw [← hla']; exact hla)
            rcases haT with hA | hA
            · exact absurd (Or.inl hA) h0
            · cases hlb' : lb with
              | fin kb => exact ⟨kb, rfl⟩
              | inf =>
                have hbT := lvl_inf_terminal hw.store hb (by
                  rw [← hlb']; exact hlb)
                rcases hbT with hB | hB
                · exact absurd (Or.inr hB) h0
                · exact absurd ⟨hA.trans hB.symm, hA⟩ h1
        rw [hminEq] at hres
        simp only [Lvl.idx] at hres
        have hmidlen : mid < s.variable_ordering.length := by
          rcases Lvl.minL_cases la lb with hc | hc
          · rw [hc] at hminEq
            subst hminEq
            exact lvl_fin_lt_len hw.store ha hla
          · rw [hc] at hminEq
            subst hminEq
            exact lvl_fin_lt_len hw.store hb hlb
        rw [List.get?_eq_get hmidlen] at hres
        set mv := s.variable_ordering.get ⟨mid, hmidlen⟩ with hmvdef
        have hmv : s.variable_ordering.get? mid = some mv :=
          List.get?_eq_get hmidlen
        have hvid : mv.var_id = mid := hw.store.reg_ids mid mv hmv
        have hvle_a : ∀ L, lookupA a s.node_to_var_id = some L →
            Lvl.leL (Lvl.fin mv.var_id) L = true := by
          intro L hL
          cases lookup_det hla hL
          rw [hvid, ← hminEq]
          exact Lvl.minL_le_left _ _
        have hvle_b : ∀ L, lookupA b s.node_to_var_id = some L →
            Lvl.leL (Lvl.fin mv.var_id) L = true := by
          intro L hL
          cases lookup_det hlb hL
          rw [hvid, ← hminEq]
          exact Lvl.minL_le_right _ _
        obtain ⟨a1, a0, hcofa⟩ := cof_total hw.store ha mv.var_id
        obtain ⟨b1, b0, hcofb⟩ := cof_total hw.store hb mv.var_id
        simp only [hcofa, hcofb] at hres
        obtain ⟨hA1, hA0, hLa1, hLa0, _⟩ :=
          cof_spec hw.store ha hvle_a hcofa
        obtain ⟨hB1, hB0, hLb1, hLb0, _⟩ :=
          cof_spec hw.store hb hvle_b hcofb
        have hcapChild : ∀ x, sOT s x →
            (∀ L, lookupA x s.node_to_var_id = some L →
              Lvl.natLt mv.var_id L = true) →
            min (mid + 1) s.variable_ordering.length ≤ capL s x := by
          intro x hx hLx
          obtain ⟨Lx, hLxe⟩ := lvl_of_sOT hw.store hx
          have := capL_child hLxe (hLx _ hLxe)
          rw [hvid] at this
          exact this
        have hca1 := hcapChild a1 hA1 hLa1
        have hca0 := hcapChild a0 hA0 hLa0
        have hcb1 := hcapChild b1 hB1 hLb1
        have hcb0 := hcapChild b0 hB0 hLb0
        have hcap2 : min (capL s a) (capL s b) ≤ mid := by
          rcases Lvl.minL_cases la lb with hc | hc
          · rw [hc] at hminEq
            subst hminEq
            have := capL_opd_le (s := s) hla
            omega
          · rw [hc] at hminEq
            subst hminEq
            have := capL_opd_le (s := s) hlb
            omega
        have hrec1 := ih s a1 b1 hw hA1 hB1 (by omega)
        rw [Option.isSome_iff_exists] at hrec1
        obtain ⟨⟨w1, s1⟩, hrec1e⟩ := hrec1
        simp only [hrec1e] at hres
        obtain ⟨hw1, he1, _, _, _, _⟩ :=
          conjF_spec fuel s a1 b1 w1 s1 hw hA1 hB1 hrec1e
        have hb2 : s1.variable_ordering.length ≤
            fuel + min (capL s1 a0) (capL s1 b0) := by
          rw [he1.1, capL_ext hw.store he1 hA0, capL_ext hw.store he1 hB0]
          omega
        have hrec2 := ih s1 a0 b0 hw1 (sOT_ext he1 hA0)
          (sOT_ext he1 hB0) hb2
        rw [Option.isSome_iff_exists] at hrec2
        obtain ⟨⟨w0, s2⟩, hrec2e⟩ := hrec2
        simp only [hrec2e] at hres
        cases hmk : s2.make mv.var_id w1 w0 with
        | mk r3 s3 =>
        simp only [hmk] at hres
        cases hres

/-- `disjunction` always terminates when given at least as much fuel as
the number of variable levels left below its operands. -/
theorem disjF_term : ∀ (fuel : Nat) (s : BDD) (a b : Nat),
    WF s → sOT s a → sOT s b →
    s.variable_ordering.length ≤ fuel + min (capL s a) (capL s b) →
    (disjF fuel s a b).isSome = true := by
  intro fuel
  induction fuel with
  | zero =>
    intro s a b hw ha hb hfuel
    cases hres : disjF 0 s a b with
    | some p => rfl
    | none =>
    exfalso
    have hca := capL_le s a
    have hcb := capL_le s b
    have haT : a = get_zero_node ∨ a = get_one_node :=
      capL_terminal hw.store ha (by omega)
    have hbT : b = get_zero_node ∨ b = get_one_node :=
      capL_terminal hw.store hb (by omega)
    simp only [disjF] at hres
    cases hcache : lookupA (a, b) s.or_cache with
    | some r => rw [hcache] at hres; cases hres
    | none =>
      rw [hcache] at hres
      by_cases h0 : a = get_one_node ∨ b = get_one_node
      · rw [if_pos h0] at hres; cases hres
      · rw [if_neg h0] at hres
        by_cases h1 : a = b ∧ a = get_zero_node
        · rw [if_pos h1] at hres; cases hres
        · rcases haT with hA | hA
          · rcases hbT with hB | hB
            · exact h1 ⟨hA.trans hB.symm, hA⟩
            · exact h0 (Or.inr hB)
          · exact h0 (Or.inl hA)
  | succ fuel ih =>
    intro s a b hw ha hb hfuel
    cases hres : disjF (fuel + 1) s a b with
    | some p => rfl
    | none =>
    exfalso
    simp only [disjF] at hres
    cases hcache : lookupA (a, b) s.or_cache with
    | some r => rw [hcache] at hres; cases hres
    | none =>
    rw [hcache] at hres
    by_cases h0 : a = get_one_node ∨ b = get_one_node
    · rw [if_pos h0] at hres; cases hres
    · rw [if_neg h0] at hres
      by_cases h1 : a = b ∧ a = get_zero_node
      · rw [if_pos h1] at hres; cases hres
      · rw [if_neg h1] at hres
        obtain ⟨la, hla⟩ := lvl_of_sOT hw.store ha
        obtain ⟨lb, hlb⟩ := lvl_of_sOT hw.store hb
        simp only [hla, hlb] at hres
        obtain ⟨mid, hminEq⟩ : ∃ mid, Lvl.minL la lb = Lvl.fin mid := by
          cases hla' : la with
          | fin ka =>
            cases lb with
            | fin kb => exact ⟨min ka kb, rfl⟩
            | inf => exact ⟨ka, rfl⟩
          | inf =>
            have haT := lvl_inf_terminal hw.store ha (by
              rw [← hla']; exact hla)
            rcases haT with hA | hA
            · cases hlb' : lb with
              | fin kb => exact ⟨kb, rfl⟩
              | inf =>
                have hbT := lvl_inf_terminal hw.store hb (by
                  rw [← hlb']; exact hlb)
                rcases hbT with hB | hB
                · exact absurd ⟨hA.trans hB.symm, hA⟩ h1
                · exact absurd (Or.inr hB) h0
            · exact absurd (Or.inl hA) h0
        rw [hminEq] at hres
        simp only [Lvl.idx] at hres
        have hmidlen : mid < s.variable_ordering.length := by
          rcases Lvl.minL_cases la lb with hc | hc
          · rw [hc] at hminEq
            subst hminEq
            exact lvl_fin_lt_len hw.store ha hla
          · rw [hc] at hminEq
            subst hminEq
            exact lvl_fin_lt_len hw.store hb hlb
        rw [List.get?_eq_get hmidlen] at hres
        set mv := s.variable_ordering.get ⟨mid, hmidlen⟩ with hmvdef
        have hmv : s.variable_ordering.get? mid = some mv :=
          List.get?_eq_get hmidlen
        have hvid : mv.var_id = mid := hw.store.reg_ids mid mv hmv
        have hvle_a : ∀ L, lookupA a s.node_to_var_id = some L →
            Lvl.leL (Lvl.fin mv.var_id) L = true := by
          intro L hL
          cases lookup_det hla hL
          rw [hvid, ← hminEq]
          exact Lvl.minL_le_left _ _
        have hvle_b : ∀ L, lookupA b s.node_to_var_id = some L →
            Lvl.leL (Lvl.fin mv.var_id) L = true := by
          intro L hL
          cases lookup_det hlb hL
          rw [hvid, ← hminEq]
          exact Lvl.minL_le_right _ _
        obtain ⟨a1, a0, hcofa⟩ := cof_total hw.store ha mv.var_id
        obtain ⟨b1, b0, hcofb⟩ := cof_total hw.store hb mv.var_id
        simp only [hcofa, hcofb] at hres
        obtain ⟨hA1, hA0, hLa1, hLa0, _⟩ :=
          cof_spec hw.store ha hvle_a hcofa
        obtain ⟨hB1, hB0, hLb1, hLb0, _⟩ :=
          cof_spec hw.store hb hvle_b hcofb
        have hcapChild : ∀ x, sOT s x →
            (∀ L, lookupA x s.node_to_var_id = some L →
              Lvl.natLt mv.var_id L = true) →
            min (mid + 1) s.variable_ordering.length ≤ capL s x := by
          intro x hx hLx
          obtain ⟨Lx, hLxe⟩ := lvl_of_sOT hw.store hx
          have := capL_child hLxe (hLx _ hLxe)
          rw [hvid] at this
          exact this
        have hca1 := hcapChild a1 hA1 hLa1
        have hca0 := hcapChild a0 hA0 hLa0
        have hcb1 := hcapChild b1 hB1 hLb1
        have hcb0 := hcapChild b0 hB0 hLb0
        have hcap2 : min (capL s a) (capL s b) ≤ mid := by
          rcases Lvl.minL_cases la lb with hc | hc
          · rw [hc] at hminEq
            subst hminEq
            have := capL_opd_le (s := s) hla
            omega
          · rw [hc] at hminEq
            subst hminEq
            have := capL_opd_le (s := s) hlb
            omega
        have hrec1 := ih s a1 b1 hw hA1 hB1 (by omega)
        rw [Option.isSome_iff_exists] at hrec1
        obtain ⟨⟨w1, s1⟩, hrec1e⟩ := hrec1
        simp only [hrec1e] at hres
        obtain ⟨hw1, he1, _, _, _, _, _⟩ :=
          disjF_spec fuel s a1 b1 w1 s1 hw hA1 hB1 hrec1e
        have hb2 : s1.variable_ordering.length ≤
            fuel + min (capL s1 a0) (capL s1 b0) := by
          rw [he1.1, capL_ext hw.store he1 hA0, capL_ext hw.store he1 hB0]
          omega
        have hrec2 := ih s1 a0 b0 hw1 (sOT_ext he1 hA0)
          (sOT_ext he1 hB0) hb2
        rw [Option.isSome_iff_exists] at hrec2
        obtain ⟨⟨w0, s2⟩, hrec2e⟩ := hrec2
        simp only [hrec2e] at hres
        cases hmk : s2.make mv.var_id w1 w0 with
        | mk r3 s3 =>
        simp only [hmk] at hres
        cases hres

/-- `pre_image` always terminates on interleaved registries when the
target set is written over the unprimed variables, with fuel at least the
number of variable levels left below its operands. -/
theorem preF_term : ∀ (fuel : Nat) (s : BDD) (a b : Nat),
    WF s → PreOk s → Interleaved s → sOT s a → sOT s b → EvenSupp s b →
    s.variable_ordering.length ≤ fuel + min (capL s a) (capL s b) →
    (preF fuel s a b).isSome = true := by
  intro fuel
  induction fuel with
  | zero =>
    intro s a b hw hp hint ha hb hevb hfuel
    cases hres : preF 0 s a b with
    | some p => rfl
    | none =>
    exfalso
    have hca := capL_le s a
    have hcb := capL_le s b
    have haT : a = get_zero_node ∨ a = get_one_node :=
      capL_terminal hw.store ha (by omega)
    have hbT : b = get_zero_node ∨ b = get_one_node :=
      capL_terminal hw.store hb (by omega)
    simp only [preF] at hres
    cases hcache : lookupA (a, b) s.pre_cache with
    | some r => rw [hcache] at hres; cases hres
    | none =>
      rw [hcache] at hres
      by_cases h0 : a = get_zero_node ∨ b = get_zero_node
      · rw [if_pos h0] at hres; cases hres
      · rw [if_neg h0] at hres
        by_cases h1c : a = get_one_node ∧ b = get_one_node
        · rw [if_pos h1c] at hres; cases hres
        · rcases haT with hA | hA
          · exact h0 (Or.inl hA)
          · rcases hbT with hB | hB
            · exact h0 (Or.inr hB)
            · exact h1c ⟨hA, hB⟩
  | succ fuel ih =>
    intro s a b hw hp hint ha hb hevb hfuel
    cases hres : preF (fuel + 1) s a b with
    | some p => rfl
    | none =>
    exfalso
    simp only [preF] at hres
    cases hcache : lookupA (a, b) s.pre_cache with
    | some r => rw [hcache] at hres; cases hres
    | none =>
    rw [hcache] at hres
    by_cases h0 : a = get_zero_node ∨ b = get_zero_node
    · rw [if_pos h0] at hres; cases hres
    · rw [if_neg h0] at hres
      by_cases h1c : a = get_one_node ∧ b = get_one_node
      · rw [if_pos h1c] at hres; cases hres
      · rw [if_neg h1c] at hres
        obtain ⟨la, hla⟩ := lvl_of_sOT hw.store ha
        obtain ⟨lb, hlb⟩ := lvl_of_sOT hw.store hb
        simp only [hla, hlb] at hres
        obtain ⟨mid, hminEq⟩ : ∃ mid, Lvl.minL la lb = Lvl.fin mid := by
          cases hla' : la with
          | fin ka =>
            cases lb with
            | fin kb => exact ⟨min ka kb, rfl⟩
            | inf => exact ⟨ka, rfl⟩
          | inf =>
            have haT := lvl_inf_terminal hw.store ha (by
              rw [← hla']; exact hla)
            rcases haT with hA | hA
            · exact absurd (Or.inl hA) h0
            · cases hlb' : lb with
              | fin kb => exact ⟨kb, rfl⟩
              | inf =>
                have hbT := lvl_inf_terminal hw.store hb (by
                  rw [← hlb']; exact hlb)
                rcases hbT with hB | hB
                · exact absurd (Or.inr hB) h0
                · exact absurd ⟨hA, hB⟩ h1c
        rw [hminEq] at hres
        simp only [Lvl.idx] at hres
        have hmidlen : mid < s.variable_ordering.length := by
          rcases Lvl.minL_cases la lb with hc | hc
          · rw [hc] at hminEq
            subst hminEq
            exact lvl_fin_lt_len hw.store ha hla
          · rw [hc] at hminEq
            subst hminEq
            exact lvl_fin_lt_len hw.store hb hlb
        simp only [List.get?_eq_get hmidlen] at hres
        set mv := s.variable_ordering.get ⟨mid, hmidlen⟩ with hmvdef
        have hmv : s.variable_ordering.get? mid = some mv :=
          List.get?_eq_get hmidlen
        have hvid : mv.var_id = mid := hw.store.reg_ids mid mv hmv
        have hvle_a : ∀ L, lookupA a s.node_to_var_id = some L →
            Lvl.leL (Lvl.fin mv.var_id) L = true := by
          intro L hL
          cases lookup_det hla hL
          rw [hvid, ← hminEq]
          exact Lvl.minL_le_left _ _
        have hvle_b : ∀ L, lookupA b s.node_to_var_id = some L →
            Lvl.leL (Lvl.fin mv.var_id) L = true := by
          intro L hL
          cases lookup_det hlb hL
          rw [hvid, ← hminEq]
          exact Lvl.minL_le_right _ _
        have hlebB : Lvl.leL (Lvl.fin mid) lb = true := by
          rw [← hminEq]
          exact Lvl.minL_le_right _ _
        have hcap2 : min (capL s a) (capL s b) ≤ mid := by
          rcases Lvl.minL_cases la lb with hc | hc
          · rw [hc] at hminEq
            subst hminEq
            have := capL_opd_le (s := s) hla
            omega
          · rw [hc] at hminEq
            subst hminEq
            have := capL_opd_le (s := s) hlb
            omega
        have hcapChild : ∀ x, sOT s x →
            (∀ L, lookupA x s.node_to_var_id = some L →
              Lvl.natLt mv.var_id L = true) →
            min (mid + 1) s.variable_ordering.length ≤ capL s x := by
          intro x hx hLx
          obtain ⟨Lx, hLxe⟩ := lvl_of_sOT hw.store hx
          have := capL_child hLxe (hLx _ hLxe)
          rw [hvid] at this
          exact this
        by_cases hprim : mv.is_primed = true
        · rw [if_pos hprim] at hres
          have hmidOdd : mid % 2 = 1 := by
            have h2 := hint.2 mid mv hmv
            rw [hprim] at h2
            exact of_decide_eq_true h2.symm
          obtain ⟨a1, a0, hcofa⟩ := cof_total hw.store ha mv.var_id
          rw [hcofa] at hres
          obtain ⟨hA1, hA0, hLa1, hLa0, _⟩ :=
            cof_spec hw.store ha hvle_a hcofa
          have hca1 := hcapChild a1 hA1 hLa1
          have hca0 := hcapChild a0 hA0 hLa0
          have hlbStrict : Lvl.natLt mv.var_id lb = true := by
            cases hlb' : lb with
            | inf => rfl
            | fin kb =>
              have hkbE : kb % 2 = 0 := by
                refine evensupp_lvl_even hw.store hevb ?_
                rw [← hlb']
                exact hlb
              rw [hlb'] at hlebB
              simp only [Lvl.leL, decide_eq_true_eq] at hlebB
              simp only [Lvl.natLt, decide_eq_true_eq]
              rw [hvid]
              omega
          have hcbB : min (mid + 1) s.variable_ordering.length ≤
              capL s b := by
            have := capL_child hlb hlbStrict
            rw [hvid] at this
            exact this
          have hrec1 := ih s a1 b hw hp hint hA1 hb hevb (by omega)
          rw [Option.isSome_iff_exists] at hrec1
          obtain ⟨⟨w1, s1⟩, hrec1e⟩ := hrec1
          simp only [hrec1e] at hres
          obtain ⟨hw1, hp1, he1, hrW1, hevW1, hlvl1, _⟩ :=
            preF_spec fuel s a1 b w1 s1 hw hp hint hA1 hb hevb hrec1e
          have hb2 : s1.variable_ordering.length ≤
              fuel + min (capL s1 a0) (capL s1 b) := by
            rw [he1.1, capL_ext hw.store he1 hA0, capL_ext hw.store he1 hb]
            omega
          have hrec2 := ih s1 a0 b hw1 hp1 ((interleaved_ext he1).mp hint)
            (sOT_ext he1 hA0) (sOT_ext he1 hb)
            (evensupp_ext hw.store hw1.store he1 hb hevb) hb2
          rw [Option.isSome_iff_exists] at hrec2
          obtain ⟨⟨w0, s2⟩, hrec2e⟩ := hrec2
          simp only [hrec2e] at hres
          obtain ⟨hw2, hp2, he2, hrW0, hevW0, hlvl2, _⟩ :=
            preF_spec fuel s1 a0 b w0 s2 hw1 hp1
              ((interleaved_ext he1).mp hint) (sOT_ext he1 hA0)
              (sOT_ext he1 hb)
              (evensupp_ext hw.store hw1.store he1 hb hevb) hrec2e
          have hrW1s2 : sOT s2 w1 := sOT_ext he2 hrW1
          have hcapW1 : min (mid + 1) s2.variable_ordering.length ≤
              capL s2 w1 := by
            obtain ⟨Lw1, hLw1⟩ := lvl_of_sOT hw1.store hrW1
            obtain ⟨La1, hLa1e⟩ := lvl_of_sOT hw.store hA1
            have hlw : Lvl.leL (Lvl.minL La1 lb) Lw1 = true :=
              hlvl1 La1 lb Lw1 hLa1e hlb hLw1
            have hstrict : Lvl.natLt mid Lw1 = true := by
              refine Lvl.natLt_of_lt_of_le ?_ hlw
              refine Lvl.minL_natLt ?_ ?_
              · have := hLa1 _ hLa1e
                rw [hvid] at this
                exact this
              · rw [← hvid]
                exact hlbStrict
            have hLw1s2 : lookupA w1 s2.node_to_var_id = some Lw1 :=
              he2.2.2.2.1 _ _ hLw1
            have := capL_child hLw1s2 hstrict
            rw [he2.1, he1.1] at this ⊢
            exact this
          have hcapW0 : min (mid + 1) s2.variable_ordering.length ≤
              capL s2 w0 := by
            obtain ⟨Lw0, hLw0⟩ := lvl_of_sOT hw2.store hrW0
            obtain ⟨La0, hLa0e⟩ := lvl_of_sOT hw.store hA0
            have hLa0s1 : lookupA a0 s1.node_to_var_id = some La0 :=
              he1.2.2.2.1 _ _ hLa0e
            have hLbs1 : lookupA b s1.node_to_var_id = some lb :=
              he1.2.2.2.1 _ _ hlb
            have hlw : Lvl.leL (Lvl.minL La0 lb) Lw0 = true :=
              hlvl2 La0 lb Lw0 hLa0s1 hLbs1 hLw0
            have hstrict : Lvl.natLt mid Lw0 = true := by
              refine Lvl.natLt_of_lt_of_le ?_ hlw
              refine Lvl.minL_natLt ?_ ?_
              · have := hLa0 _ hLa0e
                rw [hvid] at this
                exact this
              · rw [← hvid]
                exact hlbStrict
            have := capL_child hLw0 hstrict
            rw [he2.1, he1.1] at this ⊢
            exact this
          have hlen2 : s2.variable_ordering.length =
              s.variable_ordering.length := by
            rw [he2.1, he1.1]
          have hrecD := disjF_term fuel s2 w1 w0 hw2 hrW1s2 hrW0 (by
            rw [hlen2] at hcapW1 hcapW0 ⊢
            omega)
          rw [Option.isSome_iff_exists] at hrecD
          obtain ⟨⟨r0, s3⟩, hrecDe⟩ := hrecD
          simp only [hrecDe] at hres
          cases hres
        · rw [if_neg hprim] at hres
          have hprim' : mv.is_primed = false := by
            revert hprim
            cases mv.is_primed <;> simp
          have hmidEven : mid % 2 = 0 := by
            have h2 := hint.2 mid mv hmv
            rw [hprim'] at h2
            have h3 := of_decide_eq_false h2.symm
            omega
          have hmidplen : mid + 1 < s.variable_ordering.length := by
            have hlenE := hint.1
            omega
          simp only [List.get?_eq_get hmidplen] at hres
          set mvp := s.variable_ordering.get ⟨mid + 1, hmidplen⟩
            with hmvpdef
          have hmvp : s.variable_ordering.get? (mid + 1) = some mvp :=
            List.get?_eq_get hmidplen
          have hvidp : mvp.var_id = mid + 1 :=
            hw.store.reg_ids (mid + 1) mvp hmvp
          obtain ⟨a1, a0, hcofa⟩ := cof_total hw.store ha mv.var_id
          obtain ⟨b1, b0, hcofb⟩ := cof_total hw.store hb mv.var_id
          simp only [hcofa, hcofb] at hres
          obtain ⟨hA1, hA0, hLa1, hLa0, _⟩ :=
            cof_spec hw.store ha hvle_a hcofa
          obtain ⟨hB1, hB0, hLb1, hLb0, _⟩ :=
            cof_spec hw.store hb hvle_b hcofb
          have hvle_a1 : ∀ L, lookupA a1 s.node_to_var_id = some L →
              Lvl.leL (Lvl.fin mvp.var_id) L = true := by
            intro L hL
            have := Lvl.succ_le_of_natLt (hLa1 L hL)
            rw [hvid] at this
            rw [hvidp]
            exact this
          have hvle_a0 : ∀ L, lookupA a0 s.node_to_var_id = some L →
              Lvl.leL (Lvl.fin mvp.var_id) L = true := by
            intro L hL
            have := Lvl.succ_le_of_natLt (hLa0 L hL)
            rw [hvid] at this
            rw [hvidp]
            exact this
          obtain ⟨a11, a10, hcofa1⟩ := cof_total hw.store hA1 mvp.var_id
          obtain ⟨a01, a00, hcofa0⟩ := cof_total hw.store hA0 mvp.var_id
          simp only [hcofa1, hcofa0] at hres
          obtain ⟨hA11, hA10, hLa11, hLa10, _⟩ :=
            cof_spec hw.store hA1 hvle_a1 hcofa1
          obtain ⟨hA01, hA00, hLa01, hLa00, _⟩ :=
            cof_spec hw.store hA0 hvle_a0 hcofa0
          obtain ⟨hevB1, hevB0⟩ := cof_evensupp hw.store hcofb hevb
          have hcapA : ∀ x, sOT s x →
              (∀ L, lookupA x s.node_to_var_id = some L →
                Lvl.natLt mvp.var_id L = true) →
              min (mid + 1) s.variable_ordering.length ≤ capL s x := by
            intro x hx hLx
            obtain ⟨Lx, hLxe⟩ := lvl_of_sOT hw.store hx
            have hstep : Lvl.natLt mid Lx = true := by
              refine Lvl.natLt_of_le_of_natLt ?_ (hLx _ hLxe)
              rw [hvidp]
              omega
            exact capL_child hLxe hstep
          have hca11 := hcapA a11 hA11 hLa11
          have hca10 := hcapA a10 hA10 hLa10
          have hca01 := hcapA a01 hA01 hLa01
          have hca00 := hcapA a00 hA00 hLa00
          have hcb1 := hcapChild b1 hB1 hLb1
          have hcb0 := hcapChild b0 hB0 hLb0
          have hrec1 := ih s a10 b0 hw hp hint hA10 hB0 hevB0 (by omega)
          rw [Option.isSome_iff_exists] at hrec1
          obtain ⟨⟨w10, s1⟩, hrec1e⟩ := hrec1
          simp only [hrec1e] at hres
          obtain ⟨hw1, hp1, he1, hrW10, hevW10, hlvl1, _⟩ :=
            preF_spec fuel s a10 b0 w10 s1 hw hp hint hA10 hB0 hevB0
              hrec1e
          have hlen1 : s1.variable_ordering.length =
              s.variable_ordering.length := by rw [he1.1]
          have hb2 : s1.variable_ordering.length ≤
              fuel + min (capL s1 a11) (capL s1 b1) := by
            rw [hlen1, capL_ext hw.store he1 hA11,
              capL_ext hw.store he1 hB1]
            omega
          have hint1 : Interleaved s1 := (interleaved_ext he1).mp hint
          have hevB1s1 : EvenSupp s1 b1 :=
            evensupp_ext hw.store hw1.store he1 hB1 hevB1
          have hrec2 := ih s1 a11 b1 hw1 hp1 hint1 (sOT_ext he1 hA11)
            (sOT_ext he1 hB1) hevB1s1 hb2
          rw [Option.isSome_iff_exists] at hrec2
          obtain ⟨⟨w11, s2⟩, hrec2e⟩ := hrec2
          simp only [hrec2e] at hres
          obtain ⟨hw2, hp2, he2, hrW11, hevW11, hlvl2, _⟩ :=
            preF_spec fuel s1 a11 b1 w11 s2 hw1 hp1 hint1
              (sOT_ext he1 hA11) (sOT_ext he1 hB1) hevB1s1 hrec2e
          have hS2 : StoreExt s s2 := storeExt_trans he1 he2
          have hlen2 : s2.variable_ordering.length =
              s.variable_ordering.length := by rw [he2.1, hlen1]
          have hb3 : s2.variable_ordering.length ≤
              fuel + min (capL s2 a00) (capL s2 b0) := by
            rw [hlen2, capL_ext hw.store hS2 hA00,
              capL_ext hw.store hS2 hB0]
            omega
          have hint2 : Interleaved s2 := (interleaved_ext hS2).mp hint
          have hevB0s2 : EvenSupp s2 b0 :=
            evensupp_ext hw.store hw2.store hS2 hB0 hevB0
          have hrec3 := ih s2 a00 b0 hw2 hp2 hint2 (sOT_ext hS2 hA00)
            (sOT_ext hS2 hB0) hevB0s2 hb3
          rw [Option.isSome_iff_exists] at hrec3
          obtain ⟨⟨w00, s3⟩, hrec3e⟩ := hrec3
          simp only [hrec3e] at hres
          obtain ⟨hw3, hp3, he3, hrW00, hevW00, hlvl3, _⟩ :=
            preF_spec fuel s2 a00 b0 w00 s3 hw2 hp2 hint2
              (sOT_ext hS2 hA00) (sOT_ext hS2 hB0) hevB0s2 hrec3e
          have hS3 : StoreExt s s3 := storeExt_trans hS2 he3
          have hlen3 : s3.variable_ordering.length =
              s.variable_ordering.length := by rw [he3.1, hlen2]
          have hb4 : s3.variable_ordering.length ≤
              fuel + min (capL s3 a01) (capL s3 b1) := by
            rw [hlen3, capL_ext hw.store hS3 hA01,
              capL_ext hw.store hS3 hB1]
            omega
          have hint3 : Interleaved s3 := (interleaved_ext hS3).mp hint
          have hevB1s3 : EvenSupp s3 b1 :=
            evensupp_ext hw.store hw3.store hS3 hB1 hevB1
          have hrec4 := ih s3 a01 b1 hw3 hp3 hint3 (sOT_ext hS3 hA01)
            (sOT_ext hS3 hB1) hevB1s3 hb4
          rw [Option.isSome_iff_exists] at hrec4
          obtain ⟨⟨w01, s4⟩, hrec4e⟩ := hrec4
          simp only [hrec4e] at hres
          obtain ⟨hw4, hp4, he4, hrW01, hevW01, hlvl4, _⟩ :=
            preF_spec fuel s3 a01 b1 w01 s4 hw3 hp3 hint3
              (sOT_ext hS3 hA01) (sOT_ext hS3 hB1) hevB1s3 hrec4e
          have hS4 : StoreExt s s4 := storeExt_trans hS3 he4
          have he14 : StoreExt s1 s4 :=
            storeExt_trans he2 (storeExt_trans he3 he4)
          have he24 : StoreExt s2 s4 := storeExt_trans he3 he4
          have hlen4 : s4.variable_ordering.length =
              s.variable_ordering.length := by rw [he4.1, hlen3]
          have hcapW : ∀ (t : BDD) (w : Nat) (L : Lvl),
              lookupA w t.node_to_var_id = some L →
              Lvl.natLt mid L = true →
              t.variable_ordering.length = s.variable_ordering.length →
              min (mid + 1) s.variable_ordering.length ≤ capL t w := by
            intro t w L hL hstrict hlen
            have := capL_child hL hstrict
            rw [hlen] at this
            exact this
          have hstrictOf : ∀ {La Lb Lw : Lvl},
              Lvl.natLt mid La = true → Lvl.natLt mid Lb = true →
              Lvl.leL (Lvl.minL La Lb) Lw = true →
              Lvl.natLt mid Lw = true := by
            intro La Lb Lw h1 h2 h3
            exact Lvl.natLt_of_lt_of_le (Lvl.minL_natLt h1 h2) h3
          have hmidA : ∀ {x : Nat},
              (∀ L, lookupA x s.node_to_var_id = some L →
                Lvl.natLt mvp.var_id L = true) →
              ∀ L, lookupA x s.node_to_var_id = some L →
                Lvl.natLt mid L = true := by
            intro x hLx L hL
            refine Lvl.natLt_of_le_of_natLt ?_ (hLx L hL)
            rw [hvidp]
            omega
          have hmidB : ∀ {x : Nat},
              (∀ L, lookupA x s.node_to_var_id = some L →
                Lvl.natLt mv.var_id L = true) →
              ∀ L, lookupA x s.node_to_var_id = some L →
                Lvl.natLt mid L = true := by
            intro x hLx L hL
            have := hLx L hL
            rw [hvid] at this
            exact this
          have hcapW10 : min (mid + 1) s.variable_ordering.length ≤
              capL s4 w10 := by
            obtain ⟨Lw, hLw⟩ := lvl_of_sOT hw1.store hrW10
            obtain ⟨La, hLa'⟩ := lvl_of_sOT hw.store hA10
            obtain ⟨Lb, hLb'⟩ := lvl_of_sOT hw.store hB0
            refine hcapW s4 w10 Lw (he14.2.2.2.1 _ _ hLw) ?_ hlen4
            exact hstrictOf (hmidA hLa10 _ hLa') (hmidB hLb0 _ hLb')
              (hlvl1 La Lb Lw hLa' hLb' hLw)
          have hcapW11 : min (mid + 1) s.variable_ordering.length ≤
              capL s4 w11 := by
            obtain ⟨Lw, hLw⟩ := lvl_of_sOT hw2.store hrW11
            obtain ⟨La, hLa'⟩ := lvl_of_sOT hw.store hA11
            obtain ⟨Lb, hLb'⟩ := lvl_of_sOT hw.store hB1
            refine hcapW s4 w11 Lw (he24.2.2.2.1 _ _ hLw) ?_ hlen4
            exact hstrictOf (hmidA hLa11 _ hLa') (hmidB hLb1 _ hLb')
              (hlvl2 La Lb Lw (he1.2.2.2.1 _ _ hLa')
                (he1.2.2.2.1 _ _ hLb') hLw)
          have hrecD1 := disjF_term fuel s4 w10 w11 hw4
            (sOT_ext he14 hrW10) (sOT_ext he24 hrW11) (by
              rw [hlen4]
              omega)
          rw [Option.isSome_iff_exists] at hrecD1
          obtain ⟨⟨q1, s5⟩, hrecD1e⟩ := hrecD1
          simp only [hrecD1e] at hres
          obtain ⟨hw5, he5, hrQ1, _, _, _, _⟩ :=
            disjF_spec fuel s4 w10 w11 q1 s5 hw4
              (sOT_ext he14 hrW10) (sOT_ext he24 hrW11) hrecD1e
          have he35 : StoreExt s3 s5 := storeExt_trans he4 he5
          have hlen5 : s5.variable_ordering.length =
              s.variable_ordering.length := by rw [he5.1, hlen4]
          have hcapW00 : min (mid + 1) s.variable_ordering.length ≤
              capL s5 w00 := by
            obtain ⟨Lw, hLw⟩ := lvl_of_sOT hw3.store hrW00
            obtain ⟨La, hLa'⟩ := lvl_of_sOT hw.store hA00
            obtain ⟨Lb, hLb'⟩ := lvl_of_sOT hw.store hB0
            refine hcapW s5 w00 Lw (he35.2.2.2.1 _ _ hLw) ?_ hlen5
            exact hstrictOf (hmidA hLa00 _ hLa') (hmidB hLb0 _ hLb')
              (hlvl3 La Lb Lw (hS2.2.2.2.1 _ _ hLa')
                (hS2.2.2.2.1 _ _ hLb') hLw)
          have hcapW01 : min (mid + 1) s.variable_ordering.length ≤
              capL s5 w01 := by
            obtain ⟨Lw, hLw⟩ := lvl_of_sOT hw4.store hrW01
            obtain ⟨La, hLa'⟩ := lvl_of_sOT hw.store hA01
            obtain ⟨Lb, hLb'⟩ := lvl_of_sOT hw.store hB1
            refine hcapW s5 w01 Lw (he5.2.2.2.1 _ _ hLw) ?_ hlen5
            exact hstrictOf (hmidA hLa01 _ hLa') (hmidB hLb1 _ hLb')
              (hlvl4 La Lb Lw (hS3.2.2.2.1 _ _ hLa')
                (hS3.2.2.2.1 _ _ hLb') hLw)
          have hrecD2 := disjF_term fuel s5 w00 w01 hw5
            (sOT_ext he35 hrW00) (sOT_ext he5 hrW01) (by
              rw [hlen5]
              omega)
          rw [Option.isSome_iff_exists] at hrecD2
          obtain ⟨⟨q0, s6⟩, hrecD2e⟩ := hrecD2
          simp only [hrecD2e] at hres
          cases hmk : s6.make mv.var_id q1 q0 with
          | mk r0 s7 =>
          simp only [hmk] at hres
          cases hres

/-- The empty manager satisfies the store invariants. -/
theorem storeInv_init : StoreInv BDD.init := by
  refine ⟨?_, ?_, ?_, ?_, ?_, ?_, ?_, ?_, ?_, ?_, ?_, ?_, ?_, ?_, ?_,
    ?_, ?_, ?_, ?_, ?_, ?_⟩
  · decide
  · decide
  · decide
  · decide
  · decide
  · decide
  · decide
  · decide
  · decide
  · decide
  · decide
  · decide
  · decide
  · decide
  · decide
  · decide
  · decide
  · exact check_ord BDD.init.node_to_row (fun p => p.2.2.1) (fun p => p.2.1)
      BDD.init.node_to_var_id (by decide)
  · exact check_ord BDD.init.node_to_row (fun p => p.2.2.2) (fun p => p.2.1)
      BDD.init.node_to_var_id (by decide)
  · decide
  · exact reg_ids_of_bounded _ (by decide)

theorem wf_init : WF BDD.init :=
  ⟨storeInv_init, fun e he => absurd he (List.not_mem_nil e),
   fun e he => absurd he (List.not_mem_nil e),
   fun e he => absurd he (List.not_mem_nil e)⟩

theorem preOk_init : PreOk BDD.init :=
  fun e he => absurd he (List.not_mem_nil e)

theorem interleaved_init : Interleaved BDD.init := by
  refine ⟨by decide, ?_⟩
  intro i v h
  cases i <;> cases h

/-- The one-variable store `stW` satisfies the store invariants. -/
theorem storeInv_stW : StoreInv stW := by
  refine ⟨?_, ?_, ?_, ?_, ?_, ?_, ?_, ?_, ?_, ?_, ?_, ?_, ?_, ?_, ?_,
    ?_, ?_, ?_, ?_, ?_, ?_⟩
  · decide
  · decide
  · decide
  · decide
  · decide
  · decide
  · decide
  · decide
  · decide
  · decide
  · decide
  · decide
  · decide
  · decide
  · decide
  · decide
  · decide
  · exact check_ord stW.node_to_row (fun p => p.2.2.1) (fun p => p.2.1)
      stW.node_to_var_id (by decide)
  · exact check_ord stW.node_to_row (fun p => p.2.2.2) (fun p => p.2.1)
      stW.node_to_var_id (by decide)
  · decide
  · exact reg_ids_of_bounded _ (by decide)

theorem wf_stW : WF stW :=
  ⟨storeInv_stW, fun e he => absurd he (List.not_mem_nil e),
   fun e he => absurd he (List.not_mem_nil e),
   fun e he => absurd he (List.not_mem_nil e)⟩

/-- C1: canonicity of the engine — two formulas built over the declared
variables through the public operators receive the same node identifier
exactly when they denote the same Boolean function under the fixed
ordering. -/
theorem claim_C1 : ∀ (f g : Formula) (fuel1 fuel2 : Nat) (s : BDD)
    (n1 : Nat) (s1 : BDD) (n2 : Nat) (s2 : BDD),
    WF s →
    buildF fuel1 s f = some (n1, s1) →
    buildF fuel2 s1 g = some (n2, s2) →
    (n1 = n2 ↔ ∀ env, Formula.sem f env = Formula.sem g env) := by
  intro f g fuel1 fuel2 s n1 s1 n2 s2 hw h1 h2
  obtain ⟨hw1, he1, hr1, hsem1⟩ := buildF_spec f fuel1 s n1 s1 hw h1
  obtain ⟨hw2, he2, hr2, hsem2⟩ := buildF_spec g fuel2 s1 n2 s2 hw1 h2
  constructor
  · intro heq env
    rw [← hsem1 env, ← hsem2 env, ← heq]
    exact (bval_ext hw1.store he2 hr1 env).symm
  · intro hsemEq
    refine canon hw2.store (max n1 n2 + 1) n1 n2 (by omega) (by omega)
      (sOT_ext he2 hr1) hr2 ?_
    intro env
    rw [bval_ext hw1.store he2 hr1 env, hsem1 env, hsem2 env]
    exact hsemEq env

theorem claim_C1_witness :
    (2 : Nat) = 2 ↔ ∀ env, Formula.sem (Formula.var 0) env =
      Formula.sem (Formula.neg (Formula.neg (Formula.var 0))) env :=
  claim_C1 (Formula.var 0) (Formula.neg (Formula.neg (Formula.var 0)))
    5 5 stW 2 stW 2 stW2 wf_stW (by decide) (by decide)

/-- C2: cache soundness across garbage collection fails in the code —
after building `x0` (node 2), negating it (node 3, recorded in the `ite`
memo table) and collecting garbage from root `[2]`, the memo table still
maps `(2, 0, 1)` to the evicted identifier `3`, and recomputing the same
`ite` from scratch on the collected store returns `4`, not `3`.  The
`lru_cache` tables are never invalidated by `clear`, so invariant I6 of
the specification does not hold. -/
theorem claim_C2 :
    gcRun.map (fun t => lookupA (2, 0, 1) t.ite_cache) = some (some 3) ∧
    gcRun.map (fun t => lookupA 3 t.node_to_row) = some none ∧
    gcRun.map (fun t => lookupA 3 t.node_to_var_id) = some none ∧
    (gcRun.bind (fun t => iteF 10 (wipeCaches t) 2 0 1)).map Prod.fst =
      some 4 ∧
    (4 : Nat) ≠ 3 := by
  exact ⟨by decide, by decide, by decide, by decide, by decide⟩

/-- C3: `pre_image(T, S)` denotes `∃ x'. T(x, x') ∧ S(x')` for every
interleaved transition relation `T` and unprimed target set `S`; but on
the seed system of the example the returned node is the one denoting
`¬x0 ∧ x1` (node 9), not `¬x0 ∧ ¬x1` (node 8): the state `01`, not `00`,
is the unique predecessor of `10` under the listed transitions. -/
theorem claim_C3 :
    (∀ (fuel : Nat) (s : BDD) (a b r : Nat) (s' : BDD),
      WF s → PreOk s → Interleaved s → sOT s a → sOT s b → EvenSupp s b →
      preF fuel s a b = some (r, s') →
      (∀ env, bval s' r env = true ↔ PreSem s a b env)) ∧
    (preF 10 seedSt19 32 10 = some (9, seedSt20) ∧
     (∀ env, bval seedSt20 9 env = (!(env 0) && env 2)) ∧
     (∀ env, bval seedSt20 8 env = (!(env 0) && !(env 2))) ∧
     (9 : Nat) ≠ 8) := by
  constructor
  · intro fuel s a b r s' hw hp hint ha hb hevb h
    exact (preF_spec fuel s a b r s' hw hp hint ha hb hevb h).2.2.2.2.2.2
  · exact ⟨seedStep20, seed_bval_pre, seed_bval_x00, by decide⟩

theorem claim_C3_witness :
    (bval (BDD.init.putPre (0, 0) 0) 0 (fun _ => false) = true ↔
      PreSem BDD.init 0 0 (fun _ => false)) ∧
    preF 10 seedSt19 32 10 = some (9, seedSt20) :=
  ⟨claim_C3.1 1 BDD.init 0 0 0 (BDD.init.putPre (0, 0) 0) wf_init
      preOk_init interleaved_init (sOT_zero _) (sOT_zero _)
      (evensupp_terminal storeInv_init (Or.inl rfl)) (by decide)
      (fun _ => false),
   claim_C3.2.1⟩

/-- C4: reachability closure of garbage collection — after `clear(R)` a
decision-node record survives exactly when it was stored before and is
reachable from `R` through child edges, the unique-table entries survive
exactly for the surviving nodes, and the two terminal nodes keep their
level entries. -/
theorem claim_C4 : ∀ (fuel : Nat) (s : BDD) (roots : List Nat) (s' : BDD),
    StoreInv s → clearF fuel s roots = some s' →
    ((∀ n, (lookupA n s'.node_to_row).isSome = true ↔
      ((lookupA n s.node_to_row).isSome = true ∧ Reach s roots n)) ∧
     (∀ k m, lookupA k s'.row_to_node = some m ↔
       (lookupA k s.row_to_node = some m ∧ Reach s roots m)) ∧
     lookupA get_zero_node s'.node_to_var_id = some Lvl.inf ∧
     lookupA get_one_node s'.node_to_var_id = some Lvl.inf) := by
  intro fuel s roots s' hs h
  obtain ⟨_, _, _, _, _, _, _, hA, hB, hC, hsi⟩ :=
    clearF_spec fuel s roots s' hs h
  refine ⟨?_, hC, hsi.var_zero, hsi.var_one⟩
  intro n
  constructor
  · intro hsome
    rw [Option.isSome_iff_exists] at hsome
    obtain ⟨row, hrow⟩ := hsome
    obtain ⟨horig, hre⟩ := (hA n row).mp hrow
    exact ⟨by rw [horig]; rfl, hre⟩
  · rintro ⟨hsome, hre⟩
    rw [Option.isSome_iff_exists] at hsome
    obtain ⟨row, hrow⟩ := hsome
    rw [(hA n row).mpr ⟨hrow, hre⟩]
    rfl

theorem claim_C4_witness :
    ((lookupA 5 BDD.init.node_to_row).isSome = true ↔
      ((lookupA 5 BDD.init.node_to_row).isSome = true ∧
        Reach BDD.init [] 5)) ∧
    lookupA get_zero_node BDD.init.node_to_var_id = some Lvl.inf := by
  have hc := claim_C4 5 BDD.init [] BDD.init storeInv_init (by decide)
  exact ⟨hc.1 5, hc.2.2.1⟩

/-- C5: the claim that every source satisfies `or(0, 0) = 0` is false —
the older source `src/pydd/bdd/bdd.py` returns `1` on `or(0, 0)` (its
`a == b and a == 0` branch returns the 1-node), while the main source
`src/pydd/bdd.py` returns `0` as the specification mandates. -/
theorem claim_C5 :
    (disjunctionV2F 1 BDD.init 0 0).map Prod.fst = some get_one_node ∧
    (disjF 1 BDD.init 0 0).map Prod.fst = some get_zero_node ∧
    get_one_node ≠ get_zero_node := by
  exact ⟨by decide, by decide, by decide⟩

/-- C6: the claim that every source defines `not(a) = ite(a, 0, 1)` is
false — the older source `src/pydd/bdd/bdd.py` defines
`neg(a) = ite(a, 1, 0)`, which is the identity map, so `not(1) = 1`
there; the main source `src/pydd/bdd.py` returns `not(1) = 0`. -/
theorem claim_C6 :
    (negV2F 1 BDD.init get_one_node).map Prod.fst = some get_one_node ∧
    (negF 1 BDD.init get_one_node).map Prod.fst = some get_zero_node ∧
    get_one_node ≠ get_zero_node := by
  exact ⟨by decide, by decide, by decide⟩

/-- C7: the spec base-case equations of `conjunction` hold for all stored
or terminal operands, including the unwritten short-circuits `and(1, b)
= b`, `and(b, 1) = b` and `and(a, a) = a`, which follow from the
recursion together with hash-consing canonicity. -/
theorem claim_C7 : ∀ (fuel : Nat) (s : BDD) (a b r : Nat) (s' : BDD),
    WF s → sOT s a → sOT s b →
    conjF fuel s a b = some (r, s') →
    ((a = get_zero_node ∨ b = get_zero_node → r = get_zero_node) ∧
     (a = get_one_node → r = b) ∧
     (b = get_one_node → r = a) ∧
     (a = b → r = a)) := by
  intro fuel s a b r s' hw ha hb h
  obtain ⟨hw', he', hr', _, _, hsem⟩ := conjF_spec fuel s a b r s' hw ha hb h
  have hsa : sOT s' a := sOT_ext he' ha
  have hsb : sOT s' b := sOT_ext he' hb
  refine ⟨?_, ?_, ?_, ?_⟩
  · intro h0
    refine canon hw'.store (r + 1) r get_zero_node (Nat.lt_succ_self r)
      (Nat.succ_pos r) hr' (sOT_zero _) ?_
    intro env
    rw [hsem env, bval_term_zero]
    rcases h0 with h0 | h0 <;> rw [h0, bval_term_zero]
    · rfl
    · simp
  · intro h1
    refine canon hw'.store (max r b + 1) r b (by omega) (by omega)
      hr' hsb ?_
    intro env
    rw [hsem env, h1, bval_term_one, bval_ext hw.store he' hb env,
      Bool.true_and]
  · intro h1
    refine canon hw'.store (max r a + 1) r a (by omega) (by omega)
      hr' hsa ?_
    intro env
    rw [hsem env, h1, bval_term_one, bval_ext hw.store he' ha env,
      Bool.and_true]
  · intro hab
    refine canon hw'.store (max r a + 1) r a (by omega) (by omega)
      hr' hsa ?_
    intro env
    rw [hsem env, ← hab, bval_ext hw.store he' ha env, Bool.and_self]

theorem claim_C7_witness :
    ((1 : Nat) = get_zero_node ∨ (1 : Nat) = get_zero_node →
      (1 : Nat) = get_zero_node) ∧
    ((1 : Nat) = get_one_node → (1 : Nat) = (1 : Nat)) ∧
    ((1 : Nat) = get_one_node → (1 : Nat) = (1 : Nat)) ∧
    ((1 : Nat) = (1 : Nat) → (1 : Nat) = (1 : Nat)) :=
  claim_C7 1 BDD.init 1 1 1 (BDD.init.putAnd (1, 1) 1) wf_init
    (sOT_one _) (sOT_one _) (by decide)

/-- C8: the store invariants I1 (no stored decision node has equal
children) and I2 (the node-to-row and row-to-node maps are mutually
inverse) hold after every public operation: variable creation, variable
node creation, `neg`, `conjunction`, `disjunction`, `ite`, `pre_image`
and `clear`. -/
theorem claim_C8 :
    (∀ (s : BDD) (nm : String) (prim : Bool) (v : BDDVar) (s1 : BDD),
      StoreInv s → s.var_id = s.variable_ordering.length →
      s.create_variable nm prim = (v, s1) → I1I2 s1) ∧
    (∀ (s : BDD) (nm : String) (prim : Bool) (r : Nat) (s1 : BDD),
      StoreInv s → s.var_id = s.variable_ordering.length →
      s.create_variable_node nm prim = (r, s1) → I1I2 s1) ∧
    (∀ (fuel : Nat) (s : BDD) (a r : Nat) (s' : BDD),
      WF s → sOT s a → negF fuel s a = some (r, s') → I1I2 s') ∧
    (∀ (fuel : Nat) (s : BDD) (a b r : Nat) (s' : BDD),
      WF s → sOT s a → sOT s b → conjF fuel s a b = some (r, s') →
      I1I2 s') ∧
    (∀ (fuel : Nat) (s : BDD) (a b r : Nat) (s' : BDD),
      WF s → sOT s a → sOT s b → disjF fuel s a b = some (r, s') →
      I1I2 s') ∧
    (∀ (fuel : Nat) (s : BDD) (a b c r : Nat) (s' : BDD),
      WF s → sOT s a → sOT s b → sOT s c →
      iteF fuel s a b c = some (r, s') → I1I2 s') ∧
    (∀ (fuel : Nat) (s : BDD) (a b r : Nat) (s' : BDD),
      WF s → PreOk s → Interleaved s → sOT s a → sOT s b →
      EvenSupp s b → preF fuel s a b = some (r, s') → I1I2 s') ∧
    (∀ (fuel : Nat) (s : BDD) (roots : List Nat) (s' : BDD),
      StoreInv s → clearF fuel s roots = some s' → I1I2 s') := by
  refine ⟨?_, ?_, ?_, ?_, ?_, ?_, ?_, ?_⟩
  · intro s nm prim v s1 hs hvc h
    exact I1I2_of_storeInv (create_variable_spec hs hvc h).1
  · intro s nm prim r s1 hs hvc h
    exact I1I2_of_storeInv (create_variable_node_spec hs hvc h).1
  · intro fuel s a r s' hw ha h
    exact I1I2_of_storeInv (negF_spec hw ha h).1.store
  · intro fuel s a b r s' hw ha hb h
    exact I1I2_of_storeInv (conjF_spec fuel s a b r s' hw ha hb h).1.store
  · intro fuel s a b r s' hw ha hb h
    exact I1I2_of_storeInv (disjF_spec fuel s a b r s' hw ha hb h).1.store
  · intro fuel s a b c r s' hw ha hb hc h
    exact I1I2_of_storeInv
      (iteF_spec fuel s a b c r s' hw ha hb hc h).1.store
  · intro fuel s a b r s' hw hp hint ha hb hevb h
    exact I1I2_of_storeInv
      (preF_spec fuel s a b r s' hw hp hint ha hb hevb h).1.store
  · intro fuel s roots s' hs h
    exact I1I2_of_storeInv (clearF_spec fuel s roots s' hs h).2.2.2.2.2.2.2.2.2.2

theorem claim_C8_witness :
    I1I2 (BDD.init.create_variable "x" false).2 ∧
    I1I2 (BDD.init.create_variable_node "x" false).2 ∧
    I1I2 (BDD.init.putIte (0, 0, 1) 1) ∧
    I1I2 (BDD.init.putAnd (0, 0) 0) ∧
    I1I2 (BDD.init.putOr (0, 0) 0) ∧
    I1I2 (BDD.init.putIte (1, 0, 0) 0) ∧
    I1I2 (BDD.init.putPre (0, 0) 0) ∧
    I1I2 BDD.init :=
  ⟨claim_C8.1 BDD.init "x" false _ _ storeInv_init rfl rfl,
   claim_C8.2.1 BDD.init "x" false _ _ storeInv_init rfl rfl,
   claim_C8.2.2.1 1 BDD.init 0 1 (BDD.init.putIte (0, 0, 1) 1) wf_init
     (sOT_zero _) (by decide),
   claim_C8.2.2.2.1 1 BDD.init 0 0 0 (BDD.init.putAnd (0, 0) 0) wf_init
     (sOT_zero _) (sOT_zero _) (by decide),
   claim_C8.2.2.2.2.1 1 BDD.init 0 0 0 (BDD.init.putOr (0, 0) 0) wf_init
     (sOT_zero _) (sOT_zero _) (by decide),
   claim_C8.2.2.2.2.2.1 1 BDD.init 1 0 0 0 (BDD.init.putIte (1, 0, 0) 0)
     wf_init (sOT_one _) (sOT_zero _) (sOT_zero _) (by decide),
   claim_C8.2.2.2.2.2.2.1 1 BDD.init 0 0 0 (BDD.init.putPre (0, 0) 0)
     wf_init preOk_init interleaved_init (sOT_zero _) (sOT_zero _)
     (evensupp_terminal storeInv_init (Or.inl rfl)) (by decide),
   claim_C8.2.2.2.2.2.2.2 5 BDD.init [] BDD.init storeInv_init
     (by decide)⟩

/-- C9: termination — on a well-formed store, `ite`, `conjunction` and
`disjunction` always return within `n` levels of recursion where `n` is
the number of declared variables; `pre_image` does too on an interleaved
registry when the target set ranges over the unprimed variables.  In the
fueled model, fuel equal to the number of declared variables suffices. -/
theorem claim_C9 :
    (∀ (fuel : Nat) (s : BDD) (a b c : Nat),
      WF s → sOT s a → sOT s b → sOT s c →
      s.variable_ordering.length ≤ fuel →
      (iteF fuel s a b c).isSome = true) ∧
    (∀ (fuel : Nat) (s : BDD) (a b : Nat),
      WF s → sOT s a → sOT s b →
      s.variable_ordering.length ≤ fuel →
      (conjF fuel s a b).isSome = true) ∧
    (∀ (fuel : Nat) (s : BDD) (a b : Nat),
      WF s → sOT s a → sOT s b →
      s.variable_ordering.length ≤ fuel →
      (disjF fuel s a b).isSome = true) ∧
    (∀ (fuel : Nat) (s : BDD) (a b : Nat),
      WF s → PreOk s → Interleaved s → sOT s a → sOT s b →
      EvenSupp s b → s.variable_ordering.length ≤ fuel →
      (preF fuel s a b).isSome = true) := by
  refine ⟨?_, ?_, ?_, ?_⟩
  · intro fuel s a b c hw ha hb hc hfuel
    exact iteF_term fuel s a b c hw ha hb hc (by omega)
  · intro fuel s a b hw ha hb hfuel
    exact conjF_term fuel s a b hw ha hb (by omega)
  · intro fuel s a b hw ha hb hfuel
    exact disjF_term fuel s a b hw ha hb (by omega)
  · intro fuel s a b hw hp hint ha hb hevb hfuel
    exact preF_term fuel s a b hw hp hint ha hb hevb (by omega)

theorem claim_C9_witness :
    (iteF 0 BDD.init 0 0 0).isSome = true ∧
    (conjF 0 BDD.init 0 0).isSome = true ∧
    (disjF 0 BDD.init 0 0).isSome = true ∧
    (preF 0 BDD.init 0 0).isSome = true :=
  ⟨claim_C9.1 0 BDD.init 0 0 0 wf_init (sOT_zero _) (sOT_zero _)
     (sOT_zero _) (by decide),
   claim_C9.2.1 0 BDD.init 0 0 wf_init (sOT_zero _) (sOT_zero _)
     (by decide),
   claim_C9.2.2.1 0 BDD.init 0 0 wf_init (sOT_zero _) (sOT_zero _)
     (by decide),
   claim_C9.2.2.2 0 BDD.init 0 0 wf_init preOk_init interleaved_init
     (sOT_zero _) (sOT_zero _)
     (evensupp_terminal storeInv_init (Or.inl rfl)) (by decide)⟩

/-- C10: node identifiers are never reused — the allocation counter
starts at 2 and only ever grows, `clear` does not reset it, every public
operation only increases it, and a freshly allocated identifier equals
the counter and strictly exceeds every identifier stored so far. -/
theorem claim_C10 :
    BDD.init.node_id = 2 ∧
    (∀ (s : BDD) (vid h l r : Nat) (s' : BDD),
      StoreInv s → s.make vid h l = (r, s') →
      (s.node_id ≤ s'.node_id ∧
       (h ≠ l → lookupA (vid, h, l) s.row_to_node = none →
         (r = s.node_id ∧ s'.node_id = s.node_id + 1 ∧
          ∀ p ∈ s.node_to_row, p.1 < r)))) ∧
    (∀ (fuel : Nat) (s : BDD) (roots : List Nat) (s' : BDD),
      StoreInv s → clearF fuel s roots = some s' →
      s'.node_id = s.node_id) ∧
    (∀ (fuel : Nat) (s : BDD) (a b c r : Nat) (s' : BDD),
      WF s → sOT s a → sOT s b → sOT s c →
      iteF fuel s a b c = some (r, s') → s.node_id ≤ s'.node_id) ∧
    (∀ (fuel : Nat) (s : BDD) (a b r : Nat) (s' : BDD),
      WF s → sOT s a → sOT s b → conjF fuel s a b = some (r, s') →
      s.node_id ≤ s'.node_id) ∧
    (∀ (fuel : Nat) (s : BDD) (a b r : Nat) (s' : BDD),
      WF s → sOT s a → sOT s b → disjF fuel s a b = some (r, s') →
      s.node_id ≤ s'.node_id) ∧
    (∀ (fuel : Nat) (s : BDD) (a b r : Nat) (s' : BDD),
      WF s → PreOk s → Interleaved s → sOT s a → sOT s b →
      EvenSupp s b → preF fuel s a b = some (r, s') →
      s.node_id ≤ s'.node_id) := by
  refine ⟨rfl, ?_, ?_, ?_, ?_, ?_, ?_⟩
  · intro s vid h l r s' hs hm
    rw [BDD.make] at hm
    by_cases hhl : h = l
    · rw [if_pos hhl] at hm
      injection hm with h1 h2
      subst h2
      exact ⟨Nat.le_refl _, fun hne _ => absurd hhl hne⟩
    · rw [if_neg hhl] at hm
      cases hfind : lookupA (vid, h, l) s.row_to_node with
      | some m =>
        rw [hfind] at hm
        injection hm with h1 h2
        subst h2
        refine ⟨Nat.le_refl _, fun _ hnone => ?_⟩
        cases hnone
      | none =>
        rw [hfind] at hm
        injection hm with h1 h2
        subst h2
        refine ⟨Nat.le_succ _, fun _ _ => ⟨h1.symm, rfl, ?_⟩⟩
        intro p hp
        rw [← h1]
        exact hs.rows_lt_id _ hp
  · intro fuel s roots s' hs h
    exact (clearF_spec fuel s roots s' hs h).2.2.1
  · intro fuel s a b c r s' hw ha hb hc h
    exact (iteF_spec fuel s a b c r s' hw ha hb hc h).2.1.2.1
  · intro fuel s a b r s' hw ha hb h
    exact (conjF_spec fuel s a b r s' hw ha hb h).2.1.2.1
  · intro fuel s a b r s' hw ha hb h
    exact (disjF_spec fuel s a b r s' hw ha hb h).2.1.2.1
  · intro fuel s a b r s' hw hp hint ha hb hevb h
    exact (preF_spec fuel s a b r s' hw hp hint ha hb hevb h).2.2.1.2.1

theorem claim_C10_witness :
    BDD.init.node_id ≤ (BDD.init.make 0 1 0).2.node_id ∧
    BDD.init.node_id = BDD.init.node_id ∧
    BDD.init.node_id ≤ (BDD.init.putIte (1, 0, 0) 0).node_id ∧
    BDD.init.node_id ≤ (BDD.init.putPre (0, 0) 0).node_id :=
  ⟨(claim_C10.2.1 BDD.init 0 1 0 _ _ storeInv_init rfl).1,
   claim_C10.2.2.1 5 BDD.init [] BDD.init storeInv_init (by decide),
   claim_C10.2.2.2.1 1 BDD.init 1 0 0 0 (BDD.init.putIte (1, 0, 0) 0)
     wf_init (sOT_one _) (sOT_zero _) (sOT_zero _) (by decide),
   claim_C10.2.2.2.2.2.2 1 BDD.init 0 0 0 (BDD.init.putPre (0, 0) 0)
     wf_init preOk_init interleaved_init (sOT_zero _) (sOT_zero _)
     (evensupp_terminal storeInv_init (Or.inl rfl)) (by decide)⟩

/-- C3, the spec's seed answer refuted: the node returned by the seed
pre-image is true at the state `x0 = 0, x1 = 1`, while the claimed
function `¬x0 ∧ ¬x1` is false there, and the returned identifier differs
from the identifier of the `¬x0 ∧ ¬x1` node. -/
theorem claim_C3_counterexample :
    preF 10 seedSt19 32 10 = some (9, seedSt20) ∧
    bval seedSt20 9 (fun l => decide (l = 2)) = true ∧
    bval seedSt20 8 (fun l => decide (l = 2)) = false ∧
    (9 : Nat) ≠ 8 := by
  exact ⟨seedStep20, by decide, by decide, by decide⟩
